import Mathlib

/-
Verification of the campus-navigation routing engine.

This file gives a shallow embedding, in Lean 4, of the routing core of the
repository: the destination catalog (src/data/destinations.ts), the graph
builder (src/lib/graph.ts), the road A* search and its mode evaluator
(src/lib/road-pathfinding.ts), the hybrid planner and its A* search and mode
evaluator (src/lib/pathfinding.ts), and the gate-restricted hybrid planner
(src/lib/hybrid-routing.ts).

Modelling conventions:
  * JavaScript numbers are embedded as rationals (ℚ).  The transcendental
    haversine distance cannot be written as a computable ℚ function, so every
    function that calls `haversine` is parameterised by an argument
    `hav : ℚ → ℚ → ℚ → ℚ → ℚ` standing for it; concrete instantiations in
    counterexamples use a computable surrogate that agrees with the real
    haversine on the facts the trace needs (zero on equal points, positive and
    order-compatible on the distinct points involved).
  * JS `Map`s are embedded as association lists (lookup is by key; the source
    maps have unique keys); JS `Set`s as duplicate-free lists in insertion
    order, since the searches iterate sets in insertion order.
  * The JS idiom `x || d` on numbers is falsy on 0 and on undefined; this is
    modelled exactly (see jsOrInf / jsOr0) because the A* main loop reads
    `fScore.get(n) || Infinity`, which really does treat a stored 0 as ∞.
  * Node identifiers are strings, as in the source.  The source derives them
    from coordinates with `toFixed(8)`; we use the exact rational printed via
    toString, which is deterministic and injective like the source intends.
  * `while` loops are embedded as fuel recursion.  Where the source has its
    own bound (the 10000-iteration cap of pathfinding.ts) that bound is the
    fuel; otherwise the fuel is provably larger than the number of iterations
    the loop can make, so the artificial out-of-fuel branch is unreachable.
-/

namespace Tracking

/-! ### JavaScript string and number semantics helpers

All string operations are implemented by structural recursion on the
character list, so that concrete traces reduce inside the kernel. -/

def charsIsPrefix : List Char → List Char → Bool
  | [], _ => true
  | _ :: _, [] => false
  | p :: ps, c :: cs => p == c && charsIsPrefix ps cs

def charsIncludes : List Char → List Char → Bool
  | [], sub => sub.isEmpty
  | c :: rest, sub => charsIsPrefix sub (c :: rest) || charsIncludes rest sub

/-- JS `String.prototype.includes`: substring test. -/
def jsIncludes (s sub : String) : Bool :=
  charsIncludes s.data sub.data

/-- Split at the first occurrence of `pat`: `(before, after)`. -/
def charsSplitFirst : List Char → List Char → Option (List Char × List Char)
  | [], pat => if pat.isEmpty then some ([], []) else none
  | c :: rest, pat =>
    if charsIsPrefix pat (c :: rest) then some ([], (c :: rest).drop pat.length)
    else (charsSplitFirst rest pat).map (fun p => (c :: p.1, p.2))

/-- JS `String.prototype.replace` with a string pattern replaces only the
first occurrence. -/
def replaceFirst (s pat repl : String) : String :=
  match charsSplitFirst s.data pat.data with
  | none => s
  | some (before, after) => ⟨before ++ repl.data ++ after⟩

/-- First two components of JS `s.split(' -> ')`, as used by the destructuring
`const [condition, allowedMode] = mode.split(' -> ')`.  When the separator
does not occur the second component is undefined in JS; all uses are guarded
by an `includes(' -> ')` check, so the placeholder `""` is never observed. -/
def splitArrow (tag : String) : String × String :=
  match charsSplitFirst tag.data " -> ".data with
  | none => (tag, "")
  | some (before, after) =>
    match charsSplitFirst after " -> ".data with
    | none => (⟨before⟩, ⟨after⟩)
    | some (mid, _) => (⟨before⟩, ⟨mid⟩)

/-- JS `String.prototype.toLowerCase` (ASCII, as the compared names are). -/
def jsToLower (s : String) : String :=
  ⟨s.data.map Char.toLower⟩

def charsTrimLeft : List Char → List Char
  | [] => []
  | c :: r =>
    if c == ' ' || c == '\t' || c == '\n' || c == '\r' then charsTrimLeft r else c :: r

/-- JS `String.prototype.trim`. -/
def jsTrim (s : String) : String :=
  ⟨(charsTrimLeft (charsTrimLeft s.data.reverse)).reverse⟩

/-- JS `String.prototype.startsWith`. -/
def jsStartsWith (s pre : String) : Bool :=
  charsIsPrefix pre.data s.data

/-! ### Kernel-reducible rational arithmetic

The library operations `Rat.add`, `Rat.sub`, `Rat.mul`, `Rat.inv` and
`Rat.ofScientific` are `@[irreducible]`, so concrete traces written with them
cannot be checked by `decide`.  The embedding therefore uses the following
`mkRat`-based operations; the `_eq` lemmas identify them with the ordinary
field operations, so the general theorems still speak about `+ - * /`.
Non-integer numeric literals are likewise written `mkRat p q`. -/

def qAdd (a b : ℚ) : ℚ := mkRat (a.num * b.den + b.num * a.den) (a.den * b.den)

def qSub (a b : ℚ) : ℚ := mkRat (a.num * b.den - b.num * a.den) (a.den * b.den)

def qMul (a b : ℚ) : ℚ := mkRat (a.num * b.num) (a.den * b.den)

def qDiv (a b : ℚ) : ℚ :=
  let n := a.num * (b.den : ℤ)
  let d := (a.den : ℤ) * b.num
  if d < 0 then mkRat (-n) (-d).toNat else mkRat n d.toNat

lemma qAdd_eq (a b : ℚ) : qAdd a b = a + b := by
  have ha : (a.den : ℚ) ≠ 0 := by exact_mod_cast a.den_nz
  have hb : (b.den : ℚ) ≠ 0 := by exact_mod_cast b.den_nz
  rw [qAdd, Rat.mkRat_eq_div]
  conv_rhs => rw [← Rat.num_div_den a, ← Rat.num_div_den b]
  push_cast
  field_simp

lemma qSub_eq (a b : ℚ) : qSub a b = a - b := by
  have ha : (a.den : ℚ) ≠ 0 := by exact_mod_cast a.den_nz
  have hb : (b.den : ℚ) ≠ 0 := by exact_mod_cast b.den_nz
  rw [qSub, Rat.mkRat_eq_div]
  conv_rhs => rw [← Rat.num_div_den a, ← Rat.num_div_den b]
  push_cast
  field_simp
  ring

lemma qMul_eq (a b : ℚ) : qMul a b = a * b := by
  have ha : (a.den : ℚ) ≠ 0 := by exact_mod_cast a.den_nz
  have hb : (b.den : ℚ) ≠ 0 := by exact_mod_cast b.den_nz
  rw [qMul, Rat.mkRat_eq_div]
  conv_rhs => rw [← Rat.num_div_den a, ← Rat.num_div_den b]
  push_cast
  field_simp

lemma qDiv_eq (a b : ℚ) : qDiv a b = a / b := by
  have ha : (a.den : ℚ) ≠ 0 := by exact_mod_cast a.den_nz
  have hb : (b.den : ℚ) ≠ 0 := by exact_mod_cast b.den_nz
  have hda : (0:ℤ) < a.den := by exact_mod_cast a.pos
  rw [qDiv]
  rcases lt_trichotomy ((a.den : ℤ) * b.num) 0 with h | h | h
  · have hbn : b.num ≠ 0 := by rintro h0; rw [h0, mul_zero] at h; exact lt_irrefl 0 h
    have hbnq : ((b.num : ℚ)) ≠ 0 := by exact_mod_cast hbn
    rw [if_pos h, Rat.mkRat_eq_div]
    have key : (((-((a.den:ℤ) * b.num)).toNat : ℕ) : ℚ) = -(((a.den:ℤ) * b.num : ℤ) : ℚ) := by
      rw [← Int.cast_natCast, Int.toNat_of_nonneg (by omega)]
      push_cast
      ring
    rw [key]
    conv_rhs => rw [← Rat.num_div_den a, ← Rat.num_div_den b]
    push_cast
    field_simp
  · have hbn : b.num = 0 := by
      rcases mul_eq_zero.mp h with h' | h'
      · omega
      · exact h'
    have hb0 : b = 0 := Rat.num_eq_zero.mp hbn
    rw [if_neg (by omega), hb0, div_zero]
    simp [mkRat]
  · have hbn : b.num ≠ 0 := by rintro h0; rw [h0, mul_zero] at h; exact lt_irrefl 0 h
    have hbnq : ((b.num : ℚ)) ≠ 0 := by exact_mod_cast hbn
    rw [if_neg (by omega), Rat.mkRat_eq_div]
    have key : ((((a.den:ℤ) * b.num).toNat : ℕ) : ℚ) = (((a.den:ℤ) * b.num : ℤ) : ℚ) := by
      rw [← Int.cast_natCast, Int.toNat_of_nonneg (le_of_lt h)]
    rw [key]
    conv_rhs => rw [← Rat.num_div_den a, ← Rat.num_div_den b]
    push_cast
    field_simp

/-! ### Destination catalog (src/data/destinations.ts) -/

structure Destination where
  id : String
  name : String
  /-- stored as (lng, lat), exactly like the source arrays -/
  coordinates : ℚ × ℚ
  dtype : String
  category : String
deriving DecidableEq, Repr

def destinations : List Destination := [
  ⟨"gate1", "Gate 1", (mkRat 7743481925768538 100000000000000, mkRat 12863850429793658 1000000000000000), "entrance", "entrance"⟩,
  ⟨"gate2", "Gate 2", (mkRat 7743546296330163 100000000000000, mkRat 1286470316433497 100000000000000), "entrance", "entrance"⟩,
  ⟨"parking-2wheeler", "2-Wheeler square parking", (mkRat 774374163344977 10000000000000, mkRat 12863552296439337 1000000000000000), "parking", "parking"⟩,
  ⟨"parking-4wheeler", "4-Wheeler parking", (mkRat 7743669981966787 100000000000000, mkRat 1286239674425859 100000000000000), "parking", "parking"⟩,
  ⟨"architecture-parking", "Architecture Block Parking", (mkRat 7743821903615282 100000000000000, mkRat 12860409482350079 1000000000000000), "parking", "parking"⟩,
  ⟨"devadan-parking", "Devadan Block Parking", (mkRat 7743975872567984 100000000000000, mkRat 128602477931111 10000000000000), "parking", "parking"⟩,
  ⟨"block1-ent1", "Block 1 Entrance 1", (mkRat 7743782561277385 100000000000000, mkRat 12863109667613244 1000000000000000), "entrance", "academic"⟩,
  ⟨"block1-ent2", "Block 1 Entrance 2", (mkRat 7743808994247621 100000000000000, mkRat 12862903964780855 1000000000000000), "entrance", "academic"⟩,
  ⟨"block2-ent1", "Block 2 Entrance 1", (mkRat 7743845694186865 100000000000000, mkRat 12862808722038366 1000000000000000), "entrance", "academic"⟩,
  ⟨"block2-ent2", "Block 2 Entrance 2", (mkRat 7743820756575195 100000000000000, mkRat 128629320428591 10000000000000), "entrance", "academic"⟩,
  ⟨"block3-ent1", "Block 3 Entrance 1", (mkRat 774387243884484 10000000000000, mkRat 128626924481634 10000000000000), "entrance", "academic"⟩,
  ⟨"block3-ent2", "Block 3 Entrance 2", (mkRat 7743897376456675 100000000000000, mkRat 12862551509943302 1000000000000000), "entrance", "academic"⟩,
  ⟨"block4-ent1", "Block 4 Entrance 1", (mkRat 7743902484895551 100000000000000, mkRat 12862229785762992 1000000000000000), "entrance", "academic"⟩,
  ⟨"block4-ent2", "Block 4 Entrance 2", (mkRat 7743900135700119 100000000000000, mkRat 12862488760013122 1000000000000000), "entrance", "academic"⟩,
  ⟨"block5-ent1", "Block 5 Entrance 1", (mkRat 7743871742444207 100000000000000, mkRat 12862062935829513 1000000000000000), "entrance", "academic"⟩,
  ⟨"block6-ent1", "Block 6 Entrance 1", (mkRat 7743985429471928 100000000000000, mkRat 12862176933718871 1000000000000000), "entrance", "academic"⟩,
  ⟨"block6-ent2", "Block 6 Entrance 2", (mkRat 7743970972885603 100000000000000, mkRat 12862302016579704 1000000000000000), "entrance", "academic"⟩,
  ⟨"mens-hostel-a", "Men\x27s Hostel Block A", (mkRat 7743938149190649 100000000000000, mkRat 12859847831427828 1000000000000000), "building", "hostel"⟩,
  ⟨"mens-hostel-b", "Men\x27s Hostel Block B", (mkRat 7743937209634873 100000000000000, mkRat 12859829511643255 1000000000000000), "building", "hostel"⟩,
  ⟨"mens-hostel-c", "Men\x27s Hostel Block C", (mkRat 7743930069011583 100000000000000, mkRat 12859862487255171 1000000000000000), "building", "hostel"⟩,
  ⟨"mens-hostel-d", "Men\x27s Hostel Block D", (mkRat 7743930256922778 100000000000000, mkRat 1285988630297149 100000000000000), "building", "hostel"⟩,
  ⟨"girls-hostel", "Girls Hostel", (mkRat 774390190811809 10000000000000, mkRat 12862529869112151 1000000000000000), "building", "hostel"⟩,
  ⟨"architecture-block", "Architecture Block Basement", (mkRat 7743846839394229 100000000000000, mkRat 12860418016623058 1000000000000000), "building", "academic"⟩,
  ⟨"devadan-block1-ent1", "Devadan Block 1 Entrance 1", (mkRat 7743965035462793 100000000000000, mkRat 12860308098057388 1000000000000000), "entrance", "academic"⟩,
  ⟨"devadan-block1-ent2", "Devadan Block 1 Entrance 2", (mkRat 774393363943725 10000000000000, mkRat 12859626161266974 1000000000000000), "entrance", "academic"⟩,
  ⟨"devadan-block2", "Devadan Block 2", (mkRat 7743930835635507 100000000000000, mkRat 1286036488927816 100000000000000), "building", "academic"⟩,
  ⟨"pu-block", "PU Block", (mkRat 7743719150389848 100000000000000, mkRat 12860438142311537 1000000000000000), "building", "academic"⟩,
  ⟨"center-excellence", "Center of Excellence", (mkRat 7743870838907469 100000000000000, mkRat 1286203298638948 100000000000000), "building", "academic"⟩,
  ⟨"chapel-ent1", "Chapel Entrance 1", (mkRat 7743774627547754 100000000000000, mkRat 12860274300115066 1000000000000000), "entrance", "facility"⟩,
  ⟨"chapel-ent2", "Chapel Entrance 2", (mkRat 7743763242978787 100000000000000, mkRat 12860302488052369 1000000000000000), "entrance", "facility"⟩,
  ⟨"old-mech-workshop", "Old Mech Workshop", (mkRat 7743838323365014 100000000000000, mkRat 1286226633159616 100000000000000), "building", "facility"⟩,
  ⟨"guest-house", "Private Guest House", (mkRat 7743940975535367 100000000000000, mkRat 12862328442692856 1000000000000000), "building", "facility"⟩,
  ⟨"students-square", "Students Square", (mkRat 7743825 100000, mkRat 12862250 1000000), "facility", "facility"⟩,
  ⟨"basketball-front1", "Basketball Front 1", (mkRat 7743717633019247 100000000000000, mkRat 12861919275431703 1000000000000000), "facility", "sports"⟩,
  ⟨"basketball-front2", "Basketball Front 2", (mkRat 7743713476750696 100000000000000, mkRat 12861665585797084 1000000000000000), "facility", "sports"⟩,
  ⟨"basketball-back1", "Basketball Back 1", (mkRat 7743532700490272 100000000000000, mkRat 12861315811543236 1000000000000000), "facility", "sports"⟩,
  ⟨"basketball-back2", "Basketball Back 2", (mkRat 774351390692783 10000000000000, mkRat 12861373948854848 1000000000000000), "facility", "sports"⟩,
  ⟨"ground1", "Ground 1", (mkRat 7743687450360937 100000000000000, mkRat 12861833627388421 1000000000000000), "facility", "sports"⟩,
  ⟨"ground2", "Ground 2", (mkRat 774414007929206 10000000000000, mkRat 12858504091691202 1000000000000000), "facility", "sports"⟩,
  ⟨"tennis-court", "Tennis Court", (mkRat 77436922418873 1000000000000, mkRat 1286121002757936 100000000000000), "facility", "sports"⟩,
  ⟨"amphi-theater1", "Amphi Theater 1", (mkRat 7743871079931074 100000000000000, mkRat 12860093756972347 1000000000000000), "facility", "facility"⟩,
  ⟨"amphi-theater2", "Amphi Theater 2", (mkRat 7743806431459484 100000000000000, mkRat 12860944057375377 1000000000000000), "facility", "facility"⟩,
  ⟨"band-stand", "Band Stand", (mkRat 7743653931712652 100000000000000, mkRat 12862741655288488 1000000000000000), "facility", "facility"⟩,
  ⟨"north-canteen", "North Canteen", (mkRat 77439229285024 1000000000000, mkRat 12859701272437263 1000000000000000), "facility", "dining"⟩,
  ⟨"kns-canteen", "KNS Canteen", (mkRat 7743683399502129 100000000000000, mkRat 12862644094750792 1000000000000000), "facility", "dining"⟩,
  ⟨"punjabi-bites", "Panjabi Bites Canteen", (mkRat 7743763362144955 100000000000000, mkRat 12863268422383427 1000000000000000), "facility", "dining"⟩,
  ⟨"mba-canteen", "MBA Canteen", (mkRat 7743760483011465 100000000000000, mkRat 12863216962928576 1000000000000000), "facility", "dining"⟩,
  ⟨"block1-canteen", "Block 1 Canteen Entrance", (mkRat 7743782162225921 100000000000000, mkRat 12863098055917249 1000000000000000), "entrance", "dining"⟩]

/-- `startDestination?.name?.includes(sub)` with an optional record. -/
def optNameIncludes (d : Option Destination) (sub : String) : Bool :=
  match d with
  | none => false
  | some dd => jsIncludes dd.name sub

/-- `d?.name?.toLowerCase().includes(sub.toLowerCase())`. -/
def optNameLowerIncludes (d : Option Destination) (sub : String) : Bool :=
  match d with
  | none => false
  | some dd => jsIncludes (jsToLower dd.name) (jsToLower sub)

/-! ### Mode tables (src/lib/pathfinding.ts) -/

/-- MODE_SPEEDS: traversal speed per mode, meters/second. -/
def MODE_SPEEDS : String → Option ℚ
  | "W" => some (mkRat 7 5)
  | "2" => some 5
  | "4" => some 8
  | "4PA" => some 4
  | "4PI" => some 6
  | _ => none

/-- MODE_COLORS of pathfinding.ts. -/
def MODE_COLORS : String → Option String
  | "W" => some "#10B981"
  | "2" => some "#3B82F6"
  | "4" => some "#8B5CF6"
  | "4PA" => some "#F97316"
  | "4PI" => some "#EF4444"
  | _ => none

end Tracking

namespace Tracking.Pathfinding

/-! ### Mode-access evaluator of src/lib/pathfinding.ts (checkModeAccess) -/

/-- The conditional-tag branch of checkModeAccess: a tag of shape
`if <condition> -> <mode>`, split on the arrow, condition prefix `if `
stripped (first occurrence, as JS replace does). -/
def conditionalAllows (sd gd : Option Destination) (selectedMode tag : String) : Bool :=
  let p := splitArrow tag
  let conditionText := replaceFirst p.1 "if " ""
  let allowedMode := p.2
  if allowedMode == selectedMode || jsIncludes allowedMode selectedMode then
    (jsIncludes conditionText "Architecture Block Parking" &&
      optNameIncludes gd "Architecture Block Parking")
    || (jsIncludes conditionText "Men\x27s Hostel Block A/B/C/D Pickup" &&
      optNameIncludes sd "Men\x27s Hostel Block")
    || (jsIncludes conditionText "Devadan Block Parking" && optNameIncludes gd "Devadan")
    || (jsIncludes conditionText "Girls Hostel" && optNameIncludes sd "Girls Hostel")
    || (jsIncludes conditionText "Block 1 Entrance 1" && optNameIncludes gd "Block 1 Entrance 1")
    || optNameLowerIncludes gd conditionText
    || optNameLowerIncludes sd conditionText
  else false

/-- One iteration of the `for (const mode of edgeModes)` loop of
checkModeAccess: true exactly when that iteration would `return true`. -/
def tagAllows (sd gd : Option Destination) (selectedMode tag : String) : Bool :=
  (tag == selectedMode)
  || (selectedMode == "W" && jsIncludes tag "W")
  || (selectedMode != "W" && tag == selectedMode)
  || (jsIncludes tag "if " && jsIncludes tag " -> " &&
      conditionalAllows sd gd selectedMode tag)
  || jsIncludes tag selectedMode

/-- checkModeAccess of pathfinding.ts.  An empty tag list allows everything;
otherwise the tag loop runs (each iteration can only return true, so the loop
is `List.any`), and the final fallback allows Walking and denies the rest. -/
def checkModeAccess (edgeModes : List String) (selectedMode : String)
    (startDestination goalDestination : Option Destination) : Bool :=
  if edgeModes.isEmpty then true
  else if edgeModes.any (tagAllows startDestination goalDestination selectedMode) then true
  else selectedMode == "W"

end Tracking.Pathfinding

namespace Tracking.RoadPathfinding

/-! ### Mode-access evaluator of src/lib/road-pathfinding.ts (isEdgeModeAllowed) -/

/-- The conditional-tag branch of isEdgeModeAllowed. -/
def roadConditionalAllows (sd gd : Option Destination) (selectedMode tag : String) : Bool :=
  let p := splitArrow tag
  let conditionText := jsTrim (replaceFirst p.1 "if " "")
  let allowedMode := p.2
  let canUseMode := allowedMode == selectedMode
    || (selectedMode == "4" && (allowedMode == "4PA" || allowedMode == "4PI"))
  if canUseMode then
    (jsIncludes conditionText "Architecture Block Parking" &&
      optNameLowerIncludes gd "architecture" && optNameLowerIncludes gd "parking")
    || (jsIncludes conditionText "Men\x27s Hostel Block A/B/C/D Pickup" &&
      (optNameLowerIncludes sd "men\x27s hostel" || optNameLowerIncludes gd "men\x27s hostel"))
    || ((jsIncludes conditionText "Devadan Block Parking" ||
        jsIncludes conditionText "Devadan Parking") &&
      optNameLowerIncludes gd "devadan" && optNameLowerIncludes gd "parking")
    || (jsIncludes conditionText "Girls Hostel" &&
      (optNameLowerIncludes sd "girls hostel" || optNameLowerIncludes gd "girls hostel"))
    || (jsIncludes conditionText "Block 1 Entrance 1" &&
      optNameLowerIncludes gd "block 1 entrance 1")
    || (jsStartsWith conditionText "destination is " &&
      optNameLowerIncludes gd (jsTrim (replaceFirst conditionText "destination is " "")))
    || optNameLowerIncludes gd conditionText
    || optNameLowerIncludes sd conditionText
  else false

/-- One iteration of the tag loop of isEdgeModeAllowed. -/
def roadTagAllows (sd gd : Option Destination) (selectedMode tag : String) : Bool :=
  (tag == selectedMode)
  || (selectedMode == "W" && tag == "W")
  || (selectedMode == "4" && (tag == "4PA" || tag == "4PI"))
  || (jsIncludes tag "if " && jsIncludes tag " -> " &&
      roadConditionalAllows sd gd selectedMode tag)

/-- isEdgeModeAllowed of road-pathfinding.ts.  Note: unlike checkModeAccess it
has no empty-list rule and no Walking fallback, so it returns false on an
empty tag list and on a Walking request that matches no tag. -/
def isEdgeModeAllowed (edgeModes : List String) (selectedMode : String)
    (sd gd : Option Destination) : Bool :=
  edgeModes.any (roadTagAllows sd gd selectedMode)

end Tracking.RoadPathfinding

namespace Tracking.GraphLib

/-! ### Graph builder of src/lib/graph.ts -/

/-- GraphNode of graph.ts.  `ntype` embeds the source field `type`. -/
structure GraphNode where
  id : String
  lat : ℚ
  lng : ℚ
  ntype : String
  name : Option String
deriving DecidableEq, Repr

/-- GraphEdge of graph.ts.  `efrom`/`eto` embed the source fields `from`/`to`
(`from` is a Lean keyword).  Edge coordinates are (lng, lat) pairs as in the
source. -/
structure GraphEdge where
  id : String
  efrom : String
  eto : String
  distance : ℚ
  modes : List String
  surface : String
  coordinates : List (ℚ × ℚ)
  name : String
deriving DecidableEq, Repr

/-- Graph of graph.ts: nodes and adjacency are JS Maps, embedded as
association lists in insertion order; edges is an array. -/
structure Graph where
  nodes : List GraphNode
  edges : List GraphEdge
  adjacency : List (String × List String)
deriving DecidableEq, Repr

/-- generateNodeId.  The source renders the coordinates with `toFixed(8)`;
printing the exact rational is the analogous deterministic, injective key. -/
def generateNodeId (lat lng : ℚ) : String :=
  "node_" ++ toString lat ++ "_" ++ toString lng

/-- findOrCreateNearbyNode: first node (in map insertion order) within the
snap tolerance wins, otherwise a fresh coordinate-keyed id.  `hav` stands for
the haversine function. -/
def findOrCreateNearbyNode (hav : ℚ → ℚ → ℚ → ℚ → ℚ) (nodes : List GraphNode)
    (lat lng : ℚ) (tolerance : ℚ) : String :=
  match nodes.find? (fun n => hav lat lng n.lat n.lng ≤ tolerance) with
  | some n => n.id
  | none => generateNodeId lat lng

def generateEdgeId (fromId toId : String) : String :=
  "edge_" ++ fromId ++ "_" ++ toId

/-- One GeoJSON feature, as far as the builder reads it: a Point feature with
its name property, or a LineString with its coordinate list ((lng, lat)
pairs) and mode/surface/name properties (absent properties are `none`). -/
inductive GeoFeature
  | point (lng lat : ℚ) (name : Option String)
  | line (coordinates : List (ℚ × ℚ)) (mode : Option (List String))
      (surface : Option String) (name : Option String)
deriving DecidableEq, Repr

/-- `adjacency.get(k)?.push(v)`: append when the key exists, else no-op. -/
def adjPush (adj : List (String × List String)) (k v : String) :
    List (String × List String) :=
  adj.map (fun p => if p.1 = k then (p.1, p.2 ++ [v]) else p)

/-- `if (!adjacency.has(k)) adjacency.set(k, [])`. -/
def adjEnsure (adj : List (String × List String)) (k : String) :
    List (String × List String) :=
  if (adj.find? (fun p => p.1 = k)).isSome then adj else adj ++ [(k, [])]

/-- First pass of buildGraphFromGeoJSON: every Point feature becomes a
destination node (no snapping). -/
def addPointFeature (st : Graph) : GeoFeature → Graph
  | .point lng lat name =>
    let nodeId := generateNodeId lat lng
    if (st.nodes.find? (fun n => n.id = nodeId)).isSome then st
    else { st with nodes := st.nodes ++ [⟨nodeId, lat, lng, "destination", name⟩],
                   adjacency := st.adjacency ++ [(nodeId, [])] }
  | _ => st

/-- Resolve/create the node for the current coordinate of the LineString
loop (the `Add node if not exists` block); `isEndpoint` is
`i === 0 || i === coordinates.length - 1`. -/
def resolveCurrent (hav : ℚ → ℚ → ℚ → ℚ → ℚ) (isEndpoint : Bool) (c : ℚ × ℚ)
    (st : Graph) : Graph :=
  let nodeId := findOrCreateNearbyNode hav st.nodes c.2 c.1 2
  if (st.nodes.find? (fun n => n.id = nodeId)).isSome then st
  else { st with
    nodes := st.nodes ++
      [⟨nodeId, c.2, c.1, if isEndpoint then "endpoint" else "intersection", none⟩],
    adjacency := st.adjacency ++ [(nodeId, [])] }

/-- The `Create edge to next point` block: resolve the next coordinate (its
node is not added to the map yet), push the forward and then the backward
edge, and update both adjacency lists. -/
def addSegmentEdges (hav : ℚ → ℚ → ℚ → ℚ → ℚ) (modes : List String)
    (surface name : String) (c next : ℚ × ℚ) (st1 : Graph) : Graph :=
  let nodeId := findOrCreateNearbyNode hav st1.nodes c.2 c.1 2
  let nextNodeId := findOrCreateNearbyNode hav st1.nodes next.2 next.1 2
  let distance := hav c.2 c.1 next.2 next.1
  let edge : GraphEdge :=
    ⟨generateEdgeId nodeId nextNodeId, nodeId, nextNodeId, distance, modes, surface,
      [(c.1, c.2), (next.1, next.2)], name⟩
  let reverseEdge : GraphEdge :=
    ⟨generateEdgeId nextNodeId nodeId, nextNodeId, nodeId, distance, modes, surface,
      [(next.1, next.2), (c.1, c.2)], name⟩
  let st2 := { st1 with edges := st1.edges ++ [edge],
                        adjacency := adjPush st1.adjacency nodeId nextNodeId }
  { st2 with edges := st2.edges ++ [reverseEdge],
             adjacency := adjPush (adjEnsure st2.adjacency nextNodeId) nextNodeId nodeId }

/-- The `for (let i = 0; ...)` loop of the LineString pass.  `first` tracks
`i === 0`. -/
def lineStep (hav : ℚ → ℚ → ℚ → ℚ → ℚ) (modes : List String)
    (surface name : String) :
    Bool → List (ℚ × ℚ) → Graph → Graph
  | _, [], st => st
  | _, [c], st => resolveCurrent hav true c st
  | first, c :: next :: rest, st =>
    lineStep hav modes surface name false (next :: rest)
      (addSegmentEdges hav modes surface name c next (resolveCurrent hav first c st))

/-- buildGraphFromGeoJSON of graph.ts: destination-point pass, then the
LineString pass with defaulted properties (`mode || ['W']`,
`surface || 'unknown'`, `name || ''`). -/
def buildGraphFromGeoJSON (hav : ℚ → ℚ → ℚ → ℚ → ℚ)
    (features : List GeoFeature) : Graph :=
  let st1 := features.foldl addPointFeature ⟨[], [], []⟩
  features.foldl (fun st f =>
    match f with
    | .line coords mode surface name =>
        lineStep hav (mode.getD ["W"]) (surface.getD "unknown") (name.getD "") true coords st
    | _ => st) st1

/-- findNearestNode of graph.ts: strict-improvement scan in map order. -/
def findNearestNode (hav : ℚ → ℚ → ℚ → ℚ → ℚ) (nodes : List GraphNode)
    (lat lng : ℚ) : Option (String × ℚ) :=
  nodes.foldl (fun acc n =>
    let d := hav lat lng n.lat n.lng
    match acc with
    | none => some (n.id, d)
    | some (bid, bd) => if d < bd then some (n.id, d) else some (bid, bd)) none

/-! ### Edge pairing (claim C8) -/

/-- e' is the backward twin of e: endpoints swapped, identical length and
identical mode tags. -/
def reverseOf (e e' : GraphEdge) : Prop :=
  e'.efrom = e.eto ∧ e'.eto = e.efrom ∧ e'.distance = e.distance ∧ e'.modes = e.modes

/-- The edge list consists of consecutive (forward, backward) twin pairs. -/
inductive PairedEdges : List GraphEdge → Prop
  | nil : PairedEdges []
  | cons (e e' : GraphEdge) (rest : List GraphEdge) :
      reverseOf e e' → PairedEdges rest → PairedEdges (e :: e' :: rest)

lemma PairedEdges.append_pair {l : List GraphEdge} {e e' : GraphEdge}
    (h : PairedEdges l) (hr : reverseOf e e') : PairedEdges (l ++ [e, e']) := by
  induction h with
  | nil => exact PairedEdges.cons e e' [] hr PairedEdges.nil
  | cons a a' rest hra _ ih => exact PairedEdges.cons a a' (rest ++ [e, e']) hra ih

lemma resolveCurrent_edges (hav : ℚ → ℚ → ℚ → ℚ → ℚ) (isEndpoint : Bool)
    (c : ℚ × ℚ) (st : Graph) : (resolveCurrent hav isEndpoint c st).edges = st.edges := by
  simp only [resolveCurrent]
  split <;> rfl

lemma addSegmentEdges_paired (hav : ℚ → ℚ → ℚ → ℚ → ℚ) (modes : List String)
    (surface name : String) (c next : ℚ × ℚ) (st1 : Graph)
    (h : PairedEdges st1.edges) :
    PairedEdges (addSegmentEdges hav modes surface name c next st1).edges := by
  unfold addSegmentEdges
  simp only [List.append_assoc]
  exact h.append_pair ⟨rfl, rfl, rfl, rfl⟩

lemma lineStep_paired (hav : ℚ → ℚ → ℚ → ℚ → ℚ) (modes : List String)
    (surface name : String) :
    ∀ (coords : List (ℚ × ℚ)) (first : Bool) (st : Graph),
      PairedEdges st.edges →
      PairedEdges (lineStep hav modes surface name first coords st).edges := by
  intro coords
  induction coords with
  | nil => intro first st h; exact h
  | cons c rest ih =>
    intro first st h
    cases rest with
    | nil =>
      show PairedEdges (resolveCurrent hav true c st).edges
      rw [resolveCurrent_edges]
      exact h
    | cons next rest' =>
      show PairedEdges (lineStep hav modes surface name false (next :: rest')
        (addSegmentEdges hav modes surface name c next (resolveCurrent hav first c st))).edges
      apply ih
      apply addSegmentEdges_paired
      rw [resolveCurrent_edges]
      exact h

lemma addPointFeature_edges (st : Graph) (f : GeoFeature) :
    (addPointFeature st f).edges = st.edges := by
  cases f with
  | point lng lat name =>
    simp only [addPointFeature]
    split <;> rfl
  | line coords mode surface name => rfl

lemma addPointFeature_foldl_edges (features : List GeoFeature) (st : Graph) :
    (features.foldl addPointFeature st).edges = st.edges := by
  induction features generalizing st with
  | nil => rfl
  | cons f fs ih => rw [List.foldl_cons, ih, addPointFeature_edges]

/-- Claim C8 (amended part): every edge list a build produces is a sequence of
consecutive forward/backward twin pairs: each ingested hop contributes a
forward edge immediately followed by a backward edge between the same node
pair with identical distance and identical mode tags, so the graph has no
one-way edge. -/
theorem c8_edges_come_in_twin_pairs (hav : ℚ → ℚ → ℚ → ℚ → ℚ)
    (features : List GeoFeature) :
    PairedEdges (buildGraphFromGeoJSON hav features).edges := by
  unfold buildGraphFromGeoJSON
  have h0 : PairedEdges (features.foldl addPointFeature ⟨[], [], []⟩).edges := by
    rw [addPointFeature_foldl_edges]
    exact PairedEdges.nil
  generalize features.foldl addPointFeature ⟨[], [], []⟩ = st0 at h0 ⊢
  induction features generalizing st0 with
  | nil => exact h0
  | cons f fs ih =>
    rw [List.foldl_cons]
    apply ih
    cases f with
    | point lng lat name => exact h0
    | line coords mode surface name => exact lineStep_paired hav _ _ _ coords true st0 h0

end Tracking.GraphLib

namespace Tracking

/-! ### Computable haversine surrogate for concrete traces

`havSq` is flat-squared distance.  Like the real haversine it is zero exactly
on coinciding coordinate pairs and positive on distinct ones; the concrete
counterexample graphs below only depend on those facts (their nearest-node
and snapping decisions are between a point at distance zero and points
clearly farther away), so every concrete trace in this file evaluates the
source the way the real haversine does. -/
def havSq (la1 ln1 la2 ln2 : ℚ) : ℚ :=
  qAdd (qMul (qSub la1 la2) (qSub la1 la2)) (qMul (qSub ln1 ln2) (qSub ln1 ln2))

end Tracking

namespace Tracking.GraphLib

/-- A LineString whose two consecutive coordinates coincide; the second
coordinate snaps to the node created for the first one. -/
def selfLoopFeatures : List GeoFeature := [.line [(1, 1), (1, 1)] (some ["W"]) none none]

/-- Claim C8, counterexample to the `no self-loop edges` part: ingesting a
segment whose consecutive coordinates resolve to the same node makes
buildGraphFromGeoJSON emit two self-loop edges (graph.ts has no
`nodeId !== nextNodeId` guard, unlike road-pathfinding.ts). -/
theorem c8_counterexample_self_loop :
    (buildGraphFromGeoJSON havSq selfLoopFeatures).edges.map
      (fun e => e.efrom == e.eto) = [true, true] := by decide

end Tracking.GraphLib

namespace Tracking.Pathfinding

/-- Claim C6, counterexample: the mode-access evaluator of
road-pathfinding.ts does not permit every Walking request — an edge tagged
only for four-wheelers (and likewise an untagged edge) denies Walking, since
that evaluator lacks both the empty-list rule and the Walking fallback. -/
theorem c6_counterexample_walking_denied :
    RoadPathfinding.isEdgeModeAllowed ["4"] "W" none none = false ∧
      RoadPathfinding.isEdgeModeAllowed [] "W" none none = false := by
  constructor <;> rfl

/-- Claim C6 (amended): for checkModeAccess of pathfinding.ts the claim
holds — every Walking request is permitted for every tag list and every
start/end destination context (final fallback rule), and a non-Walking
request on a non-empty tag list whose tag loop matches no rule is denied. -/
theorem c6_checkModeAccess_walking_fallback (edgeModes : List String)
    (sd gd : Option Destination) (m : String) (hm : m ≠ "W")
    (hne : edgeModes ≠ [])
    (hnone : ∀ t ∈ edgeModes, tagAllows sd gd m t = false) :
    checkModeAccess edgeModes "W" sd gd = true ∧
      checkModeAccess edgeModes m sd gd = false := by
  constructor
  · unfold checkModeAccess
    split
    · rfl
    · split
      · rfl
      · rfl
  · unfold checkModeAccess
    rw [if_neg, if_neg]
    · simp [hm]
    · rw [List.any_eq_true]
      rintro ⟨t, ht, hta⟩
      rw [hnone t ht] at hta
      exact Bool.false_ne_true hta
    · simpa [List.isEmpty_iff] using hne

/-- Witness for c6_checkModeAccess_walking_fallback at the concrete tag list
`['4']` and requested mode `'2'`. -/
theorem c6_checkModeAccess_walking_fallback_witness :
    checkModeAccess ["4"] "W" none none = true ∧
      checkModeAccess ["4"] "2" none none = false :=
  c6_checkModeAccess_walking_fallback ["4"] none none "2" (by decide) (by decide)
    (by decide)

end Tracking.Pathfinding

namespace Tracking.RoadPathfinding

/-- PathResult of road-pathfinding.ts. -/
structure PathResult where
  path : List String
  coordinates : List (ℚ × ℚ)
  distance : ℚ
  found : Bool
deriving DecidableEq, Repr

end Tracking.RoadPathfinding

namespace Tracking.HybridRouting

/-! ### Hybrid route planner of src/lib/hybrid-routing.ts

`calculateHybridRoute` there receives `calculateRoadRoute` as a function
argument together with the GeoJSON data, so the embedding is parameterised by
an opaque data type `α` and a road-route function on it.  The one unguarded
property access of the planner (`startDestination.name` in the special
two-wheeler branch) is modelled in `Except`: reaching it with an absent
record is the thrown `TypeError`. -/

structure RouteSegment where
  mode : String
  path : List String
  coordinates : List (ℚ × ℚ)
  distance : ℚ
  /-- `ROUTE_COLORS[mode]` can be undefined for an unknown mode. -/
  color : Option String
  description : String
deriving DecidableEq, Repr

structure HybridRoute where
  segments : List RouteSegment
  totalDistance : ℚ
  found : Bool
deriving DecidableEq, Repr

/-- The type of the `calculateRoadRoute` function argument. -/
def RoadRouteFn (α : Type) : Type :=
  α → ℚ → ℚ → ℚ → ℚ → String → Option Destination → Option Destination →
    RoadPathfinding.PathResult

def SPECIAL_PARKING_DEVADHAN : String := "devadan-parking"
def SPECIAL_PARKING_ARCHITECTURE : String := "architecture-parking"
def SPECIAL_PARKING_TWO_WHEELER : String := "parking-2wheeler"
def SPECIAL_PARKING_FOUR_WHEELER : String := "parking-4wheeler"

/-- GATE_RESTRICTIONS lookup; an unknown mode gives `[]` (the `|| []` in
getValidStartGates). -/
def GATE_RESTRICTIONS : String → List String
  | "4" => ["gate1"]
  | "2" => ["gate2"]
  | "W" => ["gate1", "gate2"]
  | _ => []

/-- ROUTE_COLORS of hybrid-routing.ts. -/
def ROUTE_COLORS : String → Option String
  | "4" => some "#FF6B6B"
  | "2" => some "#4ECDC4"
  | "W" => some "#45B7D1"
  | "4PA" => some "#FF9F43"
  | "4PI" => some "#FFA07A"
  | _ => none

def allowsDirectVehicleAccess (destinationId vehicleMode : String) : Bool :=
  if vehicleMode == "4" then
    destinationId == SPECIAL_PARKING_DEVADHAN || destinationId == SPECIAL_PARKING_ARCHITECTURE
  else if vehicleMode == "2" then
    destinationId == SPECIAL_PARKING_DEVADHAN
  else false

/-- needs2WheelerSpecialRouting; the id is optional because the caller passes
`endDestination?.id`. -/
def needs2WheelerSpecialRouting (destinationId : Option String) (vehicleMode : String) : Bool :=
  vehicleMode == "2" && destinationId == some SPECIAL_PARKING_ARCHITECTURE

def getValidStartGates (mode : String) : List String :=
  GATE_RESTRICTIONS mode

def isValidStartPoint (startDestinationId : String) (mode : String) : Bool :=
  (getValidStartGates mode).contains startDestinationId

def getIntermediateParking (mode : String) : Option Destination :=
  let parkingId := if mode == "4" then SPECIAL_PARKING_FOUR_WHEELER else SPECIAL_PARKING_TWO_WHEELER
  destinations.find? (fun d => d.id = parkingId)

def vehicleLabel (mode : String) : String :=
  if mode == "4" then "4-Wheeler" else "2-Wheeler"

/-- The direct-access branch: when the destination is in the static
allow-list for the vehicle mode and the road route succeeds, the planner
returns that single leg; in every other case it falls through. -/
def directAccessStep {α : Type} (geo : α) (roadRoute : RoadRouteFn α)
    (startLat startLng endLat endLng : ℚ) (mode : String)
    (sd ed? : Option Destination) : Option HybridRoute :=
  match ed? with
  | none => none
  | some ed =>
    if (mode == "4" || mode == "2") && allowsDirectVehicleAccess ed.id mode then
      let directRoute := roadRoute geo startLat startLng endLat endLng mode sd ed?
      if directRoute.found then
        some ⟨[⟨mode, directRoute.path, directRoute.coordinates, directRoute.distance,
                ROUTE_COLORS mode, vehicleLabel mode ++ " route to " ++ ed.name⟩],
              directRoute.distance, true⟩
      else none
    else none

/-- The special two-wheeler multi-hop branch (Gate 2 → Devadhan →
Architecture parking).  `none` means the branch is not triggered; when it is
triggered it always produces a result — or the TypeError of the unguarded
`startDestination.name` at the description of its first leg. -/
def specialRoutingStep {α : Type} (geo : α) (roadRoute : RoadRouteFn α)
    (startLat startLng endLat endLng : ℚ) (mode : String)
    (sd ed? : Option Destination) : Except String (Option HybridRoute) :=
  match ed? with
  | none => .ok none
  | some ed =>
    if needs2WheelerSpecialRouting (some ed.id) mode then
      match destinations.find? (fun d => d.id = SPECIAL_PARKING_DEVADHAN) with
      | none => .ok (some ⟨[], 0, false⟩)
      | some devadhanParking =>
        let vehicleToDevadhan := roadRoute geo startLat startLng
          devadhanParking.coordinates.2 devadhanParking.coordinates.1 mode sd (some devadhanParking)
        if !vehicleToDevadhan.found then .ok (some ⟨[], 0, false⟩)
        else
          let devadhanToArchitecture := roadRoute geo
            devadhanParking.coordinates.2 devadhanParking.coordinates.1 endLat endLng mode
            (some devadhanParking) ed?
          if !devadhanToArchitecture.found then .ok (some ⟨[], 0, false⟩)
          else
            match sd with
            | none => .error "TypeError"
            | some sdv =>
              .ok (some ⟨[
                ⟨mode, vehicleToDevadhan.path, vehicleToDevadhan.coordinates,
                  vehicleToDevadhan.distance, ROUTE_COLORS mode,
                  "2-Wheeler route from " ++ sdv.name ++ " to " ++ devadhanParking.name⟩,
                ⟨mode, devadhanToArchitecture.path, devadhanToArchitecture.coordinates,
                  devadhanToArchitecture.distance, ROUTE_COLORS mode,
                  "2-Wheeler route from " ++ devadhanParking.name ++ " to " ++ ed.name⟩],
                qAdd vehicleToDevadhan.distance devadhanToArchitecture.distance, true⟩)
    else .ok none

/-- The generic vehicle → parking → walking branch.  `none` means not
triggered (walking mode, no end destination, or no intermediate parking
record); a triggered branch always returns, with the empty failure route when
either leg fails. -/
def genericHybridStep {α : Type} (geo : α) (roadRoute : RoadRouteFn α)
    (startLat startLng endLat endLng : ℚ) (mode : String)
    (sd ed? : Option Destination) : Option HybridRoute :=
  match ed? with
  | none => none
  | some ed =>
    if mode == "4" || mode == "2" then
      match getIntermediateParking mode with
      | none => none
      | some intermediateParking =>
        let vehicleRoute := roadRoute geo startLat startLng
          intermediateParking.coordinates.2 intermediateParking.coordinates.1 mode sd
          (some intermediateParking)
        if !vehicleRoute.found then some ⟨[], 0, false⟩
        else
          let walkingRoute := roadRoute geo
            intermediateParking.coordinates.2 intermediateParking.coordinates.1 endLat endLng
            "W" (some intermediateParking) ed?
          if !walkingRoute.found then some ⟨[], 0, false⟩
          else
            some ⟨[
              ⟨mode, vehicleRoute.path, vehicleRoute.coordinates, vehicleRoute.distance,
                ROUTE_COLORS mode, vehicleLabel mode ++ " route to " ++ intermediateParking.name⟩,
              ⟨"W", walkingRoute.path, walkingRoute.coordinates, walkingRoute.distance,
                ROUTE_COLORS "W",
                "Walking route from " ++ intermediateParking.name ++ " to " ++ ed.name⟩],
              qAdd vehicleRoute.distance walkingRoute.distance, true⟩
    else none

/-- The final direct-routing fallback under the originally requested mode. -/
def directFallbackStep {α : Type} (geo : α) (roadRoute : RoadRouteFn α)
    (startLat startLng endLat endLng : ℚ) (mode : String)
    (sd ed? : Option Destination) : HybridRoute :=
  let directRoute := roadRoute geo startLat startLng endLat endLng mode sd ed?
  if directRoute.found then
    ⟨[⟨mode, directRoute.path, directRoute.coordinates, directRoute.distance,
        (ROUTE_COLORS mode).orElse (fun _ => ROUTE_COLORS "W"),
        (if mode == "W" then "Walking"
         else if mode == "4" then "4-Wheeler"
         else if mode == "2" then "2-Wheeler"
         else "Direct") ++ " route to " ++
          (match ed? with
           | some e => if e.name = "" then "destination" else e.name
           | none => "destination")⟩],
      directRoute.distance, true⟩
  else ⟨[], 0, false⟩

/-- calculateHybridRoute of hybrid-routing.ts: gate validity check, then the
strategies in source order, each earlier strategy's fall-through feeding the
next one. -/
def calculateHybridRoute {α : Type} (geo : α) (roadRoute : RoadRouteFn α)
    (startLat startLng endLat endLng : ℚ) (mode : String)
    (sd ed? : Option Destination) : Except String HybridRoute :=
  if (mode == "4" || mode == "2") &&
      (match sd with
       | some s => !(isValidStartPoint s.id mode)
       | none => false) then
    .ok ⟨[], 0, false⟩
  else
    match directAccessStep geo roadRoute startLat startLng endLat endLng mode sd ed? with
    | some r => .ok r
    | none =>
      match specialRoutingStep geo roadRoute startLat startLng endLat endLng mode sd ed? with
      | .error e => .error e
      | .ok (some r) => .ok r
      | .ok none =>
        match genericHybridStep geo roadRoute startLat startLng endLat endLng mode sd ed? with
        | some r => .ok r
        | none => .ok (directFallbackStep geo roadRoute startLat startLng endLat endLng mode sd ed?)

end Tracking.HybridRouting

namespace Tracking

instance {ε σ : Type} [DecidableEq ε] [DecidableEq σ] : DecidableEq (Except ε σ) :=
  fun a b =>
    match a, b with
    | .ok x, .ok y =>
      if h : x = y then isTrue (by subst h; rfl)
      else isFalse (by intro hc; injection hc; contradiction)
    | .error x, .error y =>
      if h : x = y then isTrue (by subst h; rfl)
      else isFalse (by intro hc; injection hc; contradiction)
    | .ok _, .error _ => isFalse (fun hc => Except.noConfusion hc)
    | .error _, .ok _ => isFalse (fun hc => Except.noConfusion hc)

end Tracking

namespace Tracking.HybridRouting

/-- A road-route oracle that always succeeds. -/
def okOracle : RoadRouteFn Unit := fun _ _ _ _ _ _ _ _ => ⟨["a", "b"], [(0, 0), (1, 1)], 10, true⟩

/-- A start-destination record with the Gate 2 id. -/
def gate2Dest : Destination := ⟨"gate2", "Gate 2", (0, 0), "entrance", "entrance"⟩

/-- An end-destination record with the architecture-parking id. -/
def archDest : Destination :=
  ⟨"architecture-parking", "Architecture Block Parking", (1, 1), "parking", "parking"⟩

/-- An ordinary end-destination record (not in any vehicle allow-list). -/
def block1Dest : Destination := ⟨"block1-ent1", "Block 1 Entrance 1", (2, 2), "entrance", "academic"⟩

/-- Claim C1: a vehicle-mode query whose supplied start destination id is not
in the mode's allowed gate set returns found=false with an empty segment
list, and this is independent of the road-route function — no routing
strategy is ever consulted — and holds for every requested destination. -/
theorem c1_gate_restriction {α : Type} (geo : α) (roadRoute : RoadRouteFn α)
    (startLat startLng endLat endLng : ℚ) (mode : String) (sd : Destination)
    (ed? : Option Destination) (hmode : mode = "4" ∨ mode = "2")
    (hgate : isValidStartPoint sd.id mode = false) :
    calculateHybridRoute geo roadRoute startLat startLng endLat endLng mode (some sd) ed? =
      .ok ⟨[], 0, false⟩ := by
  unfold calculateHybridRoute
  rcases hmode with h | h <;> subst h <;> simp [hgate]

/-- Witness for c1_gate_restriction: four-wheeler mode with start destination
Gate 2, against an oracle that would happily find every road route. -/
theorem c1_gate_restriction_witness :
    (("4" = "4" ∨ "4" = "2") ∧ isValidStartPoint gate2Dest.id "4" = false) ∧
      calculateHybridRoute () okOracle 0 0 1 1 "4" (some gate2Dest) (some block1Dest) =
        .ok ⟨[], 0, false⟩ :=
  ⟨⟨Or.inl rfl, by decide⟩,
    c1_gate_restriction () okOracle 0 0 1 1 "4" gate2Dest (some block1Dest)
      (Or.inl rfl) (by decide)⟩

/-- Claim C9, counterexample: a two-wheeler query to the architecture parking
with no start destination record, on a graph where both special legs succeed,
throws (the unguarded `startDestination.name` in the special branch) instead
of returning a found=false value. -/
theorem c9_counterexample_throws :
    calculateHybridRoute () okOracle 0 0 1 1 "2" none (some archDest) =
      .error "TypeError" := by decide

/-- Claim C9 (amended): calculateHybridRoute returns a HybridRoute value — the
not-found outcome being found=false with an empty segment list, never an
exception — for every input except the one throwing combination: special
two-wheeler routing to the architecture parking with no start destination
supplied and both special legs found.  The hypothesis states exactly that
boundary: with no start record on the special branch, the second leg fails
whenever the first is found. -/
theorem c9_total_except_special_gap {α : Type} (geo : α) (roadRoute : RoadRouteFn α)
    (startLat startLng endLat endLng : ℚ) (mode : String)
    (sd ed? : Option Destination)
    (hsafe : sd = none →
      needs2WheelerSpecialRouting (ed?.map Destination.id) mode = true →
      ∀ dev, destinations.find? (fun d => d.id = SPECIAL_PARKING_DEVADHAN) = some dev →
        (roadRoute geo startLat startLng dev.coordinates.2 dev.coordinates.1 mode none
          (some dev)).found = true →
        (roadRoute geo dev.coordinates.2 dev.coordinates.1 endLat endLng mode (some dev)
          ed?).found = false) :
    ∃ r : HybridRoute,
      calculateHybridRoute geo roadRoute startLat startLng endLat endLng mode sd ed? =
        .ok r := by
  have hnoerr : ∀ e, specialRoutingStep geo roadRoute startLat startLng endLat endLng mode
      sd ed? ≠ .error e := by
    intro e he
    unfold specialRoutingStep at he
    cases hed : ed? with
    | none => rw [hed] at he; cases he
    | some ed =>
      rw [hed] at he
      dsimp only at he
      by_cases hneed : needs2WheelerSpecialRouting (some ed.id) mode = true
      · rw [if_pos hneed] at he
        cases hsd : sd with
        | some s =>
          rw [hsd] at he
          revert he
          cases destinations.find? (fun d => d.id = SPECIAL_PARKING_DEVADHAN) with
          | none => intro he; cases he
          | some dev =>
            intro he
            dsimp only at he
            split at he
            · cases he
            · split at he
              · cases he
              · cases he
        | none =>
          rw [hsd] at he
          have hneed2 : needs2WheelerSpecialRouting (ed?.map Destination.id) mode = true := by
            rw [hed]
            exact hneed
          cases hdev : destinations.find? (fun d => d.id = SPECIAL_PARKING_DEVADHAN) with
          | none =>
            rw [hdev] at he
            cases he
          | some dev =>
            rw [hdev] at he
            dsimp only at he
            by_cases h1 : (roadRoute geo startLat startLng dev.coordinates.2
                dev.coordinates.1 mode none (some dev)).found = true
            · have h2 := hsafe hsd hneed2 dev hdev h1
              rw [hed] at h2
              rw [if_neg (by rw [h1]; simp)] at he
              try dsimp only at he
              rw [if_pos (by rw [h2]; rfl)] at he
              cases he
            · have h1f : (roadRoute geo startLat startLng dev.coordinates.2
                  dev.coordinates.1 mode none (some dev)).found = false := by
                simp only [Bool.not_eq_true] at h1
                exact h1
              rw [if_pos (by rw [h1f]; rfl)] at he
              cases he
      · rw [if_neg (by simpa using hneed)] at he
        cases he
  cases hs : specialRoutingStep geo roadRoute startLat startLng endLat endLng mode sd ed? with
  | error e => exact absurd hs (hnoerr e)
  | ok o =>
    unfold calculateHybridRoute
    split
    · exact ⟨_, rfl⟩
    · cases hda : directAccessStep geo roadRoute startLat startLng endLat endLng mode sd ed? with
      | some r => exact ⟨r, rfl⟩
      | none =>
        rw [hs]
        cases o with
        | some r => exact ⟨r, rfl⟩
        | none =>
          cases hg : genericHybridStep geo roadRoute startLat startLng endLat endLng mode
              sd ed? with
          | some r => exact ⟨r, rfl⟩
          | none => exact ⟨_, rfl⟩

/-- An oracle that finds no route at all, so every special leg fails. -/
def failOracle : RoadRouteFn Unit := fun _ _ _ _ _ _ _ _ => ⟨[], [], 0, false⟩

/-- Witness for c9_total_except_special_gap at the boundary itself: a
two-wheeler query to the architecture parking with no start record, on an
oracle whose first special leg fails, returns a value rather than
throwing. -/
theorem c9_total_except_special_gap_witness :
    ∃ r : HybridRoute,
      calculateHybridRoute () failOracle 0 0 1 1 "2" none (some archDest) = .ok r :=
  c9_total_except_special_gap () failOracle 0 0 1 1 "2" none (some archDest)
    (fun _ _ _ _ h1 => Bool.noConfusion h1)
end Tracking.HybridRouting

namespace Tracking.Pathfinding

/-! ### A* search and hybrid planner of src/lib/pathfinding.ts

Infinity-valued A* costs are embedded as `Option ℚ` with `none` standing for
`Infinity` (and for the `NaN` produced by an unknown mode's heuristic, which
compares exactly like `Infinity` in the pop).  JS quirks that the code relies
on — `gCost || 0`, truthiness of the popped id — are modelled explicitly. -/

structure PathSegment where
  path : List String
  distance : ℚ
  travelTime : ℚ
  mode : String
  color : Option String
  coordinates : List (ℚ × ℚ)
deriving DecidableEq, Repr

structure HybridPathResult where
  segments : List PathSegment
  totalDistance : ℚ
  totalTravelTime : ℚ
  found : Bool
  instructions : List String
deriving DecidableEq, Repr

structure AStarNode where
  id : String
  gCost : Option ℚ
  hCost : Option ℚ
  fCost : Option ℚ
  parent : Option String
deriving DecidableEq, Repr

/-- The result record of aStarPathfinding / calculateSingleRoute. -/
structure SingleRouteResult where
  path : List String
  distance : ℚ
  travelTime : ℚ
  found : Bool
deriving DecidableEq, Repr

def notFoundResult : SingleRouteResult := ⟨[], 0, 0, false⟩

/-- Addition on `Option ℚ` where `none` is `Infinity`. -/
def optAdd : Option ℚ → Option ℚ → Option ℚ
  | some a, some b => some (qAdd a b)
  | _, _ => none

/-- `<` on `Option ℚ` where `none` is `Infinity` (`∞ < ∞` is false). -/
def optLt : Option ℚ → Option ℚ → Bool
  | some a, some b => decide (a < b)
  | some _, none => true
  | none, _ => false

/-- JS Map lookups of the source.  `nodes`, `adjacency` are Maps keyed by
node id; `edgeMap` is built by `edges.forEach(e => map.set(from_to, e))`, so
a later edge with the same endpoints overwrites an earlier one — hence the
lookup takes the last matching edge. -/
def nodesGet (nodes : List GraphLib.GraphNode) (id : String) : Option GraphLib.GraphNode :=
  nodes.find? (fun n => n.id = id)

def nodesHas (nodes : List GraphLib.GraphNode) (id : String) : Bool :=
  (nodesGet nodes id).isSome

def adjGet (adjacency : List (String × List String)) (id : String) : List String :=
  ((adjacency.find? (fun p => p.1 = id)).map (fun p => p.2)).getD []

def edgeMapGet (edges : List GraphLib.GraphEdge) (a b : String) : Option GraphLib.GraphEdge :=
  edges.reverse.find? (fun e => e.efrom = a ∧ e.eto = b)

/-- `MODE_SPEEDS[mode] || MODE_SPEEDS['W']` of the relaxation step. -/
def speedOf (mode : String) : ℚ :=
  (MODE_SPEEDS mode).getD (mkRat 7 5)

/-- checkGraphConnectivity of pathfinding.ts: plain BFS over the adjacency
lists, ignoring mode filtering.  The JS `while (queue.length > 0)` loop makes
at most `1 + Σ |adjacency lists|` iterations (every enqueue after the first
consumes one adjacency-list occurrence and is guarded by the visited set), so
that number is used as fuel. -/
def bfsLoop (adjacency : List (String × List String)) (goalId : String) :
    Nat → List String → List String → Bool
  | 0, _, _ => false
  | fuel + 1, queue, visited =>
    match queue with
    | [] => false
    | current :: rest =>
      if current = goalId then true
      else
        let step := (adjGet adjacency current).foldl
          (fun (acc : List String × List String) nb =>
            if acc.2.contains nb then acc else (acc.1 ++ [nb], acc.2 ++ [nb]))
          (rest, visited)
        bfsLoop adjacency goalId fuel step.1 step.2

def checkGraphConnectivity (adjacency : List (String × List String))
    (startId goalId : String) : Bool :=
  bfsLoop adjacency goalId (2 + (adjacency.map (fun p => p.2.length)).sum)
    [startId] [startId]

/-- The `Find node with lowest fCost` scan: insertion order, strict
improvement, empty-string sentinel when nothing beats `Infinity`. -/
def aStarPopGo (nm : String → Option AStarNode) :
    List String → String → Option ℚ → String
  | [], cur, _ => cur
  | n :: rest, cur, low =>
    match nm n with
    | none => aStarPopGo nm rest cur low
    | some a =>
      if optLt a.fCost low then aStarPopGo nm rest n a.fCost
      else aStarPopGo nm rest cur low

def aStarPop (nm : String → Option AStarNode) (openL : List String) : String :=
  aStarPopGo nm openL "" none

/-- The path/distance reconstruction loop (`while (current) { path.unshift
... }`).  The parent chain strictly follows earlier-closed nodes, so it is
shorter than the closed list; the fuel `closed.length + 2` therefore never
runs out and the zero-fuel branch is unreachable. -/
def reconstructChain (edges : List GraphLib.GraphEdge)
    (nm : String → Option AStarNode) : Nat → String → List String × ℚ
  | 0, _ => ([], 0)
  | fuel + 1, current =>
    if current = "" then ([], 0)
    else
      match nm current with
      | none => ([current], 0)
      | some a =>
        match a.parent with
        | none => ([current], 0)
        | some p =>
          let d := match edgeMapGet edges p current with
            | some e => e.distance
            | none => 0
          let rec1 := reconstructChain edges nm fuel p
          (rec1.1 ++ [current], qAdd rec1.2 d)

/-- The A* state: open set in insertion order, closed set in closing order,
and the nodeMap. -/
structure AStarState where
  openL : List String
  closed : List String
  nm : String → Option AStarNode

/-- One relaxation of the inner `for (const neighborId of neighbors)` loop. -/
def relaxOne (hav : ℚ → ℚ → ℚ → ℚ → ℚ) (nodes : List GraphLib.GraphNode)
    (edges : List GraphLib.GraphEdge) (mode : String)
    (sd gd : Option Destination) (goalNode : GraphLib.GraphNode)
    (currentId : String) (s : AStarState) (neighborId : String) : AStarState :=
  if s.closed.contains neighborId then s
  else
    match edgeMapGet edges currentId neighborId with
    | none => s
    | some edge =>
      if !(checkModeAccess edge.modes mode sd gd) then s
      else
        match nodesGet nodes neighborId with
        | none => s
        | some neighborNode =>
          let speed := speedOf mode
          let travelTime := qDiv edge.distance speed
          let tentativeGCost := optAdd
            (match s.nm currentId with
             | none => some 0
             | some a => a.gCost)
            (some travelTime)
          let fresh : AStarNode :=
            ⟨neighborId, none,
              some (qDiv (hav neighborNode.lat neighborNode.lng goalNode.lat goalNode.lng) speed),
              none, none⟩
          let s' :=
            if (s.nm neighborId).isSome then s
            else { s with nm := fun x => if x = neighborId then some fresh else s.nm x }
          match s'.nm neighborId with
          | none => s'
          | some neighborAStarNode =>
            if optLt tentativeGCost neighborAStarNode.gCost then
              let updated : AStarNode := { neighborAStarNode with
                gCost := tentativeGCost,
                fCost := optAdd tentativeGCost neighborAStarNode.hCost,
                parent := some currentId }
              { s' with
                nm := fun x => if x = neighborId then some updated else s'.nm x,
                openL := if s'.openL.contains neighborId then s'.openL
                  else s'.openL ++ [neighborId] }
            else s'

/-- The `while (openSet.size > 0 && iterations < maxIterations)` loop; the
fuel is exactly the remaining iteration budget of the source's
`maxIterations = 10000` cap.  Returns the result together with the final
state. -/
def aStarLoop (hav : ℚ → ℚ → ℚ → ℚ → ℚ) (nodes : List GraphLib.GraphNode)
    (edges : List GraphLib.GraphEdge) (adjacency : List (String × List String))
    (goalId : String) (mode : String) (sd gd : Option Destination)
    (goalNode : GraphLib.GraphNode) :
    Nat → AStarState → SingleRouteResult × AStarState
  | 0, s => (notFoundResult, s)
  | fuel + 1, s =>
    if s.openL.isEmpty then (notFoundResult, s)
    else
      let currentId := aStarPop s.nm s.openL
      if currentId = "" then (notFoundResult, s)
      else if currentId = goalId then
        let rec1 := reconstructChain edges s.nm (s.closed.length + 2) currentId
        let travelTime := match s.nm goalId with
          | some a => match a.gCost with
            | some g => g
            | none => 0
          | none => 0
        (⟨rec1.1, rec1.2, travelTime, true⟩, s)
      else
        let s1 : AStarState :=
          { s with openL := s.openL.erase currentId, closed := s.closed ++ [currentId] }
        let s2 := (adjGet adjacency currentId).foldl
          (relaxOne hav nodes edges mode sd gd goalNode currentId) s1
        aStarLoop hav nodes edges adjacency goalId mode sd gd goalNode fuel s2

/-- aStarPathfinding of pathfinding.ts.  An unknown mode makes the source
compute a NaN heuristic at line 323 (no `|| MODE_SPEEDS['W']` fallback
there); NaN compares false against every candidate in the pop exactly like
Infinity, so it is embedded as `none`. -/
def aStarRun (hav : ℚ → ℚ → ℚ → ℚ → ℚ) (nodes : List GraphLib.GraphNode)
    (edges : List GraphLib.GraphEdge) (adjacency : List (String × List String))
    (startId goalId : String) (mode : String)
    (sd gd : Option Destination) : SingleRouteResult × AStarState :=
  match nodesGet nodes startId, nodesGet nodes goalId with
  | some startNode, some goalNode =>
    if !(checkGraphConnectivity adjacency startId goalId) then
      (notFoundResult, ⟨[], [], fun _ => none⟩)
    else
      let heuristicCost : Option ℚ := match MODE_SPEEDS mode with
        | some sp => some (qDiv (hav startNode.lat startNode.lng goalNode.lat goalNode.lng) sp)
        | none => none
      let s0 : AStarState :=
        ⟨[startId], [],
          fun x => if x = startId then
            some ⟨startId, some 0, heuristicCost, heuristicCost, none⟩
          else none⟩
      aStarLoop hav nodes edges adjacency goalId mode sd gd goalNode 10000 s0
  | _, _ => (notFoundResult, ⟨[], [], fun _ => none⟩)

def aStarPathfinding (hav : ℚ → ℚ → ℚ → ℚ → ℚ) (nodes : List GraphLib.GraphNode)
    (edges : List GraphLib.GraphEdge) (adjacency : List (String × List String))
    (startId goalId : String) (mode : String)
    (sd gd : Option Destination) : SingleRouteResult :=
  (aStarRun hav nodes edges adjacency startId goalId mode sd gd).1

/-- pathToCoordinates: node lookups with nulls filtered out; note the
produced pairs are (lat, lng). -/
def pathToCoordinates (path : List String) (nodes : List GraphLib.GraphNode) :
    List (ℚ × ℚ) :=
  path.filterMap (fun nodeId => (nodesGet nodes nodeId).map (fun n => (n.lat, n.lng)))

/-- getModeName (`names[mode] || mode`). -/
def getModeName : String → String
  | "W" => "walking"
  | "2" => "2-wheeler"
  | "4" => "4-wheeler"
  | "4PA" => "4-wheeler (parking)"
  | "4PI" => "4-wheeler (pickup)"
  | m => m

/-- calculateSingleRoute: snap both endpoints to the nearest node, search
with the requested mode, and — silently — retry with Walking when a
non-Walking search fails. -/
def calculateSingleRoute (hav : ℚ → ℚ → ℚ → ℚ → ℚ)
    (nodes : List GraphLib.GraphNode) (edges : List GraphLib.GraphEdge)
    (adjacency : List (String × List String)) (startLat startLng : ℚ)
    (goalDestination : Destination) (mode : String)
    (startDestination goalDest : Option Destination) : SingleRouteResult :=
  let startNearest := GraphLib.findNearestNode hav nodes startLat startLng
  let goalNearest := GraphLib.findNearestNode hav nodes
    goalDestination.coordinates.2 goalDestination.coordinates.1
  match startNearest, goalNearest with
  | some sn, some gn =>
    let result := aStarPathfinding hav nodes edges adjacency sn.1 gn.1 mode
      startDestination goalDest
    if !result.found && mode != "W" then
      aStarPathfinding hav nodes edges adjacency sn.1 gn.1 "W" startDestination goalDest
    else result
  | _, _ => notFoundResult

structure HybridDecision where
  required : Bool
  parkingDestination : Option Destination
deriving DecidableEq, Repr

/-- shouldUseHybridRouting of pathfinding.ts. -/
def shouldUseHybridRouting (mode : String) (destination : Destination) : HybridDecision :=
  let twoWheelerParking := destinations.find? (fun d => jsIncludes d.name "2-Wheeler square parking")
  let fourWheelerParking := destinations.find? (fun d => jsIncludes d.name "4-Wheeler parking")
  if mode == "4" then
    if jsIncludes destination.name "Devadan Block Parking" ||
        jsIncludes destination.name "Architecture Block Parking" then ⟨false, none⟩
    else ⟨true, fourWheelerParking⟩
  else if mode == "2" then
    if jsIncludes destination.name "Devadan Block Parking" then ⟨false, none⟩
    else ⟨true, twoWheelerParking⟩
  else ⟨false, none⟩

/-- calculateHybridRoute of pathfinding.ts: direct attempt, hybrid
vehicle-to-parking-then-walk accumulation, walking fallback, and the final
result record with its found formula.  The catalog always contains both
parking records, so the `parkingDestination` missing case (on which the JS
would throw inside a log) is unreachable and embedded as the empty
accumulation. -/
def calculateHybridRoute (hav : ℚ → ℚ → ℚ → ℚ → ℚ)
    (nodes : List GraphLib.GraphNode) (edges : List GraphLib.GraphEdge)
    (adjacency : List (String × List String)) (startLat startLng : ℚ)
    (goalDestination : Destination) (selectedMode : String) : HybridPathResult :=
  let directRoute := calculateSingleRoute hav nodes edges adjacency startLat startLng
    goalDestination selectedMode none (some goalDestination)
  if directRoute.found then
    { segments := [⟨directRoute.path, directRoute.distance, directRoute.travelTime,
        selectedMode, MODE_COLORS selectedMode, pathToCoordinates directRoute.path nodes⟩],
      totalDistance := directRoute.distance,
      totalTravelTime := directRoute.travelTime,
      found := true,
      instructions := ["Take " ++ getModeName selectedMode ++ " directly to " ++
        goalDestination.name] }
  else
    let needsHybridRouting := shouldUseHybridRouting selectedMode goalDestination
    let acc1 : List PathSegment × List String × ℚ × ℚ :=
      if needsHybridRouting.required then
        match needsHybridRouting.parkingDestination with
        | none => ([], [], 0, 0)
        | some parkingDestination =>
          let vehicleSegment := calculateSingleRoute hav nodes edges adjacency
            startLat startLng parkingDestination selectedMode none (some parkingDestination)
          if vehicleSegment.found then
            let vseg : PathSegment := ⟨vehicleSegment.path, vehicleSegment.distance,
              vehicleSegment.travelTime, selectedMode, MODE_COLORS selectedMode,
              pathToCoordinates vehicleSegment.path nodes⟩
            let instr1 := "Take " ++ getModeName selectedMode ++ " to " ++
              parkingDestination.name
            let walkingSegment := calculateSingleRoute hav nodes edges adjacency
              parkingDestination.coordinates.2 parkingDestination.coordinates.1
              goalDestination "W" (some parkingDestination) (some goalDestination)
            if walkingSegment.found then
              let wseg : PathSegment := ⟨walkingSegment.path, walkingSegment.distance,
                walkingSegment.travelTime, "W", MODE_COLORS "W",
                pathToCoordinates walkingSegment.path nodes⟩
              ([vseg, wseg],
               [instr1, "Walk from " ++ parkingDestination.name ++ " to " ++
                 goalDestination.name],
               qAdd vehicleSegment.distance walkingSegment.distance,
               qAdd vehicleSegment.travelTime walkingSegment.travelTime)
            else ([vseg], [instr1], vehicleSegment.distance, vehicleSegment.travelTime)
          else ([], [], 0, 0)
      else ([], [], 0, 0)
    let acc2 : List PathSegment × List String × ℚ × ℚ :=
      if acc1.1.isEmpty then
        let walkingFallback := calculateSingleRoute hav nodes edges adjacency
          startLat startLng goalDestination "W" none (some goalDestination)
        if walkingFallback.found then
          ([⟨walkingFallback.path, walkingFallback.distance, walkingFallback.travelTime,
             "W", some "#EF4444", pathToCoordinates walkingFallback.path nodes⟩],
           acc1.2.1 ++ ["Walk directly to " ++ goalDestination.name ++ " (fallback route)"],
           walkingFallback.distance, walkingFallback.travelTime)
        else acc1
      else acc1
    { segments := acc2.1,
      totalDistance := acc2.2.2.1,
      totalTravelTime := acc2.2.2.2,
      found := !acc2.1.isEmpty && acc2.1.all (fun s => !s.path.isEmpty),
      instructions := acc2.2.1 }

end Tracking.Pathfinding

namespace Tracking.Pathfinding

/-! ### Reconstruction and aggregation lemmas -/

lemma reconstructChain_fst_ne_nil (edges : List GraphLib.GraphEdge)
    (nm : String → Option AStarNode) (fuel : Nat) (current : String)
    (hc : current ≠ "") (hf : 1 ≤ fuel) :
    (reconstructChain edges nm fuel current).1 ≠ [] := by
  cases fuel with
  | zero => omega
  | succ f =>
    unfold reconstructChain
    rw [if_neg hc]
    cases nm current with
    | none => simp
    | some a =>
      cases hp : a.parent with
      | none => simp [hp]
      | some p => simp [hp]

lemma aStarLoop_found_path_ne_nil (hav : ℚ → ℚ → ℚ → ℚ → ℚ)
    (nodes : List GraphLib.GraphNode) (edges : List GraphLib.GraphEdge)
    (adjacency : List (String × List String)) (goalId mode : String)
    (sd gd : Option Destination) (goalNode : GraphLib.GraphNode) :
    ∀ (fuel : Nat) (s : AStarState),
      (aStarLoop hav nodes edges adjacency goalId mode sd gd goalNode fuel s).1.found = true →
      (aStarLoop hav nodes edges adjacency goalId mode sd gd goalNode fuel s).1.path ≠ [] := by
  intro fuel
  induction fuel with
  | zero => intro s h; exact absurd h (by simp [aStarLoop, notFoundResult])
  | succ f ih =>
    intro s h
    unfold aStarLoop at h ⊢
    by_cases he : s.openL.isEmpty
    · rw [if_pos he] at h
      exact absurd h (by simp [notFoundResult])
    · rw [if_neg he] at h ⊢
      by_cases hc : aStarPop s.nm s.openL = ""
      · rw [if_pos hc] at h
        exact absurd h (by simp [notFoundResult])
      · rw [if_neg hc] at h ⊢
        by_cases hg : aStarPop s.nm s.openL = goalId
        · rw [if_pos hg] at h ⊢
          exact reconstructChain_fst_ne_nil edges s.nm (s.closed.length + 2)
            (aStarPop s.nm s.openL) hc (by omega)
        · rw [if_neg hg] at h ⊢
          exact ih _ h

lemma aStarPathfinding_eq_found_path_ne_nil (hav : ℚ → ℚ → ℚ → ℚ → ℚ)
    (nodes : List GraphLib.GraphNode) (edges : List GraphLib.GraphEdge)
    (adjacency : List (String × List String)) (startId goalId mode : String)
    (sd gd : Option Destination) :
    ∀ r, aStarPathfinding hav nodes edges adjacency startId goalId mode sd gd = r →
      r.found = true → r.path ≠ [] := by
  intro r hr hf
  unfold aStarPathfinding aStarRun at hr
  split at hr
  · split at hr
    · rw [← hr] at hf
      exact absurd hf (by simp [notFoundResult])
    · rw [← hr] at hf ⊢
      exact aStarLoop_found_path_ne_nil hav nodes edges adjacency goalId mode sd gd
        _ 10000 _ hf
  · rw [← hr] at hf
    exact absurd hf (by simp [notFoundResult])

lemma aStarPathfinding_found_path_ne_nil (hav : ℚ → ℚ → ℚ → ℚ → ℚ)
    (nodes : List GraphLib.GraphNode) (edges : List GraphLib.GraphEdge)
    (adjacency : List (String × List String)) (startId goalId mode : String)
    (sd gd : Option Destination)
    (h : (aStarPathfinding hav nodes edges adjacency startId goalId mode sd gd).found = true) :
    (aStarPathfinding hav nodes edges adjacency startId goalId mode sd gd).path ≠ [] :=
  aStarPathfinding_eq_found_path_ne_nil hav nodes edges adjacency startId goalId mode sd gd
    _ rfl h

lemma calculateSingleRoute_eq_found_path_ne_nil (hav : ℚ → ℚ → ℚ → ℚ → ℚ)
    (nodes : List GraphLib.GraphNode) (edges : List GraphLib.GraphEdge)
    (adjacency : List (String × List String)) (startLat startLng : ℚ)
    (goalDestination : Destination) (mode : String) (sd gd : Option Destination) :
    ∀ r, calculateSingleRoute hav nodes edges adjacency startLat startLng goalDestination
        mode sd gd = r → r.found = true → r.path ≠ [] := by
  intro r hr hf
  unfold calculateSingleRoute at hr
  dsimp only at hr
  split at hr
  · split at hr
    · exact aStarPathfinding_eq_found_path_ne_nil hav nodes edges adjacency _ _ "W"
        sd gd r hr hf
    · exact aStarPathfinding_eq_found_path_ne_nil hav nodes edges adjacency _ _ mode
        sd gd r hr hf
  · rw [← hr] at hf
    exact absurd hf (by simp [notFoundResult])

lemma calculateSingleRoute_found_path_ne_nil (hav : ℚ → ℚ → ℚ → ℚ → ℚ)
    (nodes : List GraphLib.GraphNode) (edges : List GraphLib.GraphEdge)
    (adjacency : List (String × List String)) (startLat startLng : ℚ)
    (goalDestination : Destination) (mode : String) (sd gd : Option Destination)
    (h : (calculateSingleRoute hav nodes edges adjacency startLat startLng goalDestination
      mode sd gd).found = true) :
    (calculateSingleRoute hav nodes edges adjacency startLat startLng goalDestination
      mode sd gd).path ≠ [] :=
  calculateSingleRoute_eq_found_path_ne_nil hav nodes edges adjacency startLat startLng
    goalDestination mode sd gd _ rfl h

/-- Claim C7: for every hybrid route the planner returns, totalDistance and
totalTravelTime are the exact sums of the segments' distances and travel
times, and found is true exactly when the segment list is non-empty and
every segment has a non-empty path. -/
theorem c7_totals_and_found (hav : ℚ → ℚ → ℚ → ℚ → ℚ)
    (nodes : List GraphLib.GraphNode) (edges : List GraphLib.GraphEdge)
    (adjacency : List (String × List String)) (startLat startLng : ℚ)
    (goalDestination : Destination) (selectedMode : String) :
    (calculateHybridRoute hav nodes edges adjacency startLat startLng goalDestination
        selectedMode).totalDistance =
      ((calculateHybridRoute hav nodes edges adjacency startLat startLng goalDestination
        selectedMode).segments.map PathSegment.distance).sum ∧
    (calculateHybridRoute hav nodes edges adjacency startLat startLng goalDestination
        selectedMode).totalTravelTime =
      ((calculateHybridRoute hav nodes edges adjacency startLat startLng goalDestination
        selectedMode).segments.map PathSegment.travelTime).sum ∧
    (calculateHybridRoute hav nodes edges adjacency startLat startLng goalDestination
        selectedMode).found =
      (!(calculateHybridRoute hav nodes edges adjacency startLat startLng goalDestination
        selectedMode).segments.isEmpty &&
       (calculateHybridRoute hav nodes edges adjacency startLat startLng goalDestination
        selectedMode).segments.all (fun s => !s.path.isEmpty)) := by
  unfold calculateHybridRoute
  by_cases hd : (calculateSingleRoute hav nodes edges adjacency startLat startLng
      goalDestination selectedMode none (some goalDestination)).found = true
  · have hne := calculateSingleRoute_found_path_ne_nil hav nodes edges adjacency startLat
      startLng goalDestination selectedMode none (some goalDestination) hd
    rw [if_pos hd]
    refine ⟨by simp, by simp, ?_⟩
    simp [List.isEmpty_iff, hne]
  · rw [if_neg hd]
    refine ⟨?_, ?_, rfl⟩ <;>
    · dsimp only
      repeat' split
      all_goals simp [qAdd_eq]

end Tracking.Pathfinding

namespace Tracking.Pathfinding

/-! ### Concrete fixture graphs for the pathfinding.ts planner -/

/-- Fixture 1: one segment A–B of length 50, tagged Walking-only. -/
def cxNodeA : GraphLib.GraphNode := ⟨"A", 0, 0, "endpoint", none⟩
def cxNodeB : GraphLib.GraphNode := ⟨"B", 3, 4, "endpoint", none⟩
def cxEdgeAB : GraphLib.GraphEdge :=
  ⟨"edge_A_B", "A", "B", 50, ["W"], "unknown", [(0, 0), (4, 3)], ""⟩
def cxEdgeBA : GraphLib.GraphEdge :=
  ⟨"edge_B_A", "B", "A", 50, ["W"], "unknown", [(4, 3), (0, 0)], ""⟩
def cxNodes : List GraphLib.GraphNode := [cxNodeA, cxNodeB]
def cxEdges : List GraphLib.GraphEdge := [cxEdgeAB, cxEdgeBA]
def cxAdj : List (String × List String) := [("A", ["B"]), ("B", ["A"])]
def cxDestX : Destination := ⟨"x", "X", (4, 3), "facility", "facility"⟩

/-- Claim C5, counterexample: a FourWheeler query on a graph whose only
segment is tagged Walking-only.  The '4' search correctly rejects the edge,
but calculateSingleRoute silently retries with Walking, and the planner
returns that walking path as a found leg labelled mode '4' — so the
Walking-only edge (A,B) does appear in a leg of the route returned for a
FourWheeler query. -/
theorem c5_counterexample_walking_edge_in_four_wheeler_route :
    (calculateHybridRoute havSq cxNodes cxEdges cxAdj 0 0 cxDestX "4").segments.map
        (fun s => s.mode) = ["4"] ∧
    (calculateHybridRoute havSq cxNodes cxEdges cxAdj 0 0 cxDestX "4").segments.map
        (fun s => s.path) = [["A", "B"]] ∧
    (calculateHybridRoute havSq cxNodes cxEdges cxAdj 0 0 cxDestX "4").found = true ∧
    edgeMapGet cxEdges "A" "B" = some cxEdgeAB ∧
    cxEdgeAB.modes = ["W"] ∧
    checkModeAccess ["W"] "4" none (some cxDestX) = false := by
  refine ⟨by decide, by decide, by decide, by decide, by decide, by decide⟩

/-- Fixture 2: one segment C–D of length 30, tagged Walking-only. -/
def cxNodeC : GraphLib.GraphNode := ⟨"C", 0, 0, "endpoint", none⟩
def cxNodeD : GraphLib.GraphNode := ⟨"D", 0, 3, "endpoint", none⟩
def cxEdgeCD : GraphLib.GraphEdge :=
  ⟨"edge_C_D", "C", "D", 30, ["W"], "unknown", [(0, 0), (3, 0)], ""⟩
def cxEdgeDC : GraphLib.GraphEdge :=
  ⟨"edge_D_C", "D", "C", 30, ["W"], "unknown", [(3, 0), (0, 0)], ""⟩
def cxNodes2 : List GraphLib.GraphNode := [cxNodeC, cxNodeD]
def cxEdges2 : List GraphLib.GraphEdge := [cxEdgeCD, cxEdgeDC]
def cxAdj2 : List (String × List String) := [("C", ["D"]), ("D", ["C"])]
def cxDestY : Destination := ⟨"y", "Y", (3, 0), "facility", "facility"⟩

/-- Claim C10, counterexample: every strategy under the requested
FourWheeler mode fails (the '4' search finds nothing) while the forced
Walking search succeeds; the claim then requires a single Walking leg with
distinct fallback styling and a fallback instruction.  Instead the planner
returns the walking path through the direct strategy, labelled mode '4',
with the standard '4' colour and no fallback wording — because
calculateSingleRoute's internal Walking retry pre-empts the dedicated
walking-rescue branch (which consequently can never succeed when reached). -/
theorem c10_counterexample_rescue_unmarked :
    (aStarPathfinding havSq cxNodes2 cxEdges2 cxAdj2 "C" "D" "4" none (some cxDestY)).found
        = false ∧
    (aStarPathfinding havSq cxNodes2 cxEdges2 cxAdj2 "C" "D" "W" none (some cxDestY)).found
        = true ∧
    (calculateHybridRoute havSq cxNodes2 cxEdges2 cxAdj2 0 0 cxDestY "4").segments.map
        (fun s => s.mode) = ["4"] ∧
    (calculateHybridRoute havSq cxNodes2 cxEdges2 cxAdj2 0 0 cxDestY "4").segments.map
        (fun s => s.color) = [some "#8B5CF6"] ∧
    (calculateHybridRoute havSq cxNodes2 cxEdges2 cxAdj2 0 0 cxDestY "4").instructions =
        ["Take 4-wheeler directly to Y"] ∧
    (calculateHybridRoute havSq cxNodes2 cxEdges2 cxAdj2 0 0 cxDestY "4").found = true := by
  refine ⟨by decide, by decide, by decide, by decide, by decide, by decide⟩

/-- Claim C10 (amended): when every search under the requested non-Walking
mode fails but walking succeeds, the planner returns the walking path via
the direct strategy, labelled with the ORIGINAL mode, with that mode's
standard colour and a plain direct-route instruction — no Walking label, no
fallback styling, no fallback wording.  The dedicated walking-rescue branch
runs only when even this internal retry failed, and therefore can never
succeed when reached. -/
theorem c10_internal_walking_retry_unmarked (hav : ℚ → ℚ → ℚ → ℚ → ℚ)
    (nodes : List GraphLib.GraphNode) (edges : List GraphLib.GraphEdge)
    (adjacency : List (String × List String)) (startLat startLng : ℚ)
    (goalDestination : Destination) (mode : String) (sn gn : String × ℚ)
    (hsn : GraphLib.findNearestNode hav nodes startLat startLng = some sn)
    (hgn : GraphLib.findNearestNode hav nodes goalDestination.coordinates.2
      goalDestination.coordinates.1 = some gn)
    (hmode : mode ≠ "W")
    (hfail : (aStarPathfinding hav nodes edges adjacency sn.1 gn.1 mode none
      (some goalDestination)).found = false)
    (w : SingleRouteResult)
    (hw : aStarPathfinding hav nodes edges adjacency sn.1 gn.1 "W" none
      (some goalDestination) = w)
    (hfound : w.found = true) :
    calculateHybridRoute hav nodes edges adjacency startLat startLng goalDestination mode =
      { segments := [⟨w.path, w.distance, w.travelTime, mode, MODE_COLORS mode,
          pathToCoordinates w.path nodes⟩],
        totalDistance := w.distance,
        totalTravelTime := w.travelTime,
        found := true,
        instructions := ["Take " ++ getModeName mode ++ " directly to " ++
          goalDestination.name] } := by
  have hm' : (mode != "W") = true := by
    simpa using hmode
  have hsr : calculateSingleRoute hav nodes edges adjacency startLat startLng
      goalDestination mode none (some goalDestination) = w := by
    unfold calculateSingleRoute
    rw [hsn, hgn]
    dsimp only
    rw [hfail, hm', hw]
    simp
  unfold calculateHybridRoute
  rw [hsr, if_pos hfound]

end Tracking.Pathfinding

namespace Tracking.Pathfinding

/-- The forced Walking search on fixture 2, used to witness the amended
C10 theorem at concrete inputs. -/
def cxW : SingleRouteResult :=
  aStarPathfinding havSq cxNodes2 cxEdges2 cxAdj2 "C" "D" "W" none (some cxDestY)

/-- Witness for the amended C10 theorem: on fixture 2 the FourWheeler
search fails, the Walking search succeeds, and the planner returns the
walking path labelled mode '4' with standard styling. -/
theorem c10_internal_walking_retry_unmarked_witness :
    calculateHybridRoute havSq cxNodes2 cxEdges2 cxAdj2 0 0 cxDestY "4" =
      { segments := [⟨cxW.path, cxW.distance, cxW.travelTime, "4", MODE_COLORS "4",
          pathToCoordinates cxW.path cxNodes2⟩],
        totalDistance := cxW.distance,
        totalTravelTime := cxW.travelTime,
        found := true,
        instructions := ["Take " ++ getModeName "4" ++ " directly to " ++ cxDestY.name] } :=
  c10_internal_walking_retry_unmarked havSq cxNodes2 cxEdges2 cxAdj2 0 0 cxDestY "4"
    ("C", 0) ("D", 0) (by decide) (by decide) (by decide) (by decide) cxW rfl (by decide)

end Tracking.Pathfinding

namespace Tracking.Pathfinding

/-! ### C3: relaxed edge cost and reported travel time -/

/-- The `nodeMap.get(currentId)?.gCost ∥ 0` read of the relaxation step
(`∥` = JS `||`): a missing entry contributes 0, a present entry its gCost
(`0 ∥ 0` is still 0, `Infinity ∥ 0` is `Infinity` = `none`). -/
def gOr0 (s : AStarState) (n : String) : Option ℚ :=
  match s.nm n with
  | none => some 0
  | some a => a.gCost

/-- The stored tentative cost of a node, `none` when the node is absent or
still at `Infinity`. -/
def nmG (s : AStarState) (n : String) : Option ℚ :=
  (s.nm n).bind (fun a => a.gCost)

lemma optLt_true_left {x y : Option ℚ} (h : optLt x y = true) : ∃ v, x = some v := by
  cases x with
  | none => simp [optLt] at h
  | some v => exact ⟨v, rfl⟩

/-- Whenever one relaxation step changes a node's stored cost, the new cost
is the current node's cost-so-far plus the connecting edge's length divided
by the requested mode's speed, the connecting edge passed the mode filter,
and the parent pointer is set to the current node. -/
lemma relaxOne_changes_gcost (hav : ℚ → ℚ → ℚ → ℚ → ℚ)
    (nodes : List GraphLib.GraphNode) (edges : List GraphLib.GraphEdge)
    (mode : String) (sd gd : Option Destination) (goalNode : GraphLib.GraphNode)
    (cur : String) (s : AStarState) (nb : String)
    (h : nmG (relaxOne hav nodes edges mode sd gd goalNode cur s nb) nb ≠ nmG s nb) :
    ∃ e a, edgeMapGet edges cur nb = some e ∧
      checkModeAccess e.modes mode sd gd = true ∧
      (relaxOne hav nodes edges mode sd gd goalNode cur s nb).nm nb = some a ∧
      a.gCost = optAdd (gOr0 s cur) (some (qDiv e.distance (speedOf mode))) ∧
      a.parent = some cur := by
  unfold relaxOne at h ⊢
  by_cases hcl : s.closed.contains nb = true
  · rw [if_pos hcl] at h
    exact absurd rfl h
  · rw [if_neg hcl] at h ⊢
    cases hedge : edgeMapGet edges cur nb with
    | none =>
      rw [hedge] at h
      dsimp only at h
      exact absurd rfl h
    | some e =>
      rw [hedge] at h
      dsimp only at h ⊢
      by_cases hacc : checkModeAccess e.modes mode sd gd = true
      · simp only [hacc, Bool.not_true, Bool.false_eq_true, if_false] at h ⊢
        cases hnn : nodesGet nodes nb with
        | none =>
          rw [hnn] at h
          dsimp only at h
          exact absurd rfl h
        | some neighborNode =>
          rw [hnn] at h
          dsimp only at h ⊢
          by_cases hsome : (s.nm nb).isSome = true
          · rw [if_pos hsome] at h ⊢
            cases hmb : s.nm nb with
            | none =>
              rw [hmb] at hsome
              simp at hsome
            | some old =>
              rw [hmb] at h
              dsimp only at h ⊢
              by_cases hlt : optLt
                  (optAdd (match s.nm cur with | none => some 0 | some a => a.gCost)
                    (some (qDiv e.distance (speedOf mode)))) old.gCost = true
              · rw [if_pos hlt] at h ⊢
                refine ⟨e,
                  ⟨old.id,
                    optAdd (match s.nm cur with | none => some 0 | some a => a.gCost)
                      (some (qDiv e.distance (speedOf mode))),
                    old.hCost,
                    optAdd (optAdd (match s.nm cur with | none => some 0 | some a => a.gCost)
                      (some (qDiv e.distance (speedOf mode)))) old.hCost,
                    some cur⟩,
                  rfl, hacc, ?_, rfl, rfl⟩
                simp
              · rw [if_neg hlt] at h
                exact absurd rfl h
          · rw [if_neg hsome] at h ⊢
            try dsimp only at h ⊢
            simp only [eq_self_iff_true, if_true] at h ⊢
            try dsimp only at h ⊢
            by_cases hlt : optLt
                (optAdd (match s.nm cur with | none => some 0 | some a => a.gCost)
                  (some (qDiv e.distance (speedOf mode)))) (none : Option ℚ) = true
            · rw [if_pos hlt] at h ⊢
              refine ⟨e,
                ⟨nb,
                  optAdd (match s.nm cur with | none => some 0 | some a => a.gCost)
                    (some (qDiv e.distance (speedOf mode))),
                  some (qDiv (hav neighborNode.lat neighborNode.lng goalNode.lat goalNode.lng)
                    (speedOf mode)),
                  optAdd (optAdd (match s.nm cur with | none => some 0 | some a => a.gCost)
                    (some (qDiv e.distance (speedOf mode))))
                    (some (qDiv (hav neighborNode.lat neighborNode.lng goalNode.lat goalNode.lng)
                      (speedOf mode))),
                  some cur⟩,
                rfl, hacc, ?_, rfl, rfl⟩
              simp
            · rw [if_neg hlt] at h
              have hnone : s.nm nb = none := by
                cases hx : s.nm nb with
                | none => rfl
                | some a =>
                  rw [hx] at hsome
                  simp at hsome
              simp [nmG, hnone] at h
      · have hne : (!checkModeAccess e.modes mode sd gd) = true := by
          simp only [Bool.not_eq_true] at hacc
          simp [hacc]
        rw [if_pos hne] at h
        exact absurd rfl h


/-- Full effect characterization of one relaxation step: the closed list is
untouched, entries of other nodes are untouched, the open list at most gains
the neighbor at the end, and the neighbor entry is untouched, freshly
inserted at Infinity, or updated with a finite cost and parent pointing at
the current node across an allowed edge. -/
lemma relaxOne_spec (hav : ℚ → ℚ → ℚ → ℚ → ℚ) (nodes : List GraphLib.GraphNode)
    (edges : List GraphLib.GraphEdge) (mode : String) (sd gd : Option Destination)
    (goalNode : GraphLib.GraphNode) (cur : String) (s : AStarState) (nb : String)
    (s1 : AStarState) (hs1 : relaxOne hav nodes edges mode sd gd goalNode cur s nb = s1) :
    s1.closed = s.closed ∧
    (∀ x, x ≠ nb → s1.nm x = s.nm x) ∧
    (s1.openL = s.openL ∨ s1.openL = s.openL ++ [nb]) ∧
    (s1 = s ∨
     (s.nm nb = none ∧ s1.openL = s.openL ∧
       ∃ hc, s1.nm nb = some ⟨nb, none, hc, none, none⟩) ∨
     (∃ e a g0, edgeMapGet edges cur nb = some e ∧
        checkModeAccess e.modes mode sd gd = true ∧
        s1.nm nb = some a ∧ a.gCost = some g0 ∧ a.parent = some cur)) := by
  subst hs1
  unfold relaxOne
  by_cases hcl : s.closed.contains nb = true
  · rw [if_pos hcl]
    exact ⟨rfl, fun _ _ => rfl, Or.inl rfl, Or.inl rfl⟩
  · rw [if_neg hcl]
    cases hedge : edgeMapGet edges cur nb with
    | none => exact ⟨rfl, fun _ _ => rfl, Or.inl rfl, Or.inl rfl⟩
    | some e =>
      dsimp only
      by_cases hacc : checkModeAccess e.modes mode sd gd = true
      · simp only [hacc, Bool.not_true, Bool.false_eq_true, if_false]
        cases hnn : nodesGet nodes nb with
        | none => exact ⟨rfl, fun _ _ => rfl, Or.inl rfl, Or.inl rfl⟩
        | some neighborNode =>
          dsimp only
          by_cases hsome : (s.nm nb).isSome = true
          · rw [if_pos hsome]
            cases hmb : s.nm nb with
            | none =>
              rw [hmb] at hsome
              simp at hsome
            | some old =>
              dsimp only
              by_cases hlt : optLt
                  (optAdd (match s.nm cur with | none => some 0 | some a => a.gCost)
                    (some (qDiv e.distance (speedOf mode)))) old.gCost = true
              · rw [if_pos hlt]
                rcases optLt_true_left hlt with ⟨v, hv⟩
                refine ⟨rfl, fun x hx => ?_, ?_,
                  Or.inr (Or.inr ⟨e,
                    ⟨old.id,
                      optAdd (match s.nm cur with | none => some 0 | some a => a.gCost)
                        (some (qDiv e.distance (speedOf mode))),
                      old.hCost,
                      optAdd (optAdd (match s.nm cur with | none => some 0 | some a => a.gCost)
                        (some (qDiv e.distance (speedOf mode)))) old.hCost,
                      some cur⟩,
                    v, rfl, hacc, ?_, hv, rfl⟩)⟩
                · simp [hx]
                · by_cases hco : s.openL.contains nb = true
                  · rw [if_pos hco]
                    exact Or.inl rfl
                  · rw [if_neg hco]
                    exact Or.inr rfl
                · simp
              · rw [if_neg hlt]
                exact ⟨rfl, fun _ _ => rfl, Or.inl rfl, Or.inl rfl⟩
          · rw [if_neg hsome]
            have hnone : s.nm nb = none := by
              cases hx : s.nm nb with
              | none => rfl
              | some a =>
                rw [hx] at hsome
                simp at hsome
            simp only [eq_self_iff_true, if_true]
            try dsimp only
            by_cases hlt : optLt
                (optAdd (match s.nm cur with | none => some 0 | some a => a.gCost)
                  (some (qDiv e.distance (speedOf mode)))) (none : Option ℚ) = true
            · rw [if_pos hlt]
              rcases optLt_true_left hlt with ⟨v, hv⟩
              refine ⟨rfl, fun x hx => ?_, ?_,
                Or.inr (Or.inr ⟨e,
                  ⟨nb,
                    optAdd (match s.nm cur with | none => some 0 | some a => a.gCost)
                      (some (qDiv e.distance (speedOf mode))),
                    some (qDiv (hav neighborNode.lat neighborNode.lng goalNode.lat goalNode.lng)
                      (speedOf mode)),
                    optAdd (optAdd (match s.nm cur with | none => some 0 | some a => a.gCost)
                      (some (qDiv e.distance (speedOf mode))))
                      (some (qDiv (hav neighborNode.lat neighborNode.lng goalNode.lat goalNode.lng)
                        (speedOf mode))),
                    some cur⟩,
                  v, rfl, hacc, ?_, hv, rfl⟩)⟩
              · simp [hx]
              · by_cases hco : s.openL.contains nb = true
                · rw [if_pos hco]
                  exact Or.inl rfl
                · rw [if_neg hco]
                  exact Or.inr rfl
              · simp
            · rw [if_neg hlt]
              refine ⟨rfl, fun x hx => ?_, Or.inl rfl,
                Or.inr (Or.inl ⟨hnone, rfl,
                  ⟨some (qDiv (hav neighborNode.lat neighborNode.lng goalNode.lat goalNode.lng)
                    (speedOf mode)), ?_⟩⟩)⟩
              · simp [hx]
              · simp
      · have hne : (!checkModeAccess e.modes mode sd gd) = true := by
          simp only [Bool.not_eq_true] at hacc
          simp [hacc]
        rw [if_pos hne]
        exact ⟨rfl, fun _ _ => rfl, Or.inl rfl, Or.inl rfl⟩


/-- Every open node has a nodeMap entry with a finite gCost. -/
def OpenFin (s : AStarState) : Prop :=
  ∀ n ∈ s.openL, ∃ a g0, s.nm n = some a ∧ a.gCost = some g0

lemma aStarPopGo_mem (nm0 : String → Option AStarNode) :
    ∀ (l : List String) (cur : String) (low : Option ℚ) (c : String),
      aStarPopGo nm0 l cur low = c → c = cur ∨ (c ∈ l ∧ ∃ a, nm0 c = some a) := by
  intro l
  induction l with
  | nil =>
    intro cur low c hc
    exact Or.inl hc.symm
  | cons n rest ih =>
    intro cur low c hc
    unfold aStarPopGo at hc
    cases hn : nm0 n with
    | none =>
      rw [hn] at hc
      dsimp only at hc
      rcases ih cur low c hc with h1 | ⟨h2, h3⟩
      · exact Or.inl h1
      · exact Or.inr ⟨List.mem_cons_of_mem _ h2, h3⟩
    | some a =>
      rw [hn] at hc
      dsimp only at hc
      by_cases hlt : optLt a.fCost low = true
      · rw [if_pos hlt] at hc
        rcases ih n a.fCost c hc with h1 | ⟨h2, h3⟩
        · subst h1
          exact Or.inr ⟨List.mem_cons_self _ _, a, hn⟩
        · exact Or.inr ⟨List.mem_cons_of_mem _ h2, h3⟩
      · rw [if_neg hlt] at hc
        rcases ih cur low c hc with h1 | ⟨h2, h3⟩
        · exact Or.inl h1
        · exact Or.inr ⟨List.mem_cons_of_mem _ h2, h3⟩

lemma aStarPop_mem (nm0 : String → Option AStarNode) (openL : List String) (c : String)
    (h : aStarPop nm0 openL = c) (hne : c ≠ "") :
    c ∈ openL ∧ ∃ a, nm0 c = some a := by
  rcases aStarPopGo_mem nm0 openL "" none c h with h1 | h2
  · exact absurd h1 hne
  · exact h2

lemma relaxOne_preserves_OpenFin (hav : ℚ → ℚ → ℚ → ℚ → ℚ)
    (nodes : List GraphLib.GraphNode) (edges : List GraphLib.GraphEdge)
    (mode : String) (sd gd : Option Destination) (goalNode : GraphLib.GraphNode)
    (cur : String) (s : AStarState) (nb : String) (hs : OpenFin s) :
    OpenFin (relaxOne hav nodes edges mode sd gd goalNode cur s nb) := by
  rcases relaxOne_spec hav nodes edges mode sd gd goalNode cur s nb _ rfl with
    ⟨_, hother, hopen, hmain⟩
  intro n hn
  rcases hmain with heq | ⟨hnbnone, hopeneq, hc, hnb⟩ | ⟨e, a, g0, _, _, hnb, hg, _⟩
  · rw [heq] at hn ⊢
    exact hs n hn
  · rw [hopeneq] at hn
    by_cases hx : n = nb
    · subst hx
      rcases hs n hn with ⟨a, g0, ha, hg⟩
      rw [hnbnone] at ha
      cases ha
    · rw [hother n hx]
      exact hs n hn
  · by_cases hx : n = nb
    · subst hx
      exact ⟨a, g0, hnb, hg⟩
    · rw [hother n hx]
      rcases hopen with ho | ho
      · rw [ho] at hn
        exact hs n hn
      · rw [ho] at hn
        rcases List.mem_append.mp hn with h1 | h1
        · exact hs n h1
        · rcases List.mem_singleton.mp h1 with h2
          exact absurd h2 hx

lemma foldl_relax_preserves_OpenFin (hav : ℚ → ℚ → ℚ → ℚ → ℚ)
    (nodes : List GraphLib.GraphNode) (edges : List GraphLib.GraphEdge)
    (mode : String) (sd gd : Option Destination) (goalNode : GraphLib.GraphNode)
    (cur : String) :
    ∀ (l : List String) (s : AStarState), OpenFin s →
      OpenFin (l.foldl (relaxOne hav nodes edges mode sd gd goalNode cur) s) := by
  intro l
  induction l with
  | nil => exact fun s hs => hs
  | cons n rest ih =>
    intro s hs
    exact ih _ (relaxOne_preserves_OpenFin hav nodes edges mode sd gd goalNode cur s n hs)

/-- Through the main loop: a found result reports as travel time exactly the
goal entry's final gCost, which is finite. -/
lemma aStarLoop_found_travelTime (hav : ℚ → ℚ → ℚ → ℚ → ℚ)
    (nodes : List GraphLib.GraphNode) (edges : List GraphLib.GraphEdge)
    (adjacency : List (String × List String)) (goalId : String) (mode : String)
    (sd gd : Option Destination) (goalNode : GraphLib.GraphNode) :
    ∀ (fuel : Nat) (s : AStarState) (r : SingleRouteResult) (s2 : AStarState),
      OpenFin s →
      aStarLoop hav nodes edges adjacency goalId mode sd gd goalNode fuel s = (r, s2) →
      r.found = true →
      ∃ a g0, s2.nm goalId = some a ∧ a.gCost = some g0 ∧ r.travelTime = g0 := by
  intro fuel
  induction fuel with
  | zero =>
    intro s r s2 _ hr hf
    unfold aStarLoop at hr
    cases hr
    cases hf
  | succ fuel ih =>
    intro s r s2 hfin hr hf
    unfold aStarLoop at hr
    by_cases hemp : s.openL.isEmpty = true
    · rw [if_pos hemp] at hr
      cases hr
      cases hf
    · rw [if_neg hemp] at hr
      try dsimp only at hr
      by_cases hcur : aStarPop s.nm s.openL = ""
      · rw [if_pos hcur] at hr
        cases hr
        cases hf
      · rw [if_neg hcur] at hr
        by_cases hgoal : aStarPop s.nm s.openL = goalId
        · rw [if_pos hgoal] at hr
          try dsimp only at hr
          rcases aStarPop_mem s.nm s.openL _ rfl hcur with ⟨hmem, a0, ha0⟩
          rw [hgoal] at hmem
          rcases hfin goalId hmem with ⟨a, g0, ha, hg⟩
          cases hr
          refine ⟨a, g0, ha, hg, ?_⟩
          simp [ha, hg]
        · rw [if_neg hgoal] at hr
          try dsimp only at hr
          have hfin2 : OpenFin { s with
              openL := s.openL.erase (aStarPop s.nm s.openL)
              closed := s.closed ++ [aStarPop s.nm s.openL] } := by
            intro n hn
            exact hfin n (List.mem_of_mem_erase hn)
          exact ih _ r s2
            (foldl_relax_preserves_OpenFin hav nodes edges mode sd gd goalNode _ _ _ hfin2)
            hr hf

/-- Claim C3 (amended: true of pathfinding.ts's aStarPathfinding only; the
co-cited findShortestPath of road-pathfinding.ts relaxes raw edge length
with no mode speed — see the counterexample): (a) whenever a relaxation step
changes a node's stored cost, the connecting edge passed the mode filter and
the new cost is the current node's cost plus the edge length divided by the
requested mode's speed (time, not raw distance); (b) the travel time
reported for a found route is exactly the goal entry's final (finite)
tentative cost. -/
theorem c3_edge_cost_is_time_and_reported_time_is_goal_cost
    (hav : ℚ → ℚ → ℚ → ℚ → ℚ) (nodes : List GraphLib.GraphNode)
    (edges : List GraphLib.GraphEdge) (adjacency : List (String × List String))
    (startId goalId mode : String) (sd gd : Option Destination)
    (goalNode : GraphLib.GraphNode) (cur : String) (s : AStarState) (nb : String)
    (r : SingleRouteResult) (s2 : AStarState)
    (hchg : nmG (relaxOne hav nodes edges mode sd gd goalNode cur s nb) nb ≠ nmG s nb)
    (hrun : aStarRun hav nodes edges adjacency startId goalId mode sd gd = (r, s2))
    (hfound : r.found = true) :
    (∃ e a, edgeMapGet edges cur nb = some e ∧
      checkModeAccess e.modes mode sd gd = true ∧
      (relaxOne hav nodes edges mode sd gd goalNode cur s nb).nm nb = some a ∧
      a.gCost = optAdd (gOr0 s cur) (some (qDiv e.distance (speedOf mode))) ∧
      a.parent = some cur) ∧
    (∃ a g0, s2.nm goalId = some a ∧ a.gCost = some g0 ∧ r.travelTime = g0) := by
  refine ⟨relaxOne_changes_gcost hav nodes edges mode sd gd goalNode cur s nb hchg, ?_⟩
  unfold aStarRun at hrun
  cases hsn : nodesGet nodes startId with
  | none =>
    rw [hsn] at hrun
    cases hgn : nodesGet nodes goalId with
    | none =>
      rw [hgn] at hrun
      dsimp only at hrun
      cases hrun
      cases hfound
    | some gn =>
      rw [hgn] at hrun
      dsimp only at hrun
      cases hrun
      cases hfound
  | some sn =>
    rw [hsn] at hrun
    cases hgn : nodesGet nodes goalId with
    | none =>
      rw [hgn] at hrun
      dsimp only at hrun
      cases hrun
      cases hfound
    | some gn =>
      rw [hgn] at hrun
      dsimp only at hrun
      by_cases hconn : checkGraphConnectivity adjacency startId goalId = true
      · simp only [hconn, Bool.not_true, Bool.false_eq_true, if_false] at hrun
        try dsimp only at hrun
        refine aStarLoop_found_travelTime hav nodes edges adjacency goalId mode sd gd gn
          10000 _ r s2 ?_ hrun hfound
        intro n hn
        rcases List.mem_singleton.mp hn with h
        subst h
        refine ⟨⟨n, some 0,
          (match MODE_SPEEDS mode with
           | some sp => some (qDiv (hav sn.lat sn.lng gn.lat gn.lng) sp)
           | none => none),
          (match MODE_SPEEDS mode with
           | some sp => some (qDiv (hav sn.lat sn.lng gn.lat gn.lng) sp)
           | none => none), none⟩, 0, ?_, rfl⟩
        simp
      · have hne : (!checkGraphConnectivity adjacency startId goalId) = true := by
          simp only [Bool.not_eq_true] at hconn
          simp [hconn]
        rw [if_pos hne] at hrun
        cases hrun
        cases hfound


/-- Initial A* state of the fixture-1 Walking run, used to witness C3. -/
def c3ws : AStarState :=
  ⟨["A"], [],
    fun x => if x = "A" then
      some ⟨"A", some 0, some (qDiv (havSq 0 0 3 4) (mkRat 7 5)),
        some (qDiv (havSq 0 0 3 4) (mkRat 7 5)), none⟩
    else none⟩

/-- Witness for C3 on fixture 1: relaxing A->B changes B's stored cost to
edge length / walking speed, and the found route's reported travel time is
the goal entry's final cost. -/
theorem c3_edge_cost_witness :
    (∃ e a, edgeMapGet cxEdges "A" "B" = some e ∧
      checkModeAccess e.modes "W" none (some cxDestX) = true ∧
      (relaxOne havSq cxNodes cxEdges "W" none (some cxDestX) cxNodeB "A" c3ws "B").nm "B" =
        some a ∧
      a.gCost = optAdd (gOr0 c3ws "A") (some (qDiv e.distance (speedOf "W"))) ∧
      a.parent = some "A") ∧
    (∃ a g0,
      (aStarRun havSq cxNodes cxEdges cxAdj "A" "B" "W" none (some cxDestX)).2.nm "B" =
        some a ∧
      a.gCost = some g0 ∧
      (aStarRun havSq cxNodes cxEdges cxAdj "A" "B" "W" none (some cxDestX)).1.travelTime =
        g0) :=
  c3_edge_cost_is_time_and_reported_time_is_goal_cost havSq cxNodes cxEdges cxAdj
    "A" "B" "W" none (some cxDestX) cxNodeB "A" c3ws "B"
    (aStarRun havSq cxNodes cxEdges cxAdj "A" "B" "W" none (some cxDestX)).1
    (aStarRun havSq cxNodes cxEdges cxAdj "A" "B" "W" none (some cxDestX)).2
    (by decide) rfl (by decide)


/-! ### C5: within one search, disallowed edges are never traversed -/

/-- Every consecutive pair of the node list is joined by an edge in the edge
map that passes checkModeAccess for the given mode and context. -/
def pairsAllowedB (edges : List GraphLib.GraphEdge) (mode : String)
    (sd gd : Option Destination) : List String → Bool
  | a :: b :: rest =>
    (match edgeMapGet edges a b with
     | some e => checkModeAccess e.modes mode sd gd
     | none => false) && pairsAllowedB edges mode sd gd (b :: rest)
  | _ => true

/-- Every stored parent pointer crosses an existing, mode-allowed edge. -/
def PAinv (edges : List GraphLib.GraphEdge) (mode : String)
    (sd gd : Option Destination) (s : AStarState) : Prop :=
  ∀ n a p, s.nm n = some a → a.parent = some p →
    ∃ e, edgeMapGet edges p n = some e ∧ checkModeAccess e.modes mode sd gd = true

lemma relaxOne_preserves_PAinv (hav : ℚ → ℚ → ℚ → ℚ → ℚ)
    (nodes : List GraphLib.GraphNode) (edges : List GraphLib.GraphEdge)
    (mode : String) (sd gd : Option Destination) (goalNode : GraphLib.GraphNode)
    (cur : String) (s : AStarState) (nb : String)
    (hs : PAinv edges mode sd gd s) :
    PAinv edges mode sd gd (relaxOne hav nodes edges mode sd gd goalNode cur s nb) := by
  rcases relaxOne_spec hav nodes edges mode sd gd goalNode cur s nb _ rfl with
    ⟨_, hother, _, hmain⟩
  intro n a p hn hp
  rcases hmain with heq | ⟨hnbnone, _, hc, hnb⟩ | ⟨e, a2, g0, hedge, hacc, hnb, _, hpar⟩
  · rw [heq] at hn
    exact hs n a p hn hp
  · by_cases hx : n = nb
    · subst hx
      rw [hnb] at hn
      cases hn
      cases hp
    · rw [hother n hx] at hn
      exact hs n a p hn hp
  · by_cases hx : n = nb
    · subst hx
      rw [hnb] at hn
      cases hn
      rw [hpar] at hp
      cases hp
      exact ⟨e, hedge, hacc⟩
    · rw [hother n hx] at hn
      exact hs n a p hn hp

lemma foldl_relax_preserves_PAinv (hav : ℚ → ℚ → ℚ → ℚ → ℚ)
    (nodes : List GraphLib.GraphNode) (edges : List GraphLib.GraphEdge)
    (mode : String) (sd gd : Option Destination) (goalNode : GraphLib.GraphNode)
    (cur : String) :
    ∀ (l : List String) (s : AStarState), PAinv edges mode sd gd s →
      PAinv edges mode sd gd (l.foldl (relaxOne hav nodes edges mode sd gd goalNode cur) s) := by
  intro l
  induction l with
  | nil => exact fun s hs => hs
  | cons n rest ih =>
    intro s hs
    exact ih _ (relaxOne_preserves_PAinv hav nodes edges mode sd gd goalNode cur s n hs)

lemma pairsAllowedB_concat (edges : List GraphLib.GraphEdge) (mode : String)
    (sd gd : Option Destination) :
    ∀ (l : List String) (c : String),
      pairsAllowedB edges mode sd gd l = true →
      (∀ z, l.getLast? = some z →
        ∃ e, edgeMapGet edges z c = some e ∧ checkModeAccess e.modes mode sd gd = true) →
      pairsAllowedB edges mode sd gd (l ++ [c]) = true := by
  intro l
  induction l with
  | nil =>
    intro c _ _
    rfl
  | cons a rest ih =>
    intro c hl hlast
    cases rest with
    | nil =>
      rcases hlast a rfl with ⟨e, he, hacc⟩
      show ((match edgeMapGet edges a c with
        | some e => checkModeAccess e.modes mode sd gd
        | none => false) && pairsAllowedB edges mode sd gd [c]) = true
      rw [he]
      simp [hacc, pairsAllowedB]
    | cons b t =>
      have hl1 : (match edgeMapGet edges a b with
          | some e => checkModeAccess e.modes mode sd gd
          | none => false) = true ∧ pairsAllowedB edges mode sd gd (b :: t) = true := by
        have h0 := hl
        unfold pairsAllowedB at h0
        simp only [Bool.and_eq_true] at h0
        exact h0
      have hrest := ih c hl1.2 (fun z hz => hlast z (by
        rw [List.getLast?_cons_cons]
        exact hz))
      show ((match edgeMapGet edges a b with
        | some e => checkModeAccess e.modes mode sd gd
        | none => false) && pairsAllowedB edges mode sd gd (b :: (t ++ [c]))) = true
      rw [Bool.and_eq_true]
      exact ⟨hl1.1, hrest⟩

lemma reconstructChain_pairsAllowed (edges : List GraphLib.GraphEdge) (mode : String)
    (sd gd : Option Destination) (nm0 : String → Option AStarNode)
    (hpa : ∀ n a p, nm0 n = some a → a.parent = some p →
      ∃ e, edgeMapGet edges p n = some e ∧ checkModeAccess e.modes mode sd gd = true) :
    ∀ (fuel : Nat) (cur : String),
      pairsAllowedB edges mode sd gd (reconstructChain edges nm0 fuel cur).1 = true ∧
      ((reconstructChain edges nm0 fuel cur).1 = [] ∨
        (reconstructChain edges nm0 fuel cur).1.getLast? = some cur) := by
  intro fuel
  induction fuel with
  | zero =>
    intro cur
    exact ⟨rfl, Or.inl rfl⟩
  | succ fuel ih =>
    intro cur
    unfold reconstructChain
    by_cases hcur : cur = ""
    · rw [if_pos hcur]
      exact ⟨rfl, Or.inl rfl⟩
    · rw [if_neg hcur]
      cases hnm : nm0 cur with
      | none => exact ⟨rfl, Or.inr rfl⟩
      | some a =>
        dsimp only
        cases hp : a.parent with
        | none => exact ⟨rfl, Or.inr rfl⟩
        | some p =>
          dsimp only
          constructor
          · refine pairsAllowedB_concat edges mode sd gd _ cur (ih p).1 ?_
            intro z hz
            rcases (ih p).2 with hnil | hlast
            · rw [hnil] at hz
              cases hz
            · rw [hlast] at hz
              cases hz
              exact hpa cur a p hnm hp
          · exact Or.inr (List.getLast?_concat _)

lemma aStarLoop_found_pairsAllowed (hav : ℚ → ℚ → ℚ → ℚ → ℚ)
    (nodes : List GraphLib.GraphNode) (edges : List GraphLib.GraphEdge)
    (adjacency : List (String × List String)) (goalId : String) (mode : String)
    (sd gd : Option Destination) (goalNode : GraphLib.GraphNode) :
    ∀ (fuel : Nat) (s : AStarState) (r : SingleRouteResult) (s2 : AStarState),
      PAinv edges mode sd gd s →
      aStarLoop hav nodes edges adjacency goalId mode sd gd goalNode fuel s = (r, s2) →
      r.found = true →
      pairsAllowedB edges mode sd gd r.path = true := by
  intro fuel
  induction fuel with
  | zero =>
    intro s r s2 _ hr hf
    unfold aStarLoop at hr
    cases hr
    cases hf
  | succ fuel ih =>
    intro s r s2 hpa hr hf
    unfold aStarLoop at hr
    by_cases hemp : s.openL.isEmpty = true
    · rw [if_pos hemp] at hr
      cases hr
      cases hf
    · rw [if_neg hemp] at hr
      try dsimp only at hr
      by_cases hcur : aStarPop s.nm s.openL = ""
      · rw [if_pos hcur] at hr
        cases hr
        cases hf
      · rw [if_neg hcur] at hr
        by_cases hgoal : aStarPop s.nm s.openL = goalId
        · rw [if_pos hgoal] at hr
          try dsimp only at hr
          cases hr
          exact (reconstructChain_pairsAllowed edges mode sd gd s.nm hpa _ _).1
        · rw [if_neg hgoal] at hr
          try dsimp only at hr
          have hpa2 : PAinv edges mode sd gd { s with
              openL := s.openL.erase (aStarPop s.nm s.openL)
              closed := s.closed ++ [aStarPop s.nm s.openL] } := hpa
          exact ih _ r s2
            (foldl_relax_preserves_PAinv hav nodes edges mode sd gd goalNode _ _ _ hpa2)
            hr hf

/-- Claim C5 (amended, search level): within a single aStarPathfinding call,
edges failing checkModeAccess for the searched mode are skipped entirely:
every consecutive pair of a found path is joined by an edge that passed the
mode filter.  (The planner-level claim fails: calculateSingleRoute silently
retries a failed non-Walking search with Walking and labels the result with
the original mode.) -/
theorem c5_search_skips_disallowed_edges (hav : ℚ → ℚ → ℚ → ℚ → ℚ)
    (nodes : List GraphLib.GraphNode) (edges : List GraphLib.GraphEdge)
    (adjacency : List (String × List String)) (startId goalId mode : String)
    (sd gd : Option Destination)
    (hfound : (aStarPathfinding hav nodes edges adjacency startId goalId mode sd gd).found
      = true) :
    pairsAllowedB edges mode sd gd
      (aStarPathfinding hav nodes edges adjacency startId goalId mode sd gd).path = true := by
  unfold aStarPathfinding at hfound ⊢
  unfold aStarRun at hfound ⊢
  cases hsn : nodesGet nodes startId with
  | none =>
    rw [hsn] at hfound
    cases hgn : nodesGet nodes goalId with
    | none =>
      rw [hgn] at hfound
      dsimp only at hfound
      cases hfound
    | some gn =>
      rw [hgn] at hfound
      dsimp only at hfound
      cases hfound
  | some sn =>
    rw [hsn] at hfound
    cases hgn : nodesGet nodes goalId with
    | none =>
      rw [hgn] at hfound
      dsimp only at hfound
      cases hfound
    | some gn =>
      rw [hgn] at hfound
      dsimp only at hfound
      try dsimp only
      by_cases hconn : checkGraphConnectivity adjacency startId goalId = true
      · simp only [hconn, Bool.not_true, Bool.false_eq_true, if_false] at hfound ⊢
        try dsimp only at hfound ⊢
        refine aStarLoop_found_pairsAllowed hav nodes edges adjacency goalId mode sd gd gn
          10000 _ _ _ ?_ Prod.mk.eta.symm hfound
        intro n a p hn hp
        by_cases hx : n = startId
        · subst hx
          simp only [if_pos rfl] at hn
          cases hn
          cases hp
        · simp only [hx, if_false] at hn
          cases hn
      · have hne : (!checkGraphConnectivity adjacency startId goalId) = true := by
          simp only [Bool.not_eq_true] at hconn
          simp [hconn]
        rw [if_pos hne] at hfound
        cases hfound

/-- Witness for the amended C5 theorem: on fixture 1 the Walking search
succeeds and its path only uses mode-allowed edges. -/
theorem c5_search_skips_disallowed_edges_witness :
    pairsAllowedB cxEdges "W" none (some cxDestX)
      (aStarPathfinding havSq cxNodes cxEdges cxAdj "A" "B" "W" none
        (some cxDestX)).path = true :=
  c5_search_skips_disallowed_edges havSq cxNodes cxEdges cxAdj "A" "B" "W" none
    (some cxDestX) (by decide)

end Tracking.Pathfinding

namespace Tracking.RoadPathfinding

/-! ### findShortestPath of src/lib/road-pathfinding.ts

The RoadGraph Maps are embedded as association lists with unique keys (a JS
Map cannot hold duplicate keys), so `get` is `find?`.  JS `Infinity` costs
are `none`; the `fScore.get(n) || Infinity` and `gScore.get(n) || Infinity`
reads additionally turn a stored 0 into `Infinity` (JS `||` on the falsy
number 0), which `jsOrInf` models. -/

structure RoadNode where
  id : String
  lat : ℚ
  lng : ℚ
  connections : List String
deriving DecidableEq, Repr

structure RoadEdge where
  efrom : String
  eto : String
  distance : ℚ
  modes : List String
deriving DecidableEq, Repr

def rnodesGet (nodes : List RoadNode) (id0 : String) : Option RoadNode :=
  nodes.find? (fun n => n.id = id0)

def edgesGet (edges : List (String × RoadEdge)) (k : String) : Option RoadEdge :=
  (edges.find? (fun p => p.1 = k)).map (fun p => p.2)

/-- The template key of the edge lookup. -/
def edgeKey (a b : String) : String := a ++ "_" ++ b

/-- `x || Infinity` on a Map read: missing and 0 both give Infinity. -/
def jsOrInf : Option ℚ → Option ℚ
  | some v => if v = 0 then none else some v
  | none => none

/-- The heuristic of a node id: haversine to the goal node, via the node
lookup (the source dereferences the looked-up node directly). -/
def spH (hav : ℚ → ℚ → ℚ → ℚ → ℚ) (nodes : List RoadNode) (goalNode : RoadNode)
    (nid : String) : ℚ :=
  match rnodesGet nodes nid with
  | some n => hav n.lat n.lng goalNode.lat goalNode.lng
  | none => 0

structure SPState where
  openL : List String
  closed : List String
  g : String → Option ℚ
  f : String → Option ℚ
  came : String → Option String

/-- The `Find node with lowest fScore` scan (insertion order, strict
improvement, empty-string sentinel). -/
def spPopGo (f : String → Option ℚ) : List String → String → Option ℚ → String
  | [], cur, _ => cur
  | n :: rest, cur, low =>
    if Pathfinding.optLt (jsOrInf (f n)) low then spPopGo f rest n (jsOrInf (f n))
    else spPopGo f rest cur low

def spPop (f : String → Option ℚ) (openL : List String) : String :=
  spPopGo f openL "" none

/-- The lowest-f accumulator of the same scan, used in proofs. -/
def spLowGo (f : String → Option ℚ) : List String → Option ℚ → Option ℚ
  | [], low => low
  | n :: rest, low =>
    if Pathfinding.optLt (jsOrInf (f n)) low then spLowGo f rest (jsOrInf (f n))
    else spLowGo f rest low

/-- The `while (currentPathNode) { path.unshift(...) }` reconstruction.  The
cameFrom chain strictly descends the closing order, so `closed.length + 2`
fuel never runs out on reachable states. -/
def spChain (came : String → Option String) : Nat → String → List String
  | 0, _ => []
  | fuel + 1, cur =>
    if cur = "" then []
    else
      match came cur with
      | some p => spChain came fuel p ++ [cur]
      | none => [cur]

/-- `path.map(nodeId => { const node = nodes.get(nodeId)!; return [node.lat,
node.lng] })`.  The source's non-null assertion would crash on a dangling id;
the embedding skips it (the C2 hypotheses make every path id resolve). -/
def spCoordinates (nodes : List RoadNode) (path : List String) : List (ℚ × ℚ) :=
  path.filterMap (fun nodeId => (rnodesGet nodes nodeId).map (fun n => (n.lat, n.lng)))

/-- One iteration of the `for (const neighborId of currentNode.connections)`
loop. -/
def spRelax (hav : ℚ → ℚ → ℚ → ℚ → ℚ) (nodes : List RoadNode)
    (edges : List (String × RoadEdge)) (mode : String) (sd gd : Option Destination)
    (goalNode : RoadNode) (current : String) (s : SPState)
    (neighborId : String) : SPState :=
  if s.closed.contains neighborId then s
  else
    match edgesGet edges (edgeKey current neighborId) with
    | none => s
    | some edge =>
      if !(isEdgeModeAllowed edge.modes mode sd gd) then s
      else
        let tentativeG := qAdd ((s.g current).getD 0) edge.distance
        if !(s.openL.contains neighborId) then
          { openL := s.openL ++ [neighborId]
            closed := s.closed
            g := fun x => if x = neighborId then some tentativeG else s.g x
            f := fun x => if x = neighborId then
                some (qAdd tentativeG (spH hav nodes goalNode neighborId)) else s.f x
            came := fun x => if x = neighborId then some current else s.came x }
        else if !(Pathfinding.optLt (some tentativeG) (jsOrInf (s.g neighborId))) then s
        else
          { openL := s.openL
            closed := s.closed
            g := fun x => if x = neighborId then some tentativeG else s.g x
            f := fun x => if x = neighborId then
                some (qAdd tentativeG (spH hav nodes goalNode neighborId)) else s.f x
            came := fun x => if x = neighborId then some current else s.came x }

/-- The `while (openSet.size > 0)` loop.  The source has no iteration cap;
each iteration that does not return closes one more node out of a fixed
finite universe, so the fuel passed by findShortestPath below provably
suffices. -/
def spLoop (hav : ℚ → ℚ → ℚ → ℚ → ℚ) (nodes : List RoadNode)
    (edges : List (String × RoadEdge)) (mode : String) (sd gd : Option Destination)
    (goalNodeId : String) (goalNode : RoadNode) :
    Nat → SPState → PathResult × SPState
  | 0, s => (⟨[], [], 0, false⟩, s)
  | fuel + 1, s =>
    if s.openL.isEmpty then (⟨[], [], 0, false⟩, s)
    else
      let current := spPop s.f s.openL
      if current = "" then (⟨[], [], 0, false⟩, s)
      else if current = goalNodeId then
        let path := spChain s.came (s.closed.length + 2) current
        (⟨path, spCoordinates nodes path, (s.g goalNodeId).getD 0, true⟩, s)
      else
        let s1 : SPState := { s with
          openL := s.openL.erase current
          closed := s.closed ++ [current] }
        match rnodesGet nodes current with
        | none => spLoop hav nodes edges mode sd gd goalNodeId goalNode fuel s1
        | some currentNode =>
          spLoop hav nodes edges mode sd gd goalNodeId goalNode fuel
            (currentNode.connections.foldl
              (spRelax hav nodes edges mode sd gd goalNode current) s1)

/-- All node ids the loop can ever reach: the start plus every connection
target. -/
def spUniverse (nodes : List RoadNode) (startNodeId : String) : List String :=
  startNodeId :: (nodes.map (fun n => n.connections)).flatten

def spFuel (nodes : List RoadNode) (startNodeId : String) : Nat :=
  (spUniverse nodes startNodeId).length + 1

/-- findShortestPath of road-pathfinding.ts. -/
def findShortestPath (hav : ℚ → ℚ → ℚ → ℚ → ℚ) (nodes : List RoadNode)
    (edges : List (String × RoadEdge)) (startNodeId goalNodeId : String)
    (mode : String) (sd gd : Option Destination) : PathResult :=
  match rnodesGet nodes goalNodeId, rnodesGet nodes startNodeId with
  | some goalNode, some startNode =>
    let heuristic := hav startNode.lat startNode.lng goalNode.lat goalNode.lng
    let s0 : SPState :=
      ⟨[startNodeId], [],
        fun x => if x = startNodeId then some 0 else none,
        fun x => if x = startNodeId then some heuristic else none,
        fun _ => none⟩
    (spLoop hav nodes edges mode sd gd goalNodeId goalNode
      (spFuel nodes startNodeId) s0).1
  | _, _ => ⟨[], [], 0, false⟩

/-- One hop of a valid path: the target is a listed connection of the
resolved source node and the keyed edge exists and passes the mode filter. -/
def validStepB (nodes : List RoadNode) (edges : List (String × RoadEdge))
    (mode : String) (sd gd : Option Destination) (a b : String) : Bool :=
  (match rnodesGet nodes a with
   | some n => n.connections.contains b
   | none => false) &&
  (match edgesGet edges (edgeKey a b) with
   | some e => isEdgeModeAllowed e.modes mode sd gd
   | none => false)

/-- A valid path from s to t: non-empty, anchored at both ends, every hop a
valid step. -/
def validPathB (nodes : List RoadNode) (edges : List (String × RoadEdge))
    (mode : String) (sd gd : Option Destination) (s t : String) : List String → Bool
  | [] => false
  | [x] => x == s && x == t
  | a :: b :: rest => a == s && validStepB nodes edges mode sd gd a b &&
      validPathB nodes edges mode sd gd b t (b :: rest)

/-- The distance of the keyed edge (0 when absent, as in the reconstruction). -/
def edgeDistOf (edges : List (String × RoadEdge)) (a b : String) : ℚ :=
  match edgesGet edges (edgeKey a b) with
  | some e => e.distance
  | none => 0

def spPathDist (edges : List (String × RoadEdge)) : List String → ℚ
  | a :: b :: rest => qAdd (edgeDistOf edges a b) (spPathDist edges (b :: rest))
  | _ => 0

end Tracking.RoadPathfinding

namespace Tracking.RoadPathfinding

/-! ### C2 counterexamples -/

/-- A single node: start = goal. -/
def c2nodeS : RoadNode := ⟨"S", 0, 0, []⟩

/-- Two nodes joined by an untagged edge (no mode restrictions). -/
def c2nodeS2 : RoadNode := ⟨"S", 0, 0, ["T"]⟩
def c2nodeT2 : RoadNode := ⟨"T", 0, 3, ["S"]⟩
def c2nodes2 : List RoadNode := [c2nodeS2, c2nodeT2]
def c2edges2 : List (String × RoadEdge) :=
  [("S_T", ⟨"S", "T", 3, []⟩), ("T_S", ⟨"T", "S", 3, []⟩)]

/-- Claim C2, counterexample: (i) with start = goal the trivial path exists,
yet the search returns found=false — the start's fScore is haversine(start,
start) = 0, and the `fScore.get(n) || Infinity` read turns that 0 into
Infinity, so the start is never popped; (ii) on a graph whose only edge
carries NO mode restrictions (an empty tag list), the search also returns
found=false for a connected pair, because isEdgeModeAllowed denies an
empty tag list (no rule matches and there is no permissive fallback). -/
theorem c2_counterexample_quirks :
    (findShortestPath havSq [c2nodeS] [] "S" "S" "W" none none).found = false ∧
    validPathB [c2nodeS] [] "W" none none "S" "S" ["S"] = true ∧
    (findShortestPath havSq c2nodes2 c2edges2 "S" "T" "W" none none).found = false ∧
    edgesGet c2edges2 (edgeKey "S" "T") = some ⟨"S", "T", 3, []⟩ ∧
    (rnodesGet c2nodes2 "S").map (fun n => n.connections) = some ["T"] ∧
    isEdgeModeAllowed [] "W" none none = false := by
  refine ⟨by decide, by decide, by decide, by decide, by decide, by decide⟩

end Tracking.RoadPathfinding

namespace Tracking.RoadPathfinding

/-! ### C2: A* optimality of findShortestPath under well-formedness
hypotheses.  `none` is Infinity throughout. -/

/-- Non-strict order on Infinity-valued costs. -/
def wLe : Option ℚ → Option ℚ → Prop
  | _, none => True
  | none, some _ => False
  | some a, some b => a ≤ b

lemma wLe_refl (x : Option ℚ) : wLe x x := by
  cases x with
  | none => trivial
  | some a => exact le_refl a

lemma wLe_trans {x y z : Option ℚ} (h1 : wLe x y) (h2 : wLe y z) : wLe x z := by
  cases x with
  | none =>
    cases z with
    | none => trivial
    | some c =>
      cases y with
      | none => exact h2
      | some b => exact h1.elim
  | some a =>
    cases z with
    | none => trivial
    | some c =>
      cases y with
      | none => exact h2.elim
      | some b => exact le_trans h1 h2

lemma wLe_of_optLt {x y : Option ℚ} (h : Pathfinding.optLt x y = true) : wLe x y := by
  cases x with
  | none => simp [Pathfinding.optLt] at h
  | some a =>
    cases y with
    | none => trivial
    | some b =>
      simp only [Pathfinding.optLt, decide_eq_true_eq] at h
      show a ≤ b
      exact le_of_lt h

lemma wLe_of_not_optLt {x y : Option ℚ} (h : Pathfinding.optLt x y = false) : wLe y x := by
  cases x with
  | none =>
    cases y with
    | none => trivial
    | some b => trivial
  | some a =>
    cases y with
    | none => simp [Pathfinding.optLt] at h
    | some b =>
      simp only [Pathfinding.optLt, decide_eq_false_iff_not] at h
      show b ≤ a
      exact le_of_not_lt h

lemma not_optLt_of_wLe {x y : Option ℚ} (h : wLe y x) : Pathfinding.optLt x y = false := by
  cases x with
  | none =>
    cases y with
    | none => rfl
    | some b => rfl
  | some a =>
    cases y with
    | none => exact h.elim
    | some b =>
      show decide (a < b) = false
      simp only [decide_eq_false_iff_not]
      exact not_lt_of_le h

lemma spLowGo_le (f : String → Option ℚ) :
    ∀ (l : List String) (low : Option ℚ), wLe (spLowGo f l low) low := by
  intro l
  induction l with
  | nil => exact fun low => wLe_refl low
  | cons m rest ih =>
    intro low
    unfold spLowGo
    by_cases hlt : Pathfinding.optLt (jsOrInf (f m)) low = true
    · rw [if_pos hlt]
      exact wLe_trans (ih (jsOrInf (f m))) (wLe_of_optLt hlt)
    · rw [if_neg hlt]
      exact ih low

lemma spLowGo_not_lt (f : String → Option ℚ) :
    ∀ (l : List String) (low : Option ℚ) (n : String), n ∈ l →
      Pathfinding.optLt (jsOrInf (f n)) (spLowGo f l low) = false := by
  intro l
  induction l with
  | nil =>
    intro low n hn
    cases hn
  | cons m rest ih =>
    intro low n hn
    unfold spLowGo
    rcases List.mem_cons.mp hn with hm | hrest
    · subst hm
      by_cases hlt : Pathfinding.optLt (jsOrInf (f n)) low = true
      · rw [if_pos hlt]
        exact not_optLt_of_wLe (spLowGo_le f rest (jsOrInf (f n)))
      · rw [if_neg hlt]
        have h1 : wLe low (jsOrInf (f n)) :=
          wLe_of_not_optLt (Bool.not_eq_true _ ▸ (by simpa using hlt))
        exact not_optLt_of_wLe (wLe_trans (spLowGo_le f rest low) h1)
    · by_cases hlt : Pathfinding.optLt (jsOrInf (f m)) low = true
      · rw [if_pos hlt]
        exact ih _ n hrest
      · rw [if_neg hlt]
        exact ih _ n hrest

lemma spPopGo_result (f : String → Option ℚ) :
    ∀ (l : List String) (cur : String) (low : Option ℚ) (c : String),
      spPopGo f l cur low = c →
      (c = cur ∧ spLowGo f l low = low) ∨ (c ∈ l ∧ spLowGo f l low = jsOrInf (f c)) := by
  intro l
  induction l with
  | nil =>
    intro cur low c hc
    exact Or.inl ⟨hc.symm, rfl⟩
  | cons m rest ih =>
    intro cur low c hc
    unfold spPopGo at hc
    unfold spLowGo
    by_cases hlt : Pathfinding.optLt (jsOrInf (f m)) low = true
    · rw [if_pos hlt] at hc
      rw [if_pos hlt]
      rcases ih m (jsOrInf (f m)) c hc with ⟨h1, h2⟩ | ⟨h1, h2⟩
      · subst h1
        exact Or.inr ⟨List.mem_cons_self _ _, h2⟩
      · exact Or.inr ⟨List.mem_cons_of_mem _ h1, h2⟩
    · rw [if_neg hlt] at hc
      rw [if_neg hlt]
      rcases ih cur low c hc with ⟨h1, h2⟩ | ⟨h1, h2⟩
      · exact Or.inl ⟨h1, h2⟩
      · exact Or.inr ⟨List.mem_cons_of_mem _ h1, h2⟩

/-- A non-sentinel pop result is an open node whose (JS-read) fScore is
minimal over the open list. -/
lemma spPop_spec (f : String → Option ℚ) (openL : List String) (c : String)
    (h : spPop f openL = c) (hne : c ≠ "") :
    c ∈ openL ∧ ∀ n ∈ openL,
      Pathfinding.optLt (jsOrInf (f n)) (jsOrInf (f c)) = false := by
  rcases spPopGo_result f openL "" none c h with ⟨h1, _⟩ | ⟨h1, h2⟩
  · exact absurd h1 hne
  · refine ⟨h1, fun n hn => ?_⟩
    have := spLowGo_not_lt f openL none n hn
    rw [h2] at this
    exact this

/-- When the scan returns the sentinel, no open node beat Infinity: every
open fScore reads as Infinity (is zero or missing). -/
lemma spPop_sentinel (f : String → Option ℚ) (openL : List String)
    (h : spPop f openL = "") (hno : "" ∉ openL) :
    ∀ n ∈ openL, jsOrInf (f n) = none := by
  rcases spPopGo_result f openL "" none _ h with ⟨_, h2⟩ | ⟨h1, _⟩
  · intro n hn
    have h3 := spLowGo_not_lt f openL none n hn
    rw [h2] at h3
    cases hx : jsOrInf (f n) with
    | none => rfl
    | some v =>
      rw [hx] at h3
      simp [Pathfinding.optLt] at h3
  · exact absurd h1 hno

end Tracking.RoadPathfinding

namespace Tracking.RoadPathfinding

lemma validPathB_head (nodes : List RoadNode) (edges : List (String × RoadEdge))
    (mode : String) (sd gd : Option Destination) :
    ∀ (q : List String) (s t : String), validPathB nodes edges mode sd gd s t q = true →
      q.head? = some s := by
  intro q
  cases q with
  | nil =>
    intro s t h
    cases h
  | cons a rest =>
    intro s t h
    cases rest with
    | nil =>
      unfold validPathB at h
      simp only [Bool.and_eq_true, beq_iff_eq] at h
      rw [h.1]
      rfl
    | cons b rest2 =>
      unfold validPathB at h
      simp only [Bool.and_eq_true, beq_iff_eq] at h
      rw [h.1.1]
      rfl

lemma validPathB_cons_iff (nodes : List RoadNode) (edges : List (String × RoadEdge))
    (mode : String) (sd gd : Option Destination) (s t a b : String) (rest : List String) :
    validPathB nodes edges mode sd gd s t (a :: b :: rest) = true ↔
      a = s ∧ validStepB nodes edges mode sd gd a b = true ∧
      validPathB nodes edges mode sd gd b t (b :: rest) = true := by
  simp only [validPathB, Bool.and_eq_true, beq_iff_eq, and_assoc]

lemma validPathB_single_iff (nodes : List RoadNode) (edges : List (String × RoadEdge))
    (mode : String) (sd gd : Option Destination) (s t x : String) :
    validPathB nodes edges mode sd gd s t [x] = true ↔ x = s ∧ x = t := by
  simp only [validPathB, Bool.and_eq_true, beq_iff_eq]

lemma validPathB_last (nodes : List RoadNode) (edges : List (String × RoadEdge))
    (mode : String) (sd gd : Option Destination) :
    ∀ (q : List String) (s t : String), validPathB nodes edges mode sd gd s t q = true →
      q.getLast? = some t := by
  intro q
  induction q with
  | nil =>
    intro s t h
    cases h
  | cons a rest ih =>
    intro s t h
    cases rest with
    | nil =>
      rcases (validPathB_single_iff nodes edges mode sd gd s t a).mp h with ⟨_, h2⟩
      rw [h2]
      rfl
    | cons b rest2 =>
      rcases (validPathB_cons_iff nodes edges mode sd gd s t a b rest2).mp h with
        ⟨_, _, h3⟩
      rw [List.getLast?_cons_cons]
      exact ih b t h3

lemma validPathB_prepend (nodes : List RoadNode) (edges : List (String × RoadEdge))
    (mode : String) (sd gd : Option Destination) (a b z : String) (l : List String)
    (hstep : validStepB nodes edges mode sd gd a b = true)
    (hl : validPathB nodes edges mode sd gd b z l = true) :
    validPathB nodes edges mode sd gd a z (a :: l) = true := by
  cases l with
  | nil => cases hl
  | cons c rest =>
    have hc : c = b := by
      have := validPathB_head nodes edges mode sd gd (c :: rest) b z hl
      simpa using this
    subst hc
    exact (validPathB_cons_iff nodes edges mode sd gd a z a c rest).mpr ⟨rfl, hstep, hl⟩

lemma validPathB_concat (nodes : List RoadNode) (edges : List (String × RoadEdge))
    (mode : String) (sd gd : Option Destination) :
    ∀ (l : List String) (s p m : String),
      validPathB nodes edges mode sd gd s p l = true →
      validStepB nodes edges mode sd gd p m = true →
      validPathB nodes edges mode sd gd s m (l ++ [m]) = true := by
  intro l
  induction l with
  | nil =>
    intro s p m hl _
    cases hl
  | cons a rest ih =>
    intro s p m hl hstep
    cases rest with
    | nil =>
      rcases (validPathB_single_iff nodes edges mode sd gd s p a).mp hl with ⟨h1, h2⟩
      subst h2
      refine (validPathB_cons_iff nodes edges mode sd gd s m a m []).mpr
        ⟨h1, hstep, ?_⟩
      exact (validPathB_single_iff nodes edges mode sd gd m m m).mpr ⟨rfl, rfl⟩
    | cons b rest2 =>
      rcases (validPathB_cons_iff nodes edges mode sd gd s p a b rest2).mp hl with
        ⟨h1, h2, h3⟩
      exact (validPathB_cons_iff nodes edges mode sd gd s m a b (rest2 ++ [m])).mpr
        ⟨h1, h2, ih b p m h3 hstep⟩

lemma spPathDist_cons (edges : List (String × RoadEdge)) (a b : String)
    (l : List String) (hb : l.head? = some b) :
    spPathDist edges (a :: l) = qAdd (edgeDistOf edges a b) (spPathDist edges l) := by
  cases l with
  | nil => cases hb
  | cons c rest =>
    have hc : c = b := by simpa using hb
    subst hc
    rfl

lemma spPathDist_concat (edges : List (String × RoadEdge)) :
    ∀ (l : List String) (p m : String), l.getLast? = some p →
      spPathDist edges (l ++ [m]) = spPathDist edges l + edgeDistOf edges p m := by
  intro l
  induction l with
  | nil =>
    intro p m hp
    cases hp
  | cons a rest ih =>
    intro p m hp
    cases rest with
    | nil =>
      have ha : a = p := by simpa using hp
      subst ha
      show spPathDist edges [a, m] = spPathDist edges [a] + edgeDistOf edges a m
      show qAdd (edgeDistOf edges a m) (spPathDist edges [m]) = _
      show qAdd (edgeDistOf edges a m) 0 = 0 + edgeDistOf edges a m
      rw [qAdd_eq]
      ring
    | cons b rest2 =>
      rw [List.getLast?_cons_cons] at hp
      have h1 : spPathDist edges ((a :: b :: rest2) ++ [m]) =
          qAdd (edgeDistOf edges a b) (spPathDist edges ((b :: rest2) ++ [m])) := rfl
      have h2 : spPathDist edges (a :: b :: rest2) =
          qAdd (edgeDistOf edges a b) (spPathDist edges (b :: rest2)) := rfl
      rw [h1, h2, ih p m hp, qAdd_eq, qAdd_eq]
      ring

lemma edgeDistOf_pos (edges : List (String × RoadEdge))
    (hpos : ∀ p ∈ edges, 0 < p.2.distance) (a b : String) (e : RoadEdge)
    (he : edgesGet edges (edgeKey a b) = some e) : 0 < e.distance := by
  unfold edgesGet at he
  cases hf : edges.find? (fun p => p.1 = edgeKey a b) with
  | none =>
    rw [hf] at he
    cases he
  | some pr =>
    rw [hf] at he
    have hmem := List.mem_of_find?_eq_some hf
    have : pr.2 = e := by simpa using he
    rw [← this]
    exact hpos pr hmem

lemma edgeDistOf_nonneg (edges : List (String × RoadEdge))
    (hpos : ∀ p ∈ edges, 0 < p.2.distance) (a b : String) :
    0 ≤ edgeDistOf edges a b := by
  unfold edgeDistOf
  cases he : edgesGet edges (edgeKey a b) with
  | none => exact le_refl 0
  | some e => exact le_of_lt (edgeDistOf_pos edges hpos a b e he)

lemma spPathDist_nonneg (edges : List (String × RoadEdge))
    (hpos : ∀ p ∈ edges, 0 < p.2.distance) :
    ∀ q : List String, 0 ≤ spPathDist edges q := by
  intro q
  induction q with
  | nil => exact le_refl 0
  | cons a rest ih =>
    cases rest with
    | nil => exact le_refl 0
    | cons b rest2 =>
      show 0 ≤ qAdd (edgeDistOf edges a b) (spPathDist edges (b :: rest2))
      rw [qAdd_eq]
      have h1 := edgeDistOf_nonneg edges hpos a b
      have h2 := ih
      linarith

/-- Unpacking a valid step: the resolved source record (a member of the node
list, with matching id), the listed connection, and the allowed keyed edge. -/
lemma validStepB_spec (nodes : List RoadNode) (edges : List (String × RoadEdge))
    (mode : String) (sd gd : Option Destination) (a b : String)
    (h : validStepB nodes edges mode sd gd a b = true) :
    ∃ n e, rnodesGet nodes a = some n ∧ n ∈ nodes ∧ n.id = a ∧
      b ∈ n.connections ∧ edgesGet edges (edgeKey a b) = some e ∧
      isEdgeModeAllowed e.modes mode sd gd = true := by
  unfold validStepB at h
  simp only [Bool.and_eq_true] at h
  rcases h with ⟨h1, h2⟩
  cases hn : rnodesGet nodes a with
  | none =>
    rw [hn] at h1
    cases h1
  | some n =>
    rw [hn] at h1
    cases he : edgesGet edges (edgeKey a b) with
    | none =>
      rw [he] at h2
      cases h2
    | some e =>
      rw [he] at h2
      have hmem : n ∈ nodes := List.mem_of_find?_eq_some hn
      have hid : n.id = a := by
        have := List.find?_some hn
        simpa using this
      exact ⟨n, e, rfl, hmem, hid, by simpa using h1, rfl, h2⟩

/-- Consistency telescoped along a valid path. -/
lemma spH_telescope (hav : ℚ → ℚ → ℚ → ℚ → ℚ) (nodes : List RoadNode)
    (edges : List (String × RoadEdge)) (mode : String) (sd gd : Option Destination)
    (goalNode : RoadNode)
    (hcons : ∀ n ∈ nodes, ∀ b ∈ n.connections, ∀ e,
      edgesGet edges (edgeKey n.id b) = some e →
      isEdgeModeAllowed e.modes mode sd gd = true →
      spH hav nodes goalNode n.id ≤ e.distance + spH hav nodes goalNode b) :
    ∀ (q : List String) (w t : String),
      validPathB nodes edges mode sd gd w t q = true →
      spH hav nodes goalNode w ≤ spPathDist edges q + spH hav nodes goalNode t := by
  intro q
  induction q with
  | nil =>
    intro w t h
    cases h
  | cons a rest ih =>
    intro w t h
    cases rest with
    | nil =>
      rcases (validPathB_single_iff nodes edges mode sd gd w t a).mp h with ⟨h1, h2⟩
      subst h1
      subst h2
      show spH hav nodes goalNode a ≤ 0 + spH hav nodes goalNode a
      linarith [le_refl (spH hav nodes goalNode a)]
    | cons b rest2 =>
      rcases (validPathB_cons_iff nodes edges mode sd gd w t a b rest2).mp h with
        ⟨h1, h2, h3⟩
      subst h1
      rcases validStepB_spec nodes edges mode sd gd a b h2 with
        ⟨n, e, hn, hmem, hid, hconn, he, hacc⟩
      have hstep : spH hav nodes goalNode a ≤ e.distance + spH hav nodes goalNode b := by
        have := hcons n hmem b hconn e (by rw [hid]; exact he) hacc
        rw [hid] at this
        exact this
      have hsuffix := ih b t h3
      have hd : spPathDist edges (a :: b :: rest2) =
          qAdd (edgeDistOf edges a b) (spPathDist edges (b :: rest2)) := rfl
      have hde : edgeDistOf edges a b = e.distance := by
        unfold edgeDistOf
        rw [he]
      rw [hd, qAdd_eq, hde]
      linarith

/-- Splitting a valid path at the closed-set frontier: the head is closed,
the target is not, so some closed node on the path steps to a non-closed
successor, and the distance decomposes accordingly. -/
lemma validPath_split (nodes : List RoadNode) (edges : List (String × RoadEdge))
    (mode : String) (sd gd : Option Destination) (closedL : List String) :
    ∀ (q : List String) (s t : String),
      validPathB nodes edges mode sd gd s t q = true →
      s ∈ closedL → t ∉ closedL →
      ∃ q1 z w q2, q = q1 ++ z :: w :: q2 ∧ z ∈ closedL ∧ w ∉ closedL ∧
        validPathB nodes edges mode sd gd s z (q1 ++ [z]) = true ∧
        validStepB nodes edges mode sd gd z w = true ∧
        validPathB nodes edges mode sd gd w t (w :: q2) = true ∧
        spPathDist edges q =
          spPathDist edges (q1 ++ [z]) + edgeDistOf edges z w +
            spPathDist edges (w :: q2) := by
  intro q
  induction q with
  | nil =>
    intro s t h hs ht
    cases h
  | cons a rest ih =>
    intro s t h hs ht
    cases rest with
    | nil =>
      rcases (validPathB_single_iff nodes edges mode sd gd s t a).mp h with ⟨h1, h2⟩
      subst h1
      rw [← h2] at ht
      exact absurd hs ht
    | cons b rest2 =>
      rcases (validPathB_cons_iff nodes edges mode sd gd s t a b rest2).mp h with
        ⟨h1, h2, h3⟩
      subst h1
      by_cases hb : b ∈ closedL
      · rcases ih b t h3 hb ht with
          ⟨q1, z, w, q2, heq, hz, hw, hvp, hvs, hvw, hdist⟩
        refine ⟨a :: q1, z, w, q2, by rw [List.cons_append, heq], hz, hw, ?_, hvs, hvw, ?_⟩
        · have hhead : (q1 ++ [z]).head? = some b := by
            have := validPathB_head nodes edges mode sd gd (q1 ++ [z]) b z hvp
            exact this
          exact validPathB_prepend nodes edges mode sd gd a b z (q1 ++ [z]) h2 hvp
        · have hhead : (q1 ++ [z]).head? = some b :=
            validPathB_head nodes edges mode sd gd (q1 ++ [z]) b z hvp
          have hd1 : spPathDist edges (a :: b :: rest2) =
              qAdd (edgeDistOf edges a b) (spPathDist edges (b :: rest2)) := rfl
          have hd2 : spPathDist edges (a :: (q1 ++ [z])) =
              qAdd (edgeDistOf edges a b) (spPathDist edges (q1 ++ [z])) :=
            spPathDist_cons edges a b (q1 ++ [z]) hhead
          have hbr : (b :: rest2) = q1 ++ z :: w :: q2 := heq
          have : spPathDist edges (b :: rest2) =
              spPathDist edges (q1 ++ [z]) + edgeDistOf edges z w +
                spPathDist edges (w :: q2) := by
            rw [hbr] at hdist ⊢
            exact hdist
          have hcons2 : (a :: q1) ++ [z] = a :: (q1 ++ [z]) := by simp
          rw [hcons2, hd1, hd2, qAdd_eq, qAdd_eq, this]
          ring
      · refine ⟨[], a, b, rest2, rfl, hs, hb, ?_, h2, h3, ?_⟩
        · exact (validPathB_single_iff nodes edges mode sd gd a a a).mpr ⟨rfl, rfl⟩
        · show spPathDist edges (a :: b :: rest2) =
            spPathDist edges [a] + edgeDistOf edges a b + spPathDist edges (b :: rest2)
          show qAdd (edgeDistOf edges a b) (spPathDist edges (b :: rest2)) = _
          rw [qAdd_eq]
          show _ = 0 + edgeDistOf edges a b + spPathDist edges (b :: rest2)
          ring

end Tracking.RoadPathfinding

namespace Tracking.RoadPathfinding

/-- Full effect characterization of one road relaxation step. -/
lemma spRelax_spec (hav : ℚ → ℚ → ℚ → ℚ → ℚ) (nodes : List RoadNode)
    (edges : List (String × RoadEdge)) (mode : String) (sd gd : Option Destination)
    (goalNode : RoadNode) (cur : String) (s : SPState) (nb : String)
    (s1 : SPState) (hs1 : spRelax hav nodes edges mode sd gd goalNode cur s nb = s1) :
    s1.closed = s.closed ∧
    (∀ x, x ≠ nb → s1.g x = s.g x ∧ s1.f x = s.f x ∧ s1.came x = s.came x) ∧
    (s1.openL = s.openL ∨ (s1.openL = s.openL ++ [nb] ∧ s.openL.contains nb = false)) ∧
    ((s1 = s ∧
       (nb ∈ s.closed ∨ edgesGet edges (edgeKey cur nb) = none ∨
        (∃ e, edgesGet edges (edgeKey cur nb) = some e ∧
          isEdgeModeAllowed e.modes mode sd gd = false) ∨
        (∃ e, edgesGet edges (edgeKey cur nb) = some e ∧
          isEdgeModeAllowed e.modes mode sd gd = true ∧
          nb ∈ s.openL ∧
          Pathfinding.optLt (some (qAdd ((s.g cur).getD 0) e.distance))
            (jsOrInf (s.g nb)) = false))) ∨
      (nb ∉ s.closed ∧
       ∃ e, edgesGet edges (edgeKey cur nb) = some e ∧
         isEdgeModeAllowed e.modes mode sd gd = true ∧
         s1.g nb = some (qAdd ((s.g cur).getD 0) e.distance) ∧
         s1.f nb = some (qAdd (qAdd ((s.g cur).getD 0) e.distance)
           (spH hav nodes goalNode nb)) ∧
         s1.came nb = some cur ∧
         nb ∈ s1.openL ∧
         (s.openL.contains nb = false ∨
           Pathfinding.optLt (some (qAdd ((s.g cur).getD 0) e.distance))
             (jsOrInf (s.g nb)) = true))) := by
  subst hs1
  unfold spRelax
  by_cases hcl : s.closed.contains nb = true
  · rw [if_pos hcl]
    exact ⟨rfl, fun _ _ => ⟨rfl, rfl, rfl⟩, Or.inl rfl,
      Or.inl ⟨rfl, Or.inl (List.mem_of_elem_eq_true hcl)⟩⟩
  · rw [if_neg hcl]
    cases hedge : edgesGet edges (edgeKey cur nb) with
    | none => exact ⟨rfl, fun _ _ => ⟨rfl, rfl, rfl⟩, Or.inl rfl,
        Or.inl ⟨rfl, Or.inr (Or.inl rfl)⟩⟩
    | some e =>
      dsimp only
      by_cases hacc : isEdgeModeAllowed e.modes mode sd gd = true
      · have hna : ¬((!isEdgeModeAllowed e.modes mode sd gd) = true) := by
          rw [hacc]
          simp
        rw [if_neg hna]
        have hnotmem : nb ∉ s.closed := by
          intro hmem
          exact hcl (by simpa using hmem)
        by_cases hopen : s.openL.contains nb = true
        · have hno : ¬((!s.openL.contains nb) = true) := by
            rw [hopen]
            simp
          rw [if_neg hno]
          by_cases hlt : Pathfinding.optLt (some (qAdd ((s.g cur).getD 0) e.distance))
              (jsOrInf (s.g nb)) = true
          · have hnl : ¬((!Pathfinding.optLt (some (qAdd ((s.g cur).getD 0) e.distance))
                (jsOrInf (s.g nb))) = true) := by
              rw [hlt]
              simp
            rw [if_neg hnl]
            refine ⟨rfl, fun x hx => ⟨by simp [hx], by simp [hx], by simp [hx]⟩,
              Or.inl rfl,
              Or.inr ⟨hnotmem, e, rfl, hacc, by simp, by simp, by simp, ?_, Or.inr hlt⟩⟩
            exact List.mem_of_elem_eq_true hopen
          · have hne2 : (!Pathfinding.optLt (some (qAdd ((s.g cur).getD 0) e.distance))
                (jsOrInf (s.g nb))) = true := by
              simp only [Bool.not_eq_true] at hlt
              rw [hlt]
              rfl
            rw [if_pos hne2]
            simp only [Bool.not_eq_true] at hlt
            exact ⟨rfl, fun _ _ => ⟨rfl, rfl, rfl⟩, Or.inl rfl,
              Or.inl ⟨rfl, Or.inr (Or.inr (Or.inr
                ⟨e, rfl, hacc, List.mem_of_elem_eq_true hopen, hlt⟩))⟩⟩
        · have hne : (!s.openL.contains nb) = true := by
            simp only [Bool.not_eq_true] at hopen
            rw [hopen]
            rfl
          rw [if_pos hne]
          have hopen2 : s.openL.contains nb = false := by
            simp only [Bool.not_eq_true] at hopen
            exact hopen
          refine ⟨rfl, fun x hx => ⟨by simp [hx], by simp [hx], by simp [hx]⟩,
            Or.inr ⟨rfl, hopen2⟩,
            Or.inr ⟨hnotmem, e, rfl, hacc, by simp, by simp, by simp, ?_,
              Or.inl hopen2⟩⟩
          exact List.mem_append_right _ (List.mem_singleton.mpr rfl)
      · have hacc2 : isEdgeModeAllowed e.modes mode sd gd = false := by
          simp only [Bool.not_eq_true] at hacc
          exact hacc
        have hne : (!isEdgeModeAllowed e.modes mode sd gd) = true := by
          rw [hacc2]
          rfl
        rw [if_pos hne]
        exact ⟨rfl, fun _ _ => ⟨rfl, rfl, rfl⟩, Or.inl rfl,
          Or.inl ⟨rfl, Or.inr (Or.inr (Or.inl ⟨e, rfl, hacc2⟩))⟩⟩

end Tracking.RoadPathfinding

namespace Tracking.RoadPathfinding

/-- The fixed context of one findShortestPath run. -/
structure SPCtx where
  hav : ℚ → ℚ → ℚ → ℚ → ℚ
  nodes : List RoadNode
  edges : List (String × RoadEdge)
  mode : String
  sd : Option Destination
  gd : Option Destination
  goalNode : RoadNode
  startNodeId : String

/-- The well-formedness hypotheses of the amended C2 claim. -/
structure SPHyps (c : SPCtx) : Prop where
  pos : ∀ p ∈ c.edges, 0 < p.2.distance
  nonneg : ∀ n ∈ spUniverse c.nodes c.startNodeId,
    0 ≤ spH c.hav c.nodes c.goalNode n
  consistent : ∀ n ∈ c.nodes, ∀ b ∈ n.connections, ∀ e,
    edgesGet c.edges (edgeKey n.id b) = some e →
    isEdgeModeAllowed e.modes c.mode c.sd c.gd = true →
    spH c.hav c.nodes c.goalNode n.id ≤ e.distance + spH c.hav c.nodes c.goalNode b
  noEmpty : "" ∉ spUniverse c.nodes c.startNodeId
  conn : ∀ n ∈ c.nodes, ∀ b ∈ n.connections, (rnodesGet c.nodes b).isSome = true
  hstart : spH c.hav c.nodes c.goalNode c.startNodeId ≠ 0

/-- The loop invariant of the search.  `excl` lists closed nodes whose
outgoing relaxations are still in progress (empty between iterations). -/
structure SPInv (c : SPCtx) (excl : List String) (s : SPState) : Prop where
  openU : ∀ n ∈ s.openL, n ∈ spUniverse c.nodes c.startNodeId
  closedU : ∀ n ∈ s.closed, n ∈ spUniverse c.nodes c.startNodeId
  openND : s.openL.Nodup
  closedND : s.closed.Nodup
  disj : ∀ n ∈ s.openL, n ∉ s.closed
  startCl : c.startNodeId ∈ s.closed
  gstart : s.g c.startNodeId = some 0
  gf : ∀ n ∈ s.openL, ∃ gv, s.g n = some gv ∧
    s.f n = some (qAdd gv (spH c.hav c.nodes c.goalNode n))
  gnn : ∀ n gv, s.g n = some gv → 0 ≤ gv ∧ (gv = 0 → n = c.startNodeId)
  gdom : ∀ n gv, s.g n = some gv → n ∈ s.openL ∨ n ∈ s.closed
  closedG : ∀ n ∈ s.closed, ∃ gv, s.g n = some gv
  cameCl : ∀ n p, s.came n = some p → p ∈ s.closed ∧
    validStepB c.nodes c.edges c.mode c.sd c.gd p n = true
  cameIdx : ∀ n p, s.came n = some p → n ∈ s.closed →
    s.closed.indexOf p < s.closed.indexOf n
  cameSome : ∀ n, (n ∈ s.openL ∨ n ∈ s.closed) → n ≠ c.startNodeId →
    ∃ p, s.came n = some p
  cameStart : s.came c.startNodeId = none
  cameG : ∀ n p, s.came n = some p → ∃ gp, s.g p = some gp ∧
    s.g n = some (gp + edgeDistOf c.edges p n)
  cd : ∀ n ∈ s.closed, ∀ q,
    validPathB c.nodes c.edges c.mode c.sd c.gd c.startNodeId n q = true →
    ∃ gv, s.g n = some gv ∧ gv ≤ spPathDist c.edges q
  osc : ∀ z ∈ s.closed, z ∉ excl → ∀ w,
    validStepB c.nodes c.edges c.mode c.sd c.gd z w = true → w ∉ s.closed →
    w ∈ s.openL ∧ ∃ gz gw, s.g z = some gz ∧ s.g w = some gw ∧
      gw ≤ gz + edgeDistOf c.edges z w

/-- Every open node's fScore reads back (through the `|| Infinity` quirk) as
the finite value gCost + heuristic. -/
lemma open_read (c : SPCtx) (H : SPHyps c) (excl : List String) (s : SPState)
    (I : SPInv c excl s) (n : String) (hn : n ∈ s.openL) :
    ∃ gv, s.g n = some gv ∧
      s.f n = some (qAdd gv (spH c.hav c.nodes c.goalNode n)) ∧
      jsOrInf (s.f n) = some (qAdd gv (spH c.hav c.nodes c.goalNode n)) := by
  rcases I.gf n hn with ⟨gv, hg, hf⟩
  refine ⟨gv, hg, hf, ?_⟩
  rw [hf]
  have hnz : qAdd gv (spH c.hav c.nodes c.goalNode n) ≠ 0 := by
    rw [qAdd_eq]
    have h1 := (I.gnn n gv hg).1
    have h2 := H.nonneg n (I.openU n hn)
    intro h0
    have hgv : gv = 0 := by linarith
    have hh : spH c.hav c.nodes c.goalNode n = 0 := by linarith
    have := (I.gnn n gv hg).2 hgv
    subst this
    exact H.hstart hh
  show (if qAdd gv (spH c.hav c.nodes c.goalNode n) = 0 then none
    else some (qAdd gv (spH c.hav c.nodes c.goalNode n))) =
    some (qAdd gv (spH c.hav c.nodes c.goalNode n))
  rw [if_neg hnz]

/-- The frontier lemma: any valid path to a non-closed target passes through
an open node whose fScore is bounded by the path's cost. -/
lemma sp_frontier (c : SPCtx) (H : SPHyps c) (excl : List String) (s : SPState)
    (I : SPInv c excl s)
    (hexcl : ∀ z ∈ s.closed, z ∉ excl)
    (t : String) (q : List String) (ht : t ∉ s.closed)
    (hq : validPathB c.nodes c.edges c.mode c.sd c.gd c.startNodeId t q = true) :
    ∃ w gw, w ∈ s.openL ∧ s.g w = some gw ∧
      gw + spH c.hav c.nodes c.goalNode w ≤
        spPathDist c.edges q + spH c.hav c.nodes c.goalNode t := by
  rcases validPath_split c.nodes c.edges c.mode c.sd c.gd s.closed q c.startNodeId t
    hq I.startCl ht with ⟨q1, z, w, q2, heq, hz, hw, hvp, hvs, hvw, hdist⟩
  rcases I.osc z hz (hexcl z hz) w hvs hw with ⟨hwo, gz, gw, hgz, hgw, hle⟩
  rcases I.cd z hz (q1 ++ [z]) hvp with ⟨gz2, hgz2, hle2⟩
  have hzz : gz2 = gz := by
    rw [hgz] at hgz2
    exact (Option.some.injEq _ _).mp hgz2.symm
  subst hzz
  have htel := spH_telescope c.hav c.nodes c.edges c.mode c.sd c.gd c.goalNode
    H.consistent (w :: q2) w t hvw
  refine ⟨w, gw, hwo, hgw, ?_⟩
  rw [hdist]
  linarith

end Tracking.RoadPathfinding

namespace Tracking.RoadPathfinding

lemma elem_true_of_mem {l : List String} {a : String} (h : a ∈ l) : l.contains a = true := by
  simpa using h

lemma not_mem_of_elem_false {l : List String} {a : String} (h : l.contains a = false) :
    a ∉ l := by
  intro hm
  rw [elem_true_of_mem hm] at h
  cases h

lemma validStepB_intro (nodes : List RoadNode) (edges : List (String × RoadEdge))
    (mode : String) (sd gd : Option Destination) (a b : String) (n0 : RoadNode)
    (e : RoadEdge) (hn0 : rnodesGet nodes a = some n0) (hb : b ∈ n0.connections)
    (he : edgesGet edges (edgeKey a b) = some e)
    (hacc : isEdgeModeAllowed e.modes mode sd gd = true) :
    validStepB nodes edges mode sd gd a b = true := by
  unfold validStepB
  rw [hn0, he]
  simp [hacc]
  exact hb

/-- The per-neighbor relaxation obligation of the freshly closed node. -/
def OSCone (c : SPCtx) (cpop : String) (gc : ℚ) (s : SPState) (w : String) : Prop :=
  validStepB c.nodes c.edges c.mode c.sd c.gd cpop w = true → w ∉ s.closed →
    w ∈ s.openL ∧ ∃ gw, s.g w = some gw ∧ gw ≤ gc + edgeDistOf c.edges cpop w

/-- One relaxation step out of the just-closed node preserves the invariant
and freezes the closed node's cost. -/
lemma spRelax_preserves (c : SPCtx) (H : SPHyps c) (cpop : String) (gc : ℚ)
    (s : SPState) (nb : String)
    (I : SPInv c [cpop] s)
    (hcpopCl : cpop ∈ s.closed)
    (hgc : s.g cpop = some gc)
    (hnbU : nb ∈ spUniverse c.nodes c.startNodeId)
    (hconn : ∃ n0, rnodesGet c.nodes cpop = some n0 ∧ nb ∈ n0.connections) :
    SPInv c [cpop]
      (spRelax c.hav c.nodes c.edges c.mode c.sd c.gd c.goalNode cpop s nb) ∧
    (spRelax c.hav c.nodes c.edges c.mode c.sd c.gd c.goalNode cpop s nb).g cpop
      = some gc := by
  rcases spRelax_spec c.hav c.nodes c.edges c.mode c.sd c.gd c.goalNode cpop s nb _ rfl
    with ⟨hclosedEq, hother, hopen, hmain⟩
  set s1 := spRelax c.hav c.nodes c.edges c.mode c.sd c.gd c.goalNode cpop s nb with hs1
  rcases hmain with ⟨heq, _⟩ | ⟨hnbcl, e, hedge, hacc, hgnb, hfnb, hcamenb, hnbopen, hbranch⟩
  · rw [heq]
    exact ⟨I, hgc⟩
  · have hnbne : nb ≠ cpop := fun h => hnbcl (h ▸ hcpopCl)
    have hgcpop : s1.g cpop = s.g cpop := (hother cpop (Ne.symm hnbne)).1
    rw [hgc] at hgnb hfnb
    simp only [Option.getD_some] at hgnb hfnb
    have hde : edgeDistOf c.edges cpop nb = e.distance := by
      unfold edgeDistOf
      rw [hedge]
    have hdpos : 0 < e.distance := edgeDistOf_pos c.edges H.pos cpop nb e hedge
    have hgcnn : 0 ≤ gc := (I.gnn cpop gc hgc).1
    have htentpos : 0 < qAdd gc e.distance := by
      rw [qAdd_eq]
      linarith
    have hnbstart : nb ≠ c.startNodeId := fun h => hnbcl (h ▸ I.startCl)
    rcases hconn with ⟨n0, hn0, hmemconn⟩
    have hvstep : validStepB c.nodes c.edges c.mode c.sd c.gd cpop nb = true :=
      validStepB_intro c.nodes c.edges c.mode c.sd c.gd cpop nb n0 e hn0 hmemconn
        hedge hacc
    have hopensub : ∀ x ∈ s.openL, x ∈ s1.openL := by
      intro x hx
      rcases hopen with ho | ⟨ho, _⟩
      · rw [ho]
        exact hx
      · rw [ho]
        exact List.mem_append_left _ hx
    have hopenrev : ∀ x ∈ s1.openL, x = nb ∨ x ∈ s.openL := by
      intro x hx
      rcases hopen with ho | ⟨ho, _⟩
      · rw [ho] at hx
        exact Or.inr hx
      · rw [ho] at hx
        rcases List.mem_append.mp hx with h1 | h1
        · exact Or.inr h1
        · exact Or.inl (List.mem_singleton.mp h1)
    refine ⟨⟨?_, ?_, ?_, ?_, ?_, ?_, ?_, ?_, ?_, ?_, ?_, ?_, ?_, ?_, ?_, ?_, ?_, ?_⟩,
      hgcpop.trans hgc⟩
    · intro n hn
      rcases hopenrev n hn with h | h
      · subst h
        exact hnbU
      · exact I.openU n h
    · rw [hclosedEq]
      exact I.closedU
    · rcases hopen with ho | ⟨ho, hcont⟩
      · rw [ho]
        exact I.openND
      · rw [ho]
        simp [List.nodup_append, I.openND, not_mem_of_elem_false hcont]
    · rw [hclosedEq]
      exact I.closedND
    · intro n hn
      rw [hclosedEq]
      rcases hopenrev n hn with h | h
      · subst h
        exact hnbcl
      · exact I.disj n h
    · rw [hclosedEq]
      exact I.startCl
    · rw [(hother c.startNodeId (Ne.symm hnbstart)).1]
      exact I.gstart
    · intro n hn
      by_cases hx : n = nb
      · subst hx
        exact ⟨qAdd gc e.distance, hgnb, hfnb⟩
      · rcases hopenrev n hn with h | h
        · exact absurd h hx
        · rcases I.gf n h with ⟨gv, h1, h2⟩
          exact ⟨gv, (hother n hx).1.trans h1, (hother n hx).2.1.trans h2⟩
    · intro n gv hg
      by_cases hx : n = nb
      · subst hx
        rw [hgnb] at hg
        have : gv = qAdd gc e.distance := ((Option.some.injEq _ _).mp hg).symm
        subst this
        exact ⟨le_of_lt htentpos, fun h0 => absurd h0 (ne_of_gt htentpos)⟩
      · rw [(hother n hx).1] at hg
        exact I.gnn n gv hg
    · intro n gv hg
      by_cases hx : n = nb
      · subst hx
        exact Or.inl hnbopen
      · rw [(hother n hx).1] at hg
        rcases I.gdom n gv hg with h | h
        · exact Or.inl (hopensub n h)
        · rw [hclosedEq]
          exact Or.inr h
    · intro n hn
      rw [hclosedEq] at hn
      have hx : n ≠ nb := fun h => hnbcl (h ▸ hn)
      rcases I.closedG n hn with ⟨gv, hg⟩
      exact ⟨gv, (hother n hx).1.trans hg⟩
    · intro n p hc
      by_cases hx : n = nb
      · subst hx
        rw [hcamenb] at hc
        have : p = cpop := (Option.some.injEq _ _).mp hc.symm
        subst this
        rw [hclosedEq]
        exact ⟨hcpopCl, hvstep⟩
      · rw [(hother n hx).2.2] at hc
        rw [hclosedEq]
        exact I.cameCl n p hc
    · intro n p hc hn
      rw [hclosedEq] at hn ⊢
      have hx : n ≠ nb := fun h => hnbcl (h ▸ hn)
      rw [(hother n hx).2.2] at hc
      exact I.cameIdx n p hc hn
    · intro n hn hne
      by_cases hx : n = nb
      · subst hx
        exact ⟨cpop, hcamenb⟩
      · rw [(hother n hx).2.2]
        refine I.cameSome n ?_ hne
        rcases hn with h | h
        · rcases hopenrev n h with h1 | h1
          · exact absurd h1 hx
          · exact Or.inl h1
        · rw [hclosedEq] at h
          exact Or.inr h
    · rw [(hother c.startNodeId (Ne.symm hnbstart)).2.2]
      exact I.cameStart
    · intro n p hc
      by_cases hx : n = nb
      · subst hx
        rw [hcamenb] at hc
        have : p = cpop := (Option.some.injEq _ _).mp hc.symm
        subst this
        refine ⟨gc, hgcpop.trans hgc, ?_⟩
        rw [hgnb, hde, qAdd_eq]
      · rw [(hother n hx).2.2] at hc
        rcases I.cameG n p hc with ⟨gp, hgp, hgn⟩
        have hpcl : p ∈ s.closed := (I.cameCl n p hc).1
        have hpx : p ≠ nb := fun h => hnbcl (h ▸ hpcl)
        exact ⟨gp, (hother p hpx).1.trans hgp, (hother n hx).1.trans hgn⟩
    · intro n hn q hq
      rw [hclosedEq] at hn
      have hx : n ≠ nb := fun h => hnbcl (h ▸ hn)
      rcases I.cd n hn q hq with ⟨gv, h1, h2⟩
      exact ⟨gv, (hother n hx).1.trans h1, h2⟩
    · intro z hz hzex w hvs hw
      rw [hclosedEq] at hz hw
      have hzx : z ≠ nb := fun h => hnbcl (h ▸ hz)
      rcases I.osc z hz hzex w hvs hw with ⟨hwo, gz, gw, hgz, hgw, hle⟩
      refine ⟨hopensub w hwo, gz, ?_⟩
      rw [(hother z hzx).1]
      by_cases hwx : w = nb
      · subst hwx
        refine ⟨qAdd gc e.distance, hgz, hgnb, ?_⟩
        rcases hbranch with hb1 | hb1
        · exact absurd hwo (not_mem_of_elem_false hb1)
        · rw [hgw] at hb1
          have hgwnz : gw ≠ 0 := by
            intro h0
            have := (I.gnn w gw hgw).2 h0
            exact hw (this ▸ I.startCl)
          have : jsOrInf (some gw) = some gw := by
            show (if gw = 0 then none else some gw) = some gw
            rw [if_neg hgwnz]
          rw [this] at hb1
          simp only [Pathfinding.optLt, decide_eq_true_eq] at hb1
          have htle : qAdd gc e.distance ≤ gw := by
            rw [hgc] at hb1
            simp only [Option.getD_some] at hb1
            exact le_of_lt hb1
          exact le_trans htle hle
      · exact ⟨gw, hgz, (hother w hwx).1.trans hgw, hle⟩

end Tracking.RoadPathfinding

namespace Tracking.RoadPathfinding

lemma conn_mem_universe (nodes : List RoadNode) (startNodeId : String) (n0 : RoadNode)
    (hn0 : n0 ∈ nodes) (b : String) (hb : b ∈ n0.connections) :
    b ∈ spUniverse nodes startNodeId := by
  unfold spUniverse
  refine List.mem_cons_of_mem _ ?_
  rw [List.mem_flatten]
  exact ⟨n0.connections, List.mem_map_of_mem _ hn0, hb⟩

/-- After relaxing a neighbor of the just-closed node, that neighbor's
obligation holds. -/
lemma spRelax_OSCone_self (c : SPCtx) (cpop : String) (gc : ℚ)
    (s : SPState) (nb : String) (I : SPInv c [cpop] s)
    (hgc : s.g cpop = some gc) :
    OSCone c cpop gc
      (spRelax c.hav c.nodes c.edges c.mode c.sd c.gd c.goalNode cpop s nb) nb := by
  rcases spRelax_spec c.hav c.nodes c.edges c.mode c.sd c.gd c.goalNode cpop s nb _ rfl
    with ⟨hclosedEq, hother, hopen, hmain⟩
  intro hvs hwcl
  rw [hclosedEq] at hwcl
  rcases validStepB_spec c.nodes c.edges c.mode c.sd c.gd cpop nb hvs with
    ⟨n0, e0, hn0, _, _, _, he0, hacc0⟩
  rcases hmain with ⟨heq, hreason⟩ | ⟨hnbcl, e, hedge, hacc, hgnb, _, _, hnbopen, _⟩
  · rw [heq]
    rcases hreason with h1 | h1 | ⟨e2, he2, hacc2⟩ | ⟨e2, he2, hacc2, hmem, hlt⟩
    · exact absurd h1 hwcl
    · rw [he0] at h1
      cases h1
    · rw [he0] at he2
      have : e2 = e0 := (Option.some.injEq _ _).mp he2.symm
      subst this
      rw [hacc0] at hacc2
      cases hacc2
    · rw [he0] at he2
      have : e2 = e0 := (Option.some.injEq _ _).mp he2.symm
      subst this
      refine ⟨hmem, ?_⟩
      rcases I.gf nb hmem with ⟨gnb, hg, _⟩
      have hgnz : gnb ≠ 0 := by
        intro h0
        have := (I.gnn nb gnb hg).2 h0
        exact hwcl (this ▸ I.startCl)
      have hjs : jsOrInf (s.g nb) = some gnb := by
        rw [hg]
        show (if gnb = 0 then none else some gnb) = some gnb
        rw [if_neg hgnz]
      rw [hjs] at hlt
      simp only [Pathfinding.optLt, decide_eq_false_iff_not] at hlt
      have hle : gnb ≤ qAdd ((s.g cpop).getD 0) e2.distance := le_of_not_lt hlt
      rw [hgc] at hle
      simp only [Option.getD_some] at hle
      refine ⟨gnb, hg, ?_⟩
      have hde : edgeDistOf c.edges cpop nb = e2.distance := by
        unfold edgeDistOf
        rw [he0]
      rw [hde]
      rw [qAdd_eq] at hle
      exact hle
  · rw [hgc] at hgnb
    simp only [Option.getD_some] at hgnb
    have hde : edgeDistOf c.edges cpop nb = e.distance := by
      unfold edgeDistOf
      rw [hedge]
    refine ⟨hnbopen, qAdd gc e.distance, hgnb, ?_⟩
    rw [hde, qAdd_eq]

/-- Relaxing another neighbor keeps an already-established obligation. -/
lemma spRelax_OSCone_mono (c : SPCtx) (cpop : String) (gc : ℚ)
    (s : SPState) (nb x : String) (hgc : s.g cpop = some gc)
    (hx : OSCone c cpop gc s x) :
    OSCone c cpop gc
      (spRelax c.hav c.nodes c.edges c.mode c.sd c.gd c.goalNode cpop s nb) x := by
  rcases spRelax_spec c.hav c.nodes c.edges c.mode c.sd c.gd c.goalNode cpop s nb _ rfl
    with ⟨hclosedEq, hother, hopen, hmain⟩
  intro hvs hwcl
  rw [hclosedEq] at hwcl
  rcases hx hvs hwcl with ⟨hxo, gx, hgx, hle⟩
  have hopensub : ∀ y ∈ s.openL,
      y ∈ (spRelax c.hav c.nodes c.edges c.mode c.sd c.gd c.goalNode cpop s nb).openL := by
    intro y hy
    rcases hopen with ho | ⟨ho, _⟩
    · rw [ho]
      exact hy
    · rw [ho]
      exact List.mem_append_left _ hy
  refine ⟨hopensub x hxo, ?_⟩
  by_cases hxx : x = nb
  · subst hxx
    rcases hmain with ⟨heq, _⟩ | ⟨hnbcl, e, hedge, hacc, hgnb, _, _, _, _⟩
    · rw [heq]
      exact ⟨gx, hgx, hle⟩
    · rw [hgc] at hgnb
      simp only [Option.getD_some] at hgnb
      have hde : edgeDistOf c.edges cpop x = e.distance := by
        unfold edgeDistOf
        rw [hedge]
      refine ⟨qAdd gc e.distance, hgnb, ?_⟩
      rw [hde, qAdd_eq]
  · rw [(hother x hxx).1]
    exact ⟨gx, hgx, hle⟩

/-- Folding the relaxation over the closed node's连 connection list: the
invariant survives and every listed neighbor's obligation holds. -/
lemma spRelax_foldl (c : SPCtx) (H : SPHyps c) (cpop : String) (gc : ℚ)
    (n0 : RoadNode) (hn0 : rnodesGet c.nodes cpop = some n0)
    (hn0mem : n0 ∈ c.nodes) :
    ∀ (l : List String), (∀ b ∈ l, b ∈ n0.connections) →
    ∀ s : SPState, SPInv c [cpop] s → cpop ∈ s.closed → s.g cpop = some gc →
    SPInv c [cpop]
      (l.foldl (spRelax c.hav c.nodes c.edges c.mode c.sd c.gd c.goalNode cpop) s) ∧
    cpop ∈ (l.foldl (spRelax c.hav c.nodes c.edges c.mode c.sd c.gd c.goalNode cpop) s).closed ∧
    (l.foldl (spRelax c.hav c.nodes c.edges c.mode c.sd c.gd c.goalNode cpop) s).g cpop
      = some gc ∧
    (∀ x, OSCone c cpop gc s x →
      OSCone c cpop gc
        (l.foldl (spRelax c.hav c.nodes c.edges c.mode c.sd c.gd c.goalNode cpop) s) x) ∧
    (∀ b ∈ l, OSCone c cpop gc
      (l.foldl (spRelax c.hav c.nodes c.edges c.mode c.sd c.gd c.goalNode cpop) s) b) ∧
    (l.foldl (spRelax c.hav c.nodes c.edges c.mode c.sd c.gd c.goalNode cpop) s).closed
      = s.closed := by
  intro l
  induction l with
  | nil =>
    intro _ s I hcl hg
    exact ⟨I, hcl, hg, fun x hx => hx, fun b hb => absurd hb (List.not_mem_nil b), rfl⟩
  | cons b rest ih =>
    intro hsub s I hcl hg
    have hbU : b ∈ spUniverse c.nodes c.startNodeId :=
      conn_mem_universe c.nodes c.startNodeId n0 hn0mem b
        (hsub b (List.mem_cons_self _ _))
    rcases spRelax_preserves c H cpop gc s b I hcl hg hbU
      ⟨n0, hn0, hsub b (List.mem_cons_self _ _)⟩ with ⟨I1, hg1⟩
    have hcl1 : cpop ∈
        (spRelax c.hav c.nodes c.edges c.mode c.sd c.gd c.goalNode cpop s b).closed := by
      rcases spRelax_spec c.hav c.nodes c.edges c.mode c.sd c.gd c.goalNode cpop s b _ rfl
        with ⟨hclosedEq, _, _, _⟩
      rw [hclosedEq]
      exact hcl
    have hself : OSCone c cpop gc
        (spRelax c.hav c.nodes c.edges c.mode c.sd c.gd c.goalNode cpop s b) b :=
      spRelax_OSCone_self c cpop gc s b I hg
    rcases ih (fun x hx => hsub x (List.mem_cons_of_mem _ hx)) _ I1 hcl1 hg1 with
      ⟨IF, hclF, hgF, hmonoF, hallF, hclosedF⟩
    have hclosed1 :
        (spRelax c.hav c.nodes c.edges c.mode c.sd c.gd c.goalNode cpop s b).closed
          = s.closed := by
      rcases spRelax_spec c.hav c.nodes c.edges c.mode c.sd c.gd c.goalNode cpop s b _ rfl
        with ⟨hc1, _, _, _⟩
      exact hc1
    refine ⟨IF, hclF, hgF, ?_, ?_, hclosedF.trans hclosed1⟩
    · intro x hx
      exact hmonoF x (spRelax_OSCone_mono c cpop gc s b x hg hx)
    · intro x hx
      rcases List.mem_cons.mp hx with h1 | h1
      · subst h1
        exact hmonoF x hself
      · exact hallF x h1

end Tracking.RoadPathfinding

namespace Tracking.RoadPathfinding

lemma sp_pop_ne (c : SPCtx) (H : SPHyps c) (s : SPState) (I : SPInv c [] s)
    (hne : s.openL ≠ []) : spPop s.f s.openL ≠ "" := by
  intro h0
  obtain ⟨n, hn⟩ : ∃ n, n ∈ s.openL := by
    cases hl : s.openL with
    | nil => exact absurd hl hne
    | cons a t => exact ⟨a, hl ▸ List.mem_cons_self a t⟩
  have hno : "" ∉ s.openL := fun hmem => H.noEmpty (I.openU _ hmem)
  have hnone := spPop_sentinel s.f s.openL h0 hno n hn
  rcases open_read c H [] s I n hn with ⟨gv, _, _, hjs⟩
  rw [hnone] at hjs
  cases hjs

lemma sp_pop_min (c : SPCtx) (H : SPHyps c) (s : SPState) (I : SPInv c [] s)
    (cpop : String) (hpop : spPop s.f s.openL = cpop) (hcne : cpop ≠ "") :
    cpop ∈ s.openL ∧
    ∀ n ∈ s.openL, ∀ gcv gnv, s.g cpop = some gcv → s.g n = some gnv →
      gcv + spH c.hav c.nodes c.goalNode cpop ≤
        gnv + spH c.hav c.nodes c.goalNode n := by
  rcases spPop_spec s.f s.openL cpop hpop hcne with ⟨hmem, hmin⟩
  refine ⟨hmem, fun n hn gcv gnv hgc hgn => ?_⟩
  rcases open_read c H [] s I cpop hmem with ⟨gv1, hg1, _, hjs1⟩
  rcases open_read c H [] s I n hn with ⟨gv2, hg2, _, hjs2⟩
  have he1 : gv1 = gcv := by
    rw [hgc] at hg1
    exact (Option.some.injEq _ _).mp hg1.symm
  have he2 : gv2 = gnv := by
    rw [hgn] at hg2
    exact (Option.some.injEq _ _).mp hg2.symm
  have hw := wLe_of_not_optLt (hmin n hn)
  rw [hjs1, hjs2] at hw
  have h2 : qAdd gv1 (spH c.hav c.nodes c.goalNode cpop) ≤
      qAdd gv2 (spH c.hav c.nodes c.goalNode n) := hw
  rw [qAdd_eq, qAdd_eq, he1, he2] at h2
  exact h2

/-- Closing the popped node: the invariant moves to the in-progress form and
the new closed node satisfies closed-dominance (the A* pop argument). -/
lemma sp_close (c : SPCtx) (H : SPHyps c) (s : SPState) (I : SPInv c [] s)
    (cpop : String) (hpop : spPop s.f s.openL = cpop) (hcne : cpop ≠ "") :
    SPInv c [cpop] { s with
      openL := s.openL.erase cpop
      closed := s.closed ++ [cpop] } ∧
    ∃ gcv, s.g cpop = some gcv := by
  rcases sp_pop_min c H s I cpop hpop hcne with ⟨hmem, hmin⟩
  have hnotcl : cpop ∉ s.closed := I.disj cpop hmem
  rcases I.gf cpop hmem with ⟨gcv, hgcv, hfcv⟩
  have hcd : ∀ q, validPathB c.nodes c.edges c.mode c.sd c.gd c.startNodeId cpop q = true →
      gcv ≤ spPathDist c.edges q := by
    intro q hq
    rcases sp_frontier c H [] s I (fun z _ => List.not_mem_nil z) cpop q hnotcl hq with
      ⟨w, gw, hwo, hgw, hineq⟩
    have hm := hmin w hwo gcv gw hgcv hgw
    linarith
  refine ⟨⟨?_, ?_, ?_, ?_, ?_, ?_, ?_, ?_, ?_, ?_, ?_, ?_, ?_, ?_, ?_, ?_, ?_, ?_⟩,
    gcv, hgcv⟩
  · intro n hn
    exact I.openU n (List.mem_of_mem_erase hn)
  · intro n hn
    rcases List.mem_append.mp hn with h | h
    · exact I.closedU n h
    · rw [List.mem_singleton.mp h]
      exact I.openU cpop hmem
  · exact I.openND.erase cpop
  · simp [List.nodup_append, I.closedND, hnotcl]
  · intro n hn
    rcases (List.Nodup.mem_erase_iff I.openND).mp hn with ⟨hne2, hn2⟩
    intro hmem2
    rcases List.mem_append.mp hmem2 with h | h
    · exact I.disj n hn2 h
    · exact hne2 (List.mem_singleton.mp h)
  · exact List.mem_append_left _ I.startCl
  · exact I.gstart
  · intro n hn
    exact I.gf n (List.mem_of_mem_erase hn)
  · exact I.gnn
  · intro n gv hg
    rcases I.gdom n gv hg with h | h
    · by_cases hx : n = cpop
      · subst hx
        exact Or.inr (List.mem_append_right _ (List.mem_singleton.mpr rfl))
      · exact Or.inl ((List.mem_erase_of_ne hx).mpr h)
    · exact Or.inr (List.mem_append_left _ h)
  · intro n hn
    rcases List.mem_append.mp hn with h | h
    · exact I.closedG n h
    · rw [List.mem_singleton.mp h]
      exact ⟨gcv, hgcv⟩
  · intro n p hc
    rcases I.cameCl n p hc with ⟨h1, h2⟩
    exact ⟨List.mem_append_left _ h1, h2⟩
  · intro n p hc hn
    have hpcl : p ∈ s.closed := (I.cameCl n p hc).1
    rcases List.mem_append.mp hn with h | h
    · rw [List.indexOf_append_of_mem h, List.indexOf_append_of_mem hpcl]
      exact I.cameIdx n p hc h
    · rw [List.mem_singleton.mp h]
      rw [List.mem_singleton.mp h] at hc
      rw [List.indexOf_append_of_mem hpcl, List.indexOf_append_of_not_mem hnotcl]
      calc s.closed.indexOf p < s.closed.length := List.indexOf_lt_length.mpr hpcl
        _ ≤ s.closed.length + [cpop].indexOf cpop := Nat.le_add_right _ _
  · intro n hn hne2
    rcases hn with h | h
    · exact I.cameSome n (Or.inl (List.mem_of_mem_erase h)) hne2
    · rcases List.mem_append.mp h with h1 | h1
      · exact I.cameSome n (Or.inr h1) hne2
      · rw [List.mem_singleton.mp h1]
        exact I.cameSome cpop (Or.inl hmem) (by
          rw [← List.mem_singleton.mp h1]
          exact hne2)
  · exact I.cameStart
  · exact I.cameG
  · intro n hn q hq
    rcases List.mem_append.mp hn with h | h
    · exact I.cd n h q hq
    · rw [List.mem_singleton.mp h]
      rw [List.mem_singleton.mp h] at hq
      exact ⟨gcv, hgcv, hcd q hq⟩
  · intro z hz hzex w hvs hw
    have hzcl : z ∈ s.closed := by
      rcases List.mem_append.mp hz with h | h
      · exact h
      · exact absurd (by simpa using h) (by simpa using hzex)
    have hwold : w ∉ s.closed := fun h => hw (List.mem_append_left _ h)
    have hwne : w ≠ cpop := fun h => hw (by
      rw [h]
      exact List.mem_append_right _ (List.mem_singleton.mpr rfl))
    rcases I.osc z hzcl (List.not_mem_nil z) w hvs hwold with
      ⟨hwo, gz, gw, hgz, hgw, hle⟩
    exact ⟨(List.mem_erase_of_ne hwne).mpr hwo, gz, gw, hgz, hgw, hle⟩

end Tracking.RoadPathfinding

namespace Tracking.RoadPathfinding

lemma universe_resolves (c : SPCtx) (H : SPHyps c) (u : String)
    (hu : u ∈ spUniverse c.nodes c.startNodeId) (hne : u ≠ c.startNodeId) :
    ∃ n0, rnodesGet c.nodes u = some n0 := by
  unfold spUniverse at hu
  rcases List.mem_cons.mp hu with h | h
  · exact absurd h hne
  · rw [List.mem_flatten] at h
    rcases h with ⟨l, hl, hu2⟩
    rw [List.mem_map] at hl
    rcases hl with ⟨n, hn, rfl⟩
    have := H.conn n hn u hu2
    rcases Option.isSome_iff_exists.mp this with ⟨n0, hn0⟩
    exact ⟨n0, hn0⟩

/-- Re-assembling the between-iterations invariant after the full relaxation
fold of the just-closed node. -/
lemma sp_assemble (c : SPCtx) (cpop : String) (gcv : ℚ) (sF : SPState)
    (n0 : RoadNode) (hn0 : rnodesGet c.nodes cpop = some n0)
    (IF : SPInv c [cpop] sF) (hgF : sF.g cpop = some gcv)
    (hallF : ∀ b ∈ n0.connections, OSCone c cpop gcv sF b) : SPInv c [] sF := by
  refine ⟨IF.openU, IF.closedU, IF.openND, IF.closedND, IF.disj, IF.startCl, IF.gstart,
    IF.gf, IF.gnn, IF.gdom, IF.closedG, IF.cameCl, IF.cameIdx, IF.cameSome,
    IF.cameStart, IF.cameG, IF.cd, ?_⟩
  intro z hz _ w hvs hw
  by_cases hzc : z = cpop
  · subst hzc
    rcases validStepB_spec c.nodes c.edges c.mode c.sd c.gd z w hvs with
      ⟨n1, e1, hn1, _, _, hwconn, _, _⟩
    have : n1 = n0 := by
      rw [hn0] at hn1
      exact (Option.some.injEq _ _).mp hn1.symm
    subst this
    rcases hallF w hwconn hvs hw with ⟨hwo, gw, hgw, hle⟩
    exact ⟨hwo, gcv, gw, hgF, hgw, hle⟩
  · exact IF.osc z hz (fun h => hzc (List.mem_singleton.mp h)) w hvs hw

/-- Reconstruction from a closed node: the cameFrom chain yields a valid
path from the start whose edge distances sum exactly to the stored cost. -/
lemma spChain_closed (c : SPCtx) (H : SPHyps c) (excl : List String) (s : SPState)
    (I : SPInv c excl s) :
    ∀ (k : Nat) (m : String), m ∈ s.closed → s.closed.indexOf m < k →
      ∀ fuel : Nat, s.closed.indexOf m + 1 ≤ fuel →
      ∃ gv, s.g m = some gv ∧
        validPathB c.nodes c.edges c.mode c.sd c.gd c.startNodeId m
          (spChain s.came fuel m) = true ∧
        spPathDist c.edges (spChain s.came fuel m) = gv := by
  intro k
  induction k with
  | zero =>
    intro m _ hk
    exact absurd hk (Nat.not_lt_zero _)
  | succ k ih =>
    intro m hm hk fuel hfuel
    have hmne : m ≠ "" := fun h => H.noEmpty (h ▸ I.closedU m hm)
    obtain ⟨fuel0, rfl⟩ : ∃ f0, fuel = f0 + 1 := ⟨fuel - 1, by omega⟩
    have hstep : spChain s.came (fuel0 + 1) m =
        (if m = "" then []
         else match s.came m with
         | some p => spChain s.came fuel0 p ++ [m]
         | none => [m]) := rfl
    cases hcame : s.came m with
    | none =>
      have hms : m = c.startNodeId := by
        by_contra hne2
        rcases I.cameSome m (Or.inr hm) hne2 with ⟨p, hp⟩
        rw [hp] at hcame
        cases hcame
      subst hms
      refine ⟨0, I.gstart, ?_, ?_⟩
      · rw [hstep, if_neg hmne, hcame]
        exact (validPathB_single_iff c.nodes c.edges c.mode c.sd c.gd _ _ _).mpr ⟨rfl, rfl⟩
      · rw [hstep, if_neg hmne, hcame]
        rfl
    | some p =>
      rcases I.cameCl m p hcame with ⟨hpcl, hvs⟩
      have hidx := I.cameIdx m p hcame hm
      rcases I.cameG m p hcame with ⟨gp, hgp, hgm⟩
      have hk2 : s.closed.indexOf p < k := by omega
      have hf2 : s.closed.indexOf p + 1 ≤ fuel0 := by omega
      rcases ih p hpcl hk2 fuel0 hf2 with ⟨gp2, hgp2, hvalid, hdist⟩
      have hgg : gp2 = gp := by
        rw [hgp] at hgp2
        exact (Option.some.injEq _ _).mp hgp2.symm
      rw [hgg] at hdist
      refine ⟨gp + edgeDistOf c.edges p m, hgm, ?_, ?_⟩
      · rw [hstep, if_neg hmne, hcame]
        exact validPathB_concat c.nodes c.edges c.mode c.sd c.gd _ _ _ _ hvalid hvs
      · rw [hstep, if_neg hmne, hcame]
        rw [spPathDist_concat c.edges _ p m
          (validPathB_last c.nodes c.edges c.mode c.sd c.gd _ _ _ hvalid), hdist]

/-- Reconstruction from the popped goal (open, not closed). -/
lemma spChain_found (c : SPCtx) (H : SPHyps c) (s : SPState) (I : SPInv c [] s)
    (t : String) (hto : t ∈ s.openL) (htc : t ∉ s.closed) :
    ∃ gv, s.g t = some gv ∧
      validPathB c.nodes c.edges c.mode c.sd c.gd c.startNodeId t
        (spChain s.came (s.closed.length + 2) t) = true ∧
      spPathDist c.edges (spChain s.came (s.closed.length + 2) t) = gv := by
  have htne : t ≠ "" := fun h => H.noEmpty (h ▸ I.openU t hto)
  have htstart : t ≠ c.startNodeId := fun h => htc (h ▸ I.startCl)
  rcases I.cameSome t (Or.inl hto) htstart with ⟨p, hp⟩
  rcases I.cameCl t p hp with ⟨hpcl, hvs⟩
  rcases I.cameG t p hp with ⟨gp, hgp, hgt⟩
  have hstep : spChain s.came (s.closed.length + 1 + 1) t =
      (if t = "" then []
       else match s.came t with
       | some p2 => spChain s.came (s.closed.length + 1) p2 ++ [t]
       | none => [t]) := rfl
  have hidxp : s.closed.indexOf p < s.closed.length := List.indexOf_lt_length.mpr hpcl
  rcases spChain_closed c H [] s I s.closed.length p hpcl hidxp (s.closed.length + 1)
    (by omega) with ⟨gp2, hgp2, hvalid, hdist⟩
  have hgg : gp2 = gp := by
    rw [hgp] at hgp2
    exact (Option.some.injEq _ _).mp hgp2.symm
  rw [hgg] at hdist
  refine ⟨gp + edgeDistOf c.edges p t, hgt, ?_, ?_⟩
  · rw [hstep, if_neg htne, hp]
    exact validPathB_concat c.nodes c.edges c.mode c.sd c.gd _ _ _ _ hvalid hvs
  · rw [hstep, if_neg htne, hp]
    rw [spPathDist_concat c.edges _ p t
      (validPathB_last c.nodes c.edges c.mode c.sd c.gd _ _ _ hvalid), hdist]

end Tracking.RoadPathfinding

namespace Tracking.RoadPathfinding

/-- The main loop, from any between-iterations invariant state: if a valid
path to the (not yet closed) goal exists and the fuel covers the remaining
universe, the loop finds the goal, returns a valid path whose edge distances
sum to the reported distance, and that distance is minimal over all valid
paths. -/
lemma spLoop_correct (c : SPCtx) (H : SPHyps c) (goalId : String) :
    ∀ (fuel : Nat) (s : SPState), SPInv c [] s →
      goalId ∉ s.closed →
      (∃ q0, validPathB c.nodes c.edges c.mode c.sd c.gd c.startNodeId goalId q0 = true) →
      (spUniverse c.nodes c.startNodeId).length + 1 ≤ fuel + s.closed.length →
      ∀ r s2,
        spLoop c.hav c.nodes c.edges c.mode c.sd c.gd goalId c.goalNode fuel s = (r, s2) →
        r.found = true ∧
        validPathB c.nodes c.edges c.mode c.sd c.gd c.startNodeId goalId r.path = true ∧
        r.distance = spPathDist c.edges r.path ∧
        ∀ q, validPathB c.nodes c.edges c.mode c.sd c.gd c.startNodeId goalId q = true →
          r.distance ≤ spPathDist c.edges q := by
  intro fuel
  induction fuel with
  | zero =>
    intro s I hgoal hex hbound r s2 hr
    have hsub : s.closed ⊆ spUniverse c.nodes c.startNodeId := fun a ha => I.closedU a ha
    have hlen := (I.closedND.subperm hsub).length_le
    omega
  | succ fuel ih =>
    intro s I hgoal hex hbound r s2 hr
    rcases hex with ⟨q0, hq0⟩
    rcases sp_frontier c H [] s I (fun z _ => List.not_mem_nil z) goalId q0 hgoal hq0 with
      ⟨w0, gw0, hw0, _, _⟩
    have hopenne : s.openL ≠ [] := List.ne_nil_of_mem hw0
    have hemp : ¬(s.openL.isEmpty = true) := by
      intro h
      cases hl : s.openL with
      | nil => exact hopenne hl
      | cons a t =>
        rw [hl] at h
        simp at h
    unfold spLoop at hr
    rw [if_neg hemp] at hr
    dsimp only at hr
    have hcne0 := sp_pop_ne c H s I hopenne
    rw [if_neg hcne0] at hr
    rcases sp_pop_min c H s I _ rfl hcne0 with ⟨hmem, hmin⟩
    by_cases hgl : spPop s.f s.openL = goalId
    · rw [if_pos hgl] at hr
      rw [hgl] at hr hmem hmin
      try dsimp only at hr
      rcases spChain_found c H s I goalId hmem hgoal with ⟨gv, hgv, hvalid, hdist⟩
      cases hr
      refine ⟨rfl, hvalid, ?_, ?_⟩
      · show (s.g goalId).getD 0 = _
        rw [hgv]
        simp only [Option.getD_some]
        exact hdist.symm
      · intro q hq
        rcases sp_frontier c H [] s I (fun z _ => List.not_mem_nil z) goalId q hgoal hq
          with ⟨w, gw, hwo, hgw, hineq⟩
        have hm := hmin w hwo gv gw hgv hgw
        show (s.g goalId).getD 0 ≤ _
        rw [hgv]
        simp only [Option.getD_some]
        linarith
    · rw [if_neg hgl] at hr
      try dsimp only at hr
      rcases sp_close c H s I _ rfl hcne0 with ⟨I1, gcv, hgcv⟩
      have hnotcl : spPop s.f s.openL ∉ s.closed := I.disj _ hmem
      have hcstart : spPop s.f s.openL ≠ c.startNodeId := fun h => hnotcl (h ▸ I.startCl)
      have hcU : spPop s.f s.openL ∈ spUniverse c.nodes c.startNodeId := I.openU _ hmem
      obtain ⟨n0, hn0⟩ := universe_resolves c H _ hcU hcstart
      have hn0mem : n0 ∈ c.nodes := List.mem_of_find?_eq_some hn0
      rw [hn0] at hr
      try dsimp only at hr
      rcases spRelax_foldl c H (spPop s.f s.openL) gcv n0 hn0 hn0mem n0.connections
        (fun b hb => hb) _ I1
        (List.mem_append_right _ (List.mem_singleton.mpr rfl)) hgcv with
        ⟨IF, hclF, hgF, hmonoF, hallF, hclosedF⟩
      have I2 := sp_assemble c (spPop s.f s.openL) gcv _ n0 hn0 IF hgF hallF
      have hgoal2 : goalId ∉
          (n0.connections.foldl
            (spRelax c.hav c.nodes c.edges c.mode c.sd c.gd c.goalNode
              (spPop s.f s.openL))
            { s with
              openL := s.openL.erase (spPop s.f s.openL)
              closed := s.closed ++ [spPop s.f s.openL] }).closed := by
        rw [hclosedF]
        intro h
        rcases List.mem_append.mp h with h1 | h1
        · exact hgoal h1
        · exact hgl (List.mem_singleton.mp h1).symm
      refine ih _ I2 hgoal2 ⟨q0, hq0⟩ ?_ r s2 hr
      rw [hclosedF]
      simp only [List.length_append, List.length_singleton]
      omega

end Tracking.RoadPathfinding

namespace Tracking.RoadPathfinding

/-! ### Decidable forms of the C2 hypotheses -/

def posDistB (edges : List (String × RoadEdge)) : Bool :=
  edges.all (fun p => decide (0 < p.2.distance))

def nonnegHB (hav : ℚ → ℚ → ℚ → ℚ → ℚ) (nodes : List RoadNode)
    (goalNode : RoadNode) (startNodeId : String) : Bool :=
  (spUniverse nodes startNodeId).all (fun u => decide (0 ≤ spH hav nodes goalNode u))

def consistentHB (hav : ℚ → ℚ → ℚ → ℚ → ℚ) (nodes : List RoadNode)
    (edges : List (String × RoadEdge)) (mode : String) (sd gd : Option Destination)
    (goalNode : RoadNode) : Bool :=
  nodes.all (fun n => n.connections.all (fun b =>
    match edgesGet edges (edgeKey n.id b) with
    | some e => !(isEdgeModeAllowed e.modes mode sd gd) ||
        decide (spH hav nodes goalNode n.id ≤ qAdd e.distance (spH hav nodes goalNode b))
    | none => true))

def noEmptyIdB (nodes : List RoadNode) (startNodeId : String) : Bool :=
  (spUniverse nodes startNodeId).all (fun u => !(u == ""))

def connResolvesB (nodes : List RoadNode) : Bool :=
  nodes.all (fun n => n.connections.all (fun b => (rnodesGet nodes b).isSome))

lemma mkSPHyps (hav : ℚ → ℚ → ℚ → ℚ → ℚ) (nodes : List RoadNode)
    (edges : List (String × RoadEdge)) (mode : String) (sd gd : Option Destination)
    (goalNode : RoadNode) (startNodeId : String)
    (h1 : posDistB edges = true)
    (h2 : nonnegHB hav nodes goalNode startNodeId = true)
    (h3 : consistentHB hav nodes edges mode sd gd goalNode = true)
    (h4 : noEmptyIdB nodes startNodeId = true)
    (h5 : connResolvesB nodes = true)
    (h6 : spH hav nodes goalNode startNodeId ≠ 0) :
    SPHyps ⟨hav, nodes, edges, mode, sd, gd, goalNode, startNodeId⟩ := by
  refine ⟨?_, ?_, ?_, ?_, ?_, h6⟩
  · intro p hp
    exact of_decide_eq_true (List.all_eq_true.mp h1 p hp)
  · intro n hn
    exact of_decide_eq_true (List.all_eq_true.mp h2 n hn)
  · intro n hn b hb e he hacc
    dsimp only at hn he hacc ⊢
    have hx := List.all_eq_true.mp (List.all_eq_true.mp h3 n hn) b hb
    rw [he] at hx
    dsimp only at hx
    rw [hacc] at hx
    simp only [Bool.not_true, Bool.false_or, decide_eq_true_eq] at hx
    rw [qAdd_eq] at hx
    exact hx
  · intro hmem
    have := List.all_eq_true.mp h4 "" hmem
    simp at this
  · intro n hn b hb
    exact List.all_eq_true.mp (List.all_eq_true.mp h5 n hn) b hb

/-- The first loop iteration, from the literal initial state: the start is
popped (its fScore is the nonzero heuristic, so the `|| Infinity` read does
not erase it), closed, and relaxed; then the main loop lemma applies. -/
lemma sp_first (c : SPCtx) (H : SPHyps c) (goalId : String) (startNode : RoadNode)
    (hsn : rnodesGet c.nodes c.startNodeId = some startNode)
    (heuristic : ℚ) (hheq : heuristic = spH c.hav c.nodes c.goalNode c.startNodeId)
    (q0 : List String)
    (hq0 : validPathB c.nodes c.edges c.mode c.sd c.gd c.startNodeId goalId q0 = true)
    (F : Nat) (hF : (spUniverse c.nodes c.startNodeId).length ≤ F)
    (r : PathResult) (s2 : SPState)
    (hr : spLoop c.hav c.nodes c.edges c.mode c.sd c.gd goalId c.goalNode (F + 1)
      ⟨[c.startNodeId], [],
        fun x => if x = c.startNodeId then some 0 else none,
        fun x => if x = c.startNodeId then some heuristic else none,
        fun _ => none⟩ = (r, s2)) :
    r.found = true ∧
    validPathB c.nodes c.edges c.mode c.sd c.gd c.startNodeId goalId r.path = true ∧
    r.distance = spPathDist c.edges r.path ∧
    ∀ q, validPathB c.nodes c.edges c.mode c.sd c.gd c.startNodeId goalId q = true →
      r.distance ≤ spPathDist c.edges q := by
  have hsU : c.startNodeId ∈ spUniverse c.nodes c.startNodeId := List.mem_cons_self _ _
  have hsne : c.startNodeId ≠ "" := fun h => H.noEmpty (h ▸ hsU)
  have hh0 : heuristic ≠ 0 := by
    rw [hheq]
    exact H.hstart
  unfold spLoop at hr
  have hemp : ¬(([c.startNodeId] : List String).isEmpty = true) := by simp
  rw [if_neg hemp] at hr
  try dsimp only at hr
  have hpop : spPop (fun x => if x = c.startNodeId then some heuristic else none)
      [c.startNodeId] = c.startNodeId := by
    show spPopGo _ [c.startNodeId] "" none = _
    unfold spPopGo
    have hjs : jsOrInf ((fun x => if x = c.startNodeId then some heuristic else none)
        c.startNodeId) = some heuristic := by
      show jsOrInf (if c.startNodeId = c.startNodeId then some heuristic else none) = _
      rw [if_pos rfl]
      show (if heuristic = 0 then none else some heuristic) = _
      rw [if_neg hh0]
    rw [hjs]
    rw [if_pos (by rfl : Pathfinding.optLt (some heuristic) none = true)]
    rfl
  rw [hpop] at hr
  rw [if_neg hsne] at hr
  by_cases hsg : c.startNodeId = goalId
  · rw [if_pos hsg] at hr
    try dsimp only at hr
    have hchain : spChain (fun _ => (none : Option String))
        (([] : List String).length + 2) c.startNodeId = [c.startNodeId] := by
      show spChain _ 2 _ = _
      unfold spChain
      rw [if_neg hsne]
    rw [hchain] at hr
    have hg0 : ((fun x => if x = c.startNodeId then some (0 : ℚ) else none) goalId).getD 0
        = 0 := by
      show ((if goalId = c.startNodeId then some (0 : ℚ) else none)).getD 0 = 0
      by_cases h : goalId = c.startNodeId
      · rw [if_pos h]
        rfl
      · rw [if_neg h]
        rfl
    cases hr
    refine ⟨rfl, ?_, ?_, ?_⟩
    · exact (validPathB_single_iff c.nodes c.edges c.mode c.sd c.gd _ _ _).mpr ⟨rfl, hsg⟩
    · show ((if goalId = c.startNodeId then some (0 : ℚ) else none)).getD 0 =
        spPathDist c.edges [c.startNodeId]
      rw [hg0]
      rfl
    · intro q hq
      show ((if goalId = c.startNodeId then some (0 : ℚ) else none)).getD 0 ≤
        spPathDist c.edges q
      rw [hg0]
      exact spPathDist_nonneg c.edges H.pos q
  · rw [if_neg hsg] at hr
    try dsimp only at hr
    rw [hsn] at hr
    try dsimp only at hr
    have herase : ([c.startNodeId] : List String).erase c.startNodeId = [] := by simp
    simp only [herase, List.nil_append] at hr
    have I1 : SPInv c [c.startNodeId]
        ⟨[], [c.startNodeId],
          fun x => if x = c.startNodeId then some 0 else none,
          fun x => if x = c.startNodeId then some heuristic else none,
          fun _ => none⟩ := by
      refine ⟨?_, ?_, ?_, ?_, ?_, ?_, ?_, ?_, ?_, ?_, ?_, ?_, ?_, ?_, ?_, ?_, ?_, ?_⟩
      · intro n hn
        cases hn
      · intro n hn
        rw [List.mem_singleton.mp hn]
        exact hsU
      · exact List.nodup_nil
      · simp
      · intro n hn
        cases hn
      · exact List.mem_singleton.mpr rfl
      · show (if c.startNodeId = c.startNodeId then some (0 : ℚ) else none) = some 0
        rw [if_pos rfl]
      · intro n hn
        cases hn
      · intro n gv hg
        dsimp only at hg
        by_cases h : n = c.startNodeId
        · subst h
          rw [if_pos rfl] at hg
          have : gv = 0 := ((Option.some.injEq _ _).mp hg).symm
          subst this
          exact ⟨le_refl 0, fun _ => rfl⟩
        · rw [if_neg h] at hg
          cases hg
      · intro n gv hg
        dsimp only at hg
        by_cases h : n = c.startNodeId
        · subst h
          exact Or.inr (List.mem_singleton.mpr rfl)
        · rw [if_neg h] at hg
          cases hg
      · intro n hn
        rw [List.mem_singleton.mp hn]
        refine ⟨0, ?_⟩
        show (if c.startNodeId = c.startNodeId then some (0 : ℚ) else none) = some 0
        rw [if_pos rfl]
      · intro n p hc
        cases hc
      · intro n p hc
        cases hc
      · intro n hn hne2
        rcases hn with h | h
        · cases h
        · exact absurd (List.mem_singleton.mp h) hne2
      · rfl
      · intro n p hc
        cases hc
      · intro n hn q hq
        rw [List.mem_singleton.mp hn] at hq ⊢
        refine ⟨0, ?_, ?_⟩
        · show (if c.startNodeId = c.startNodeId then some (0 : ℚ) else none) = some 0
          rw [if_pos rfl]
        · exact spPathDist_nonneg c.edges H.pos q
      · intro z hz hzex
        exact absurd hz (by simpa using hzex)
    have hg1 : (⟨[], [c.startNodeId],
        fun x => if x = c.startNodeId then some 0 else none,
        fun x => if x = c.startNodeId then some heuristic else none,
        fun _ => none⟩ : SPState).g c.startNodeId = some 0 := by
      show (if c.startNodeId = c.startNodeId then some (0 : ℚ) else none) = some 0
      rw [if_pos rfl]
    have hn0mem : startNode ∈ c.nodes := List.mem_of_find?_eq_some hsn
    rcases spRelax_foldl c H c.startNodeId 0 startNode hsn hn0mem startNode.connections
      (fun b hb => hb) _ I1 (List.mem_singleton.mpr rfl) hg1 with
      ⟨IF, hclF, hgF, hmonoF, hallF, hclosedF⟩
    have I2 := sp_assemble c c.startNodeId 0 _ startNode hsn IF hgF hallF
    have hgoal2 : goalId ∉
        (startNode.connections.foldl
          (spRelax c.hav c.nodes c.edges c.mode c.sd c.gd c.goalNode c.startNodeId)
          ⟨[], [c.startNodeId],
            fun x => if x = c.startNodeId then some 0 else none,
            fun x => if x = c.startNodeId then some heuristic else none,
            fun _ => none⟩).closed := by
      rw [hclosedF]
      intro h
      exact hsg (List.mem_singleton.mp h).symm
    refine spLoop_correct c H goalId F _ I2 hgoal2 ⟨q0, hq0⟩ ?_ r s2 hr
    rw [hclosedF]
    simp only [List.length_singleton]
    omega

end Tracking.RoadPathfinding

namespace Tracking.RoadPathfinding

/-- Claim C2 (amended): findShortestPath is a correct and optimal shortest-
path search once the claim's implicit well-formedness assumptions are made
explicit: both endpoints resolve, every edge length is positive, the
heuristic is nonnegative and consistent over the reachable universe, the
start's heuristic is nonzero (otherwise the `fScore.get || Infinity` falsy
read erases the start and nothing is ever popped — see the counterexample),
node ids are non-empty, every listed connection resolves, and some valid
mode-allowed path start→goal exists.  Then the search finds the goal and
returns a valid path whose edge-distance sum equals the reported distance,
which is minimal over all valid paths.  (The literal claim is refuted by
c2_counterexample_quirks: with start = goal, or with edges carrying an empty
mode-tag list — no mode restrictions — the search returns found=false.) -/
theorem c2_search_finds_optimal_path (hav : ℚ → ℚ → ℚ → ℚ → ℚ)
    (nodes : List RoadNode) (edges : List (String × RoadEdge))
    (startNodeId goalNodeId mode : String) (sd gd : Option Destination)
    (startNode goalNode : RoadNode) (q0 : List String)
    (hsn : rnodesGet nodes startNodeId = some startNode)
    (hgn : rnodesGet nodes goalNodeId = some goalNode)
    (hpos : posDistB edges = true)
    (hnn : nonnegHB hav nodes goalNode startNodeId = true)
    (hcons : consistentHB hav nodes edges mode sd gd goalNode = true)
    (hnoe : noEmptyIdB nodes startNodeId = true)
    (hconnr : connResolvesB nodes = true)
    (hh0 : spH hav nodes goalNode startNodeId ≠ 0)
    (hq0 : validPathB nodes edges mode sd gd startNodeId goalNodeId q0 = true) :
    (findShortestPath hav nodes edges startNodeId goalNodeId mode sd gd).found = true ∧
    validPathB nodes edges mode sd gd startNodeId goalNodeId
      (findShortestPath hav nodes edges startNodeId goalNodeId mode sd gd).path = true ∧
    (findShortestPath hav nodes edges startNodeId goalNodeId mode sd gd).distance =
      spPathDist edges
        (findShortestPath hav nodes edges startNodeId goalNodeId mode sd gd).path ∧
    ∀ q, validPathB nodes edges mode sd gd startNodeId goalNodeId q = true →
      (findShortestPath hav nodes edges startNodeId goalNodeId mode sd gd).distance ≤
        spPathDist edges q := by
  have H := mkSPHyps hav nodes edges mode sd gd goalNode startNodeId hpos hnn hcons
    hnoe hconnr hh0
  unfold findShortestPath
  rw [hgn, hsn]
  dsimp only
  exact sp_first ⟨hav, nodes, edges, mode, sd, gd, goalNode, startNodeId⟩ H goalNodeId
    startNode hsn (hav startNode.lat startNode.lng goalNode.lat goalNode.lng)
    (by unfold spH; rw [hsn]) q0 hq0 (spUniverse nodes startNodeId).length (le_refl _)
    _ _ Prod.mk.eta.symm

/-- Concrete witness graph for the amended C2 theorem: S—M—T in a line plus
a longer direct S—T edge; the heuristic is the along-line distance to T. -/
def c2whav : ℚ → ℚ → ℚ → ℚ → ℚ := fun _ ln _ lnb => qSub lnb ln
def c2wS : RoadNode := ⟨"S", 0, 0, ["M", "T"]⟩
def c2wM : RoadNode := ⟨"M", 0, 3, ["S", "T"]⟩
def c2wT : RoadNode := ⟨"T", 0, 7, ["S", "M"]⟩
def c2wnodes : List RoadNode := [c2wS, c2wM, c2wT]
def c2wedges : List (String × RoadEdge) :=
  [("S_M", ⟨"S", "M", 3, ["W"]⟩), ("M_S", ⟨"M", "S", 3, ["W"]⟩),
   ("M_T", ⟨"M", "T", 4, ["W"]⟩), ("T_M", ⟨"T", "M", 4, ["W"]⟩),
   ("S_T", ⟨"S", "T", 10, ["W"]⟩), ("T_S", ⟨"T", "S", 10, ["W"]⟩)]

/-- Witness for the amended C2 theorem at the concrete fixture. -/
theorem c2_search_finds_optimal_path_witness :
    (findShortestPath c2whav c2wnodes c2wedges "S" "T" "W" none none).found = true ∧
    validPathB c2wnodes c2wedges "W" none none "S" "T"
      (findShortestPath c2whav c2wnodes c2wedges "S" "T" "W" none none).path = true ∧
    (findShortestPath c2whav c2wnodes c2wedges "S" "T" "W" none none).distance =
      spPathDist c2wedges
        (findShortestPath c2whav c2wnodes c2wedges "S" "T" "W" none none).path ∧
    ∀ q, validPathB c2wnodes c2wedges "W" none none "S" "T" q = true →
      (findShortestPath c2whav c2wnodes c2wedges "S" "T" "W" none none).distance ≤
        spPathDist c2wedges q :=
  c2_search_finds_optimal_path c2whav c2wnodes c2wedges "S" "T" "W" none none
    c2wS c2wT ["S", "T"] (by decide) (by decide) (by decide) (by decide) (by decide)
    (by decide) (by decide) (by decide) (by decide)

end Tracking.RoadPathfinding

namespace Tracking.RoadPathfinding

/-- A mid-search state of the road search: S just closed with cost 0, M not
yet reached. -/
def c3roadState : SPState :=
  ⟨[], ["S"], fun x => if x = "S" then some 0 else none, fun _ => none, fun _ => none⟩

/-- Claim C3, counterexample: the claim also cites findShortestPath
(road-pathfinding.ts lines 338-365), whose relaxation stores the RAW edge
length — `tentativeG = gScore + edge.distance`, never divided by a mode
speed — and whose result reports a distance, not a travel time.  Relaxing
the Walking edge S-M of length 3 stores cost 3, where length / walking
speed would be 15/7; the found route's reported value 7 is likewise the raw
length sum, not 7 / speed. -/
theorem c3_counterexample_road_relaxes_raw_distance :
    edgesGet c2wedges (edgeKey "S" "M") = some ⟨"S", "M", 3, ["W"]⟩ ∧
    (spRelax c2whav c2wnodes c2wedges "W" none none c2wT "S" c3roadState "M").g "M" =
      some 3 ∧
    qDiv 3 (Pathfinding.speedOf "W") ≠ 3 ∧
    (findShortestPath c2whav c2wnodes c2wedges "S" "T" "W" none none).found = true ∧
    (findShortestPath c2whav c2wnodes c2wedges "S" "T" "W" none none).distance = 7 ∧
    qDiv 7 (Pathfinding.speedOf "W") ≠ 7 := by
  refine ⟨by decide, by decide, by decide, by decide, by decide, by decide⟩

end Tracking.RoadPathfinding
